import Mathlib

/-! d2q9-bgk: row-block decomposition of a D2Q9 lattice-Boltzmann solver

A shallow embedding of `d2q9-bgk.c`.

Conventions of the embedding

* C `float` values are idealised as exact rationals (`ℚ`): a float stands for the
  real number it rounds.  The `const float` weights of `collision` are initialised
  from the literals `0.4444444444`, `0.1111111111` and `0.0277777777`; a `float`
  holds about seven decimal digits, and these literals round to the same floats
  as `4.0/9.0`, `1.0/9.0` and `1.0/36.0`, the quotients `initialise` uses, so the
  three constants stand for `4/9`, `1/9` and `1/36`.
* A float division is the rational quotient when the divisor is not zero.  A
  division by zero gives NaN or an infinity, which no rational stands for; that
  case is modelled apart by `float_div`, `u_x_float`, `u_y_float`,
  `collision_store` and `collision_float`, which agree with the rational model
  whenever the divisor is not zero (`collision_float_of_ne`).
* C `int` values that the program keeps non-negative (grid sizes, ranks, row
  and column indices) are natural numbers.  On a grid with `ny ≥ 1` and
  `nx ≥ 1` every subtraction of the source is exact on them, see
  `row_range_end_exact` for the one in `end = start + ny/nprocs - 1`.
* An array of `t_speed` is a function from the flat index `ii*nx + jj` to the
  cell, a cell is a function from the direction index to its value.
* The file-scope variables `rank` and `nprocs` are explicit arguments.
-/

namespace D2Q9

/-! ## Data model -/

/-- Number of speeds per cell, `#define NSPEEDS 9`. -/
def NSPEEDS : Nat := 9

/-- Rank of the coordinating process, `#define MASTER 0`. -/
def MASTER : Nat := 0

/-- Parameter record, `t_param` of the source. -/
structure t_param where
  nx : Nat
  ny : Nat
  maxIters : Nat
  reynolds_dim : Nat
  density : ℚ
  accel : ℚ
  omega : ℚ
  rest : Nat

/-- One cell, the array `speeds[NSPEEDS]` of `t_speed`. -/
abbrev t_speed := Nat → ℚ

/-- An array of cells, indexed by the flat index `ii*nx + jj`. -/
abbrev Grid := Nat → t_speed

/-- The obstacle array, indexed like a grid; non-zero means blocked. -/
abbrev Obstacles := Nat → Int

/-- A message buffer of `9*nx` floats. -/
abbrev Buffer := Nat → ℚ

/-- The assignment `g[idx].speeds[k] = v`. -/
def set_speed (g : Grid) (idx k : Nat) (v : ℚ) : Grid :=
  fun i c => if i = idx ∧ c = k then v else g i c

/-- The loop `for (i = 0; i < n; i++) body`, as a state transformer. -/
def loop {σ : Type} (body : Nat → σ → σ) : Nat → σ → σ
  | 0, s => s
  | n + 1, s => body n (loop body n s)

/-- The loop `for (ii = start; ii <= end; ii++) body`. -/
def loop_range {σ : Type} (start stop : Nat) (body : Nat → σ → σ) (s : σ) : σ :=
  loop (fun k => body (start + k)) (stop + 1 - start) s

/-! ## Domain partition -/

/-- The assignment `params.rest = params.ny % nprocs` of `main`. -/
def set_rest (params : t_param) (nprocs : Nat) : t_param :=
  { params with rest := params.ny % nprocs }

/-- The `start`/`end` computation that `main`, `propagate`, `rebound` and
`collision` each repeat: both are initialised to `0` and only assigned when
`params.rest != 0`. -/
def row_range (ny rest rank nprocs : Nat) : Nat × Nat :=
  if rest ≠ 0 then
    if rank ≥ rest then
      let start := rest * (ny / nprocs + 1) + (rank - rest) * (ny / nprocs)
      (start, start + ny / nprocs - 1)
    else
      let start := rank * (ny / nprocs + 1)
      (start, start + ny / nprocs)
  else
    (0, 0)

/-- Outcome of the partition computation of worker `rank` among `nprocs` for
`ny` rows.  The source has no check of `nprocs` against `ny` and no call of
`die` on this path, so the outcome is always a range. -/
def partition_outcome (ny nprocs rank : Nat) : Except String (Nat × Nat) :=
  Except.ok (row_range ny (ny % nprocs) rank nprocs)

/-! ## Halo exchange and streaming (`propagate`) -/

/-- The assignment `buf[i] = v` on a message buffer. -/
def set_buf (b : Buffer) (i : Nat) (v : ℚ) : Buffer :=
  fun j => if j = i then v else b j

/-- The loops `buf[9*hh+ff] = cells[row*nx + hh].speeds[ff]` that copy one row
of the grid into a send buffer. -/
def pack_row (nx : Nat) (cells : Grid) (row : Nat) (buf : Buffer) : Buffer :=
  loop (fun hh b => loop (fun ff b => set_buf b (9 * hh + ff) (cells (row * nx + hh) ff)) 9 b)
    nx buf

/-- The loops `cells[row*nx + hh].speeds[ff] = buf[9*hh+ff]` that copy a
received buffer into one row of the grid. -/
def unpack_row (nx : Nat) (cells : Grid) (row : Nat) (buf : Buffer) : Grid :=
  loop (fun hh c => loop (fun ff c => set_speed c (row * nx + hh) ff (buf (9 * hh + ff))) 9 c)
    nx cells

/-- The rank `(rank + 1) % nprocs` a worker sends its last row to. -/
def rank_right (rank nprocs : Nat) : Nat := (rank + 1) % nprocs

/-- The rank `rank - 1`, or `nprocs - 1` when that is negative. -/
def rank_left (rank nprocs : Nat) : Nat := if rank = 0 then nprocs - 1 else rank - 1

/-- The row `h_south` below the block: `ny-1` if `start == 0`, else `start-1`. -/
def h_south (ny start : Nat) : Nat := if start = 0 then ny - 1 else start - 1

/-- The row `h_north` above the block: `0` if `end == ny-1`, else `end+1`. -/
def h_north (ny stop : Nat) : Nat := if stop = ny - 1 then 0 else stop + 1

/-- The content of `halo_south` that a worker sends to `rank_right`: its row `end`. -/
def send_south (params : t_param) (rank nprocs : Nat) (cells : Grid) : Buffer :=
  pack_row params.nx cells (row_range params.ny params.rest rank nprocs).2 (fun _ => 0)

/-- The grid after the first receive: `halo_south_r` copied into row `h_south`. -/
def recv_south (params : t_param) (rank nprocs : Nat) (halo_south_r : Buffer)
    (cells : Grid) : Grid :=
  unpack_row params.nx cells
    (h_south params.ny (row_range params.ny params.rest rank nprocs).1) halo_south_r

/-- The content of `halo_north` that a worker sends to `rank_left`: its row
`start`, read after the first receive. -/
def send_north (params : t_param) (rank nprocs : Nat) (halo_south_r : Buffer)
    (cells : Grid) : Buffer :=
  pack_row params.nx (recv_south params rank nprocs halo_south_r cells)
    (row_range params.ny params.rest rank nprocs).1 (fun _ => 0)

/-- The halo-exchange phase of `propagate` on one worker, given the two
buffers the worker receives.  As in the source, row `h_north` is filled from
`halo_south_r`; `halo_north_r` is received and not read. -/
def halo_phase (params : t_param) (rank nprocs : Nat) (halo_south_r halo_north_r : Buffer)
    (cells : Grid) : Grid :=
  let stop := (row_range params.ny params.rest rank nprocs).2
  let cells1 := recv_south params rank nprocs halo_south_r cells
  let _halo_north_r := halo_north_r
  unpack_row params.nx cells1 (h_north params.ny stop) halo_south_r

/-- The forcing block of `propagate`, applied to the cell `(ii, jj)`. -/
def accelerate_cell (params : t_param) (cells : Grid) (obstacles : Obstacles)
    (ii jj : Nat) : Grid :=
  let w1 := params.density * params.accel / 9
  let w2 := params.density * params.accel / 36
  let idx := ii * params.nx + jj
  if obstacles idx = 0 ∧ cells idx 3 - w1 > 0 ∧ cells idx 6 - w2 > 0 ∧ cells idx 7 - w2 > 0 then
    let c1 := set_speed cells idx 1 (cells idx 1 + w1)
    let c2 := set_speed c1 idx 5 (c1 idx 5 + w2)
    let c3 := set_speed c2 idx 8 (c2 idx 8 + w2)
    let c4 := set_speed c3 idx 3 (c3 idx 3 - w1)
    let c5 := set_speed c4 idx 6 (c4 idx 6 - w2)
    set_speed c5 idx 7 (c5 idx 7 - w2)
  else
    cells

/-- Northern neighbour row `(ii + 1) % ny`. -/
def y_n (ny ii : Nat) : Nat := (ii + 1) % ny

/-- Southern neighbour row `(ii == 0) ? (ii + ny - 1) : (ii - 1)`. -/
def y_s (ny ii : Nat) : Nat := if ii = 0 then ii + ny - 1 else ii - 1

/-- Eastern neighbour column `(jj + 1) % nx`. -/
def x_e (nx jj : Nat) : Nat := (jj + 1) % nx

/-- Western neighbour column `(jj == 0) ? (jj + nx - 1) : (jj - 1)`. -/
def x_w (nx jj : Nat) : Nat := if jj = 0 then jj + nx - 1 else jj - 1

/-- The nine assignments that scatter the cell `(ii, jj)` into `tmp_cells`. -/
def scatter_cell (params : t_param) (cells : Grid) (ii jj : Nat) (tmp_cells : Grid) : Grid :=
  let nx := params.nx
  let yn := y_n params.ny ii
  let ys := y_s params.ny ii
  let xe := x_e nx jj
  let xw := x_w nx jj
  let t0 := set_speed tmp_cells (ii * nx + jj) 0 (cells (ii * nx + jj) 0)
  let t1 := set_speed t0 (ii * nx + xe) 1 (cells (ii * nx + jj) 1)
  let t2 := set_speed t1 (yn * nx + jj) 2 (cells (ii * nx + jj) 2)
  let t3 := set_speed t2 (ii * nx + xw) 3 (cells (ii * nx + jj) 3)
  let t4 := set_speed t3 (ys * nx + jj) 4 (cells (ii * nx + jj) 4)
  let t5 := set_speed t4 (yn * nx + xe) 5 (cells (ii * nx + jj) 5)
  let t6 := set_speed t5 (yn * nx + xw) 6 (cells (ii * nx + jj) 6)
  let t7 := set_speed t6 (ys * nx + xw) 7 (cells (ii * nx + jj) 7)
  set_speed t7 (ys * nx + xe) 8 (cells (ii * nx + jj) 8)

/-- The loop over `jj` that scatters row `ii`. -/
def scatter_row (params : t_param) (cells : Grid) (ii : Nat) (tmp_cells : Grid) : Grid :=
  loop (fun jj t => scatter_cell params cells ii jj t) params.nx tmp_cells

/-- One row of the streaming phase: force the cell `(ii, 0)`, then scatter row `ii`. -/
def stream_row (params : t_param) (obstacles : Obstacles) (ii : Nat)
    (s : Grid × Grid) : Grid × Grid :=
  let cells := accelerate_cell params s.1 obstacles ii 0
  (cells, scatter_row params cells ii s.2)

/-- The part of `propagate` after the halo exchange: rows `h_south`, `h_north`
and then `start..end` are each forced at column 0 and scattered. -/
def stream_phase (params : t_param) (rank nprocs : Nat) (obstacles : Obstacles)
    (s : Grid × Grid) : Grid × Grid :=
  let start := (row_range params.ny params.rest rank nprocs).1
  let stop := (row_range params.ny params.rest rank nprocs).2
  let s1 := stream_row params obstacles (h_south params.ny start) s
  let s2 := stream_row params obstacles (h_north params.ny stop) s1
  loop_range start stop (fun ii s => stream_row params obstacles ii s) s2

/-- The function `propagate` on one worker, given the buffers it receives.
Returns `(cells, tmp_cells)`. -/
def propagate (params : t_param) (rank nprocs : Nat) (halo_south_r halo_north_r : Buffer)
    (cells tmp_cells : Grid) (obstacles : Obstacles) : Grid × Grid :=
  stream_phase params rank nprocs obstacles
    (halo_phase params rank nprocs halo_south_r halo_north_r cells, tmp_cells)

/-! ## Bounce-back (`rebound`) -/

/-- The eight assignments of `rebound` for the cell with flat index `idx`. -/
def rebound_cell (cells tmp_cells : Grid) (idx : Nat) : Grid :=
  let c1 := set_speed cells idx 1 (tmp_cells idx 3)
  let c2 := set_speed c1 idx 2 (tmp_cells idx 4)
  let c3 := set_speed c2 idx 3 (tmp_cells idx 1)
  let c4 := set_speed c3 idx 4 (tmp_cells idx 2)
  let c5 := set_speed c4 idx 5 (tmp_cells idx 7)
  let c6 := set_speed c5 idx 6 (tmp_cells idx 8)
  let c7 := set_speed c6 idx 7 (tmp_cells idx 5)
  set_speed c7 idx 8 (tmp_cells idx 6)

/-- The function `rebound`: returns the new `cells`. -/
def rebound (params : t_param) (rank nprocs : Nat) (cells tmp_cells : Grid)
    (obstacles : Obstacles) : Grid :=
  let start := (row_range params.ny params.rest rank nprocs).1
  let stop := (row_range params.ny params.rest rank nprocs).2
  loop_range start stop
    (fun ii c => loop (fun jj c =>
      if obstacles (ii * params.nx + jj) ≠ 0 then rebound_cell c tmp_cells (ii * params.nx + jj)
      else c) params.nx c) cells

/-! ## BGK relaxation (`collision`) -/

/-- The constant `const float w0 = 0.4444444444` of `collision`.  The float it holds
is the float nearest to `4/9` (the literal and `4.0/9.0` round to the same float),
so the constant stands for `4/9`. -/
def collision_w0 : ℚ := 4 / 9

/-- The constant `const float w1 = 0.1111111111` of `collision`.  The float it holds
is the float nearest to `1/9`, so the constant stands for `1/9`. -/
def collision_w1 : ℚ := 1 / 9

/-- The constant `const float w2 = 0.0277777777` of `collision`.  The float it holds
is the float nearest to `1/36`, so the constant stands for `1/36`. -/
def collision_w2 : ℚ := 1 / 36

/-- The sum of the nine speeds of a cell, as `collision` writes it out. -/
def local_density (f : t_speed) : ℚ :=
  f 0 + f 1 + f 2 + f 3 + f 4 + f 5 + f 6 + f 7 + f 8

/-- The x velocity component `u_x` of a cell.  The quotient is the value of the
float division when `local_density f` is not zero; `u_x_float` covers a zero
`local_density` as well. -/
def u_x (f : t_speed) : ℚ := (f 1 + f 5 + f 8 - (f 3 + f 6 + f 7)) / local_density f

/-- The y velocity component `u_y` of a cell.  The quotient is the value of the
float division when `local_density f` is not zero; `u_y_float` covers a zero
`local_density` as well. -/
def u_y (f : t_speed) : ℚ := (f 2 + f 5 + f 6 - (f 4 + f 7 + f 8)) / local_density f

/-- The value `u_sq = (u_x*u_x + u_y*u_y)*1.5`. -/
def u_sq (f : t_speed) : ℚ := (u_x f * u_x f + u_y f * u_y f) * (3 / 2)

/-- The nine relaxation assignments of `collision` for the cell `idx`, reading
the scratch cell `tmp_cells[idx]`. -/
def collision_cell (omega : ℚ) (cells tmp_cells : Grid) (idx : Nat) : Grid :=
  let f := tmp_cells idx
  let ld := local_density f
  let ux := u_x f
  let uy := u_y f
  let usq := u_sq f
  let w0 := collision_w0
  let w1 := collision_w1
  let w2 := collision_w2
  let c0 := set_speed cells idx 0 (f 0 + omega * ((w0 * ld * (1 - usq)) - f 0))
  let c1 := set_speed c0 idx 1
    (f 1 + omega * ((w1 * ld * (1 + ux * 3 + (ux * ux) * (9 / 2) - usq)) - f 1))
  let c2 := set_speed c1 idx 2
    (f 2 + omega * ((w1 * ld * (1 + uy * 3 + (uy * uy) * (9 / 2) - usq)) - f 2))
  let c3 := set_speed c2 idx 3
    (f 3 + omega * ((w1 * ld * (1 - ux * 3 + (ux * ux) * (9 / 2) - usq)) - f 3))
  let c4 := set_speed c3 idx 4
    (f 4 + omega * ((w1 * ld * (1 - uy * 3 + (uy * uy) * (9 / 2) - usq)) - f 4))
  let c5 := set_speed c4 idx 5
    (f 5 + omega * ((w2 * ld * (1 + (ux + uy) * 3 + ((ux + uy) * (ux + uy)) * (9 / 2) - usq))
      - f 5))
  let c6 := set_speed c5 idx 6
    (f 6 + omega * ((w2 * ld * (1 + (uy - ux) * 3 + ((uy - ux) * (uy - ux)) * (9 / 2) - usq))
      - f 6))
  let c7 := set_speed c6 idx 7
    (f 7 + omega * ((w2 * ld * (1 + (-uy - ux) * 3 + ((-uy - ux) * (-uy - ux)) * (9 / 2) - usq))
      - f 7))
  set_speed c7 idx 8
    (f 8 + omega * ((w2 * ld * (1 + (ux - uy) * 3 + ((ux - uy) * (ux - uy)) * (9 / 2) - usq))
      - f 8))

/-- The function `collision`: returns the new `cells`. -/
def collision (params : t_param) (rank nprocs : Nat) (cells tmp_cells : Grid)
    (obstacles : Obstacles) : Grid :=
  let start := (row_range params.ny params.rest rank nprocs).1
  let stop := (row_range params.ny params.rest rank nprocs).2
  loop_range start stop
    (fun ii c => loop (fun jj c =>
      if obstacles (ii * params.nx + jj) = 0 then
        collision_cell params.omega c tmp_cells (ii * params.nx + jj)
      else c) params.nx c) cells

/-! ## One timestep on one worker, and on all workers -/

/-- The function `timestep` on one worker, given the buffers its `propagate`
receives: `propagate`, `rebound`, `collision`.  Returns `(cells, tmp_cells)`. -/
def timestep (params : t_param) (rank nprocs : Nat) (halo_south_r halo_north_r : Buffer)
    (cells tmp_cells : Grid) (obstacles : Obstacles) : Grid × Grid :=
  let p := propagate params rank nprocs halo_south_r halo_north_r cells tmp_cells obstacles
  let c := rebound params rank nprocs p.1 p.2 obstacles
  (collision params rank nprocs c p.2 obstacles, p.2)

/-- The state of all workers: for each rank its `(cells, tmp_cells)`. -/
abbrev World := Nat → Grid × Grid

/-- The buffer worker `rank` receives in its first `MPI_Sendrecv`: the
`halo_south` that `rank_left` sends. -/
def halo_south_r (params : t_param) (nprocs : Nat) (w : World) (rank : Nat) : Buffer :=
  send_south params (rank_left rank nprocs) nprocs (w (rank_left rank nprocs)).1

/-- The buffer worker `rank` receives in its second `MPI_Sendrecv`: the
`halo_north` that `rank_right` sends. -/
def halo_north_r (params : t_param) (nprocs : Nat) (w : World) (rank : Nat) : Buffer :=
  send_north params (rank_right rank nprocs) nprocs
    (halo_south_r params nprocs w (rank_right rank nprocs)) (w (rank_right rank nprocs)).1

/-- The grids of all workers after the halo-exchange phase of `propagate`. -/
def halo_exchange (params : t_param) (nprocs : Nat) (w : World) : Nat → Grid :=
  fun rank => halo_phase params rank nprocs (halo_south_r params nprocs w rank)
    (halo_north_r params nprocs w rank) (w rank).1

/-- One call of `timestep` on every worker. -/
def timestep_all (params : t_param) (nprocs : Nat) (obstacles : Obstacles) (w : World) : World :=
  fun rank => timestep params rank nprocs (halo_south_r params nprocs w rank)
    (halo_north_r params nprocs w rank) (w rank).1 (w rank).2 obstacles

/-- The state of all workers after `n` iterations of the loop of `main`. -/
def run (params : t_param) (nprocs : Nat) (obstacles : Obstacles) : Nat → World → World
  | 0, w => w
  | n + 1, w => timestep_all params nprocs obstacles (run params nprocs obstacles n w)

/-- The start of a run: `main` sets `params.rest`, and every process holds the
grid `cells` built by `initialise` and its own scratch grid. -/
def start_world (cells : Grid) (tmp_cells : Nat → Grid) : World :=
  fun rank => (cells, tmp_cells rank)

/-! ## Average velocity and total density -/

/-- The loop `for (tt = 0; tt < NSPEEDS; tt++) local_density += speeds[tt]`. -/
def sum_speeds (f : t_speed) : ℚ :=
  loop (fun tt acc => acc + f tt) NSPEEDS 0

/-- The accumulation of `main` for one cell: a non-obstacle cell adds its x
velocity to `l_tot_u_x` and one to `l_tot_cells`. -/
def av_cell (cells : Grid) (obstacles : Obstacles) (idx : Nat) (acc : ℚ × Nat) : ℚ × Nat :=
  if obstacles idx = 0 then
    (acc.1 + (cells idx 1 + cells idx 5 + cells idx 8
        - (cells idx 3 + cells idx 6 + cells idx 7)) / sum_speeds (cells idx),
     acc.2 + 1)
  else acc

/-- The partial sum and count `(l_tot_u_x, l_tot_cells)` of one worker in `main`. -/
def local_av (params : t_param) (rank nprocs : Nat) (cells : Grid)
    (obstacles : Obstacles) : ℚ × Nat :=
  let start := (row_range params.ny params.rest rank nprocs).1
  let stop := (row_range params.ny params.rest rank nprocs).2
  loop_range start stop
    (fun kk acc => loop (fun jj acc => av_cell cells obstacles (kk * params.nx + jj) acc)
      params.nx acc) (0, 0)

/-- The value the coordinator stores in `av_vels[ii]`: its own partial sums,
plus those received from the sources `1 .. nprocs-1`, then the quotient. -/
def av_vels_entry (params : t_param) (nprocs : Nat) (cells : Nat → Grid)
    (obstacles : Obstacles) : ℚ :=
  let own := local_av params MASTER nprocs (cells MASTER) obstacles
  let tot := loop (fun k acc =>
      let l := local_av params (1 + k) nprocs (cells (1 + k)) obstacles
      (acc.1 + l.1, acc.2 + l.2)) (nprocs - 1) own
  tot.1 / (tot.2 : ℚ)

/-- The function `av_velocity`: the average over the whole grid of one process. -/
def av_velocity (params : t_param) (cells : Grid) (obstacles : Obstacles) : ℚ :=
  let tot := loop (fun ii acc => loop (fun jj acc =>
      av_cell cells obstacles (ii * params.nx + jj) acc) params.nx acc) params.ny (0, 0)
  tot.1 / (tot.2 : ℚ)

/-- The function `total_density`: the sum of all speeds of all cells. -/
def total_density (params : t_param) (cells : Grid) : ℚ :=
  loop (fun ii total => loop (fun jj total => loop (fun kk total =>
      total + cells (ii * params.nx + jj) kk) NSPEEDS total) params.nx total) params.ny 0

/-! ## Initial densities (`initialise`) -/

/-- The nine assignments of `initialise` for the cell `idx`. -/
def initialise_cell (w0 w1 w2 : ℚ) (cells : Grid) (idx : Nat) : Grid :=
  let c0 := set_speed cells idx 0 w0
  let c1 := set_speed c0 idx 1 w1
  let c2 := set_speed c1 idx 2 w1
  let c3 := set_speed c2 idx 3 w1
  let c4 := set_speed c3 idx 4 w1
  let c5 := set_speed c4 idx 5 w2
  let c6 := set_speed c5 idx 6 w2
  let c7 := set_speed c6 idx 7 w2
  set_speed c7 idx 8 w2

/-- The density initialisation of `initialise`: every cell of the freshly
allocated grid `raw` gets `density * 4/9`, `density / 9` and `density / 36`. -/
def initialise_cells (params : t_param) (raw : Grid) : Grid :=
  let w0 := params.density * 4 / 9
  let w1 := params.density / 9
  let w2 := params.density / 36
  loop (fun ii c => loop (fun jj c => initialise_cell w0 w1 w2 c (ii * params.nx + jj))
    params.nx c) params.ny raw

/-! ## Closed forms used by the proofs -/

/-- The value `rebound` leaves in component `k` of an obstacle cell whose
scratch cell is `t` and whose previous value of the component is `x`. -/
def rebound_val (t : t_speed) (k : Nat) (x : ℚ) : ℚ :=
  if k = 1 then t 3 else if k = 2 then t 4 else if k = 3 then t 1 else if k = 4 then t 2
  else if k = 5 then t 7 else if k = 6 then t 8 else if k = 7 then t 5 else if k = 8 then t 6
  else x

/-- Selection among nine values by the direction index `k`; `x` for `k ≥ 9`. -/
def chain9 (v0 v1 v2 v3 v4 v5 v6 v7 v8 : ℚ) (k : Nat) (x : ℚ) : ℚ :=
  if k = 8 then v8 else if k = 7 then v7 else if k = 6 then v6 else if k = 5 then v5
  else if k = 4 then v4 else if k = 3 then v3 else if k = 2 then v2 else if k = 1 then v1
  else if k = 0 then v0 else x

/-- The value `collision` leaves in component `k` of a non-obstacle cell whose
scratch cell is `f` and whose previous value of the component is `x`. -/
def collision_val (omega : ℚ) (f : t_speed) (k : Nat) (x : ℚ) : ℚ :=
  let ld := local_density f
  let ux := u_x f
  let uy := u_y f
  let usq := u_sq f
  chain9
    (f 0 + omega * ((collision_w0 * ld * (1 - usq)) - f 0))
    (f 1 + omega * ((collision_w1 * ld * (1 + ux * 3 + (ux * ux) * (9 / 2) - usq)) - f 1))
    (f 2 + omega * ((collision_w1 * ld * (1 + uy * 3 + (uy * uy) * (9 / 2) - usq)) - f 2))
    (f 3 + omega * ((collision_w1 * ld * (1 - ux * 3 + (ux * ux) * (9 / 2) - usq)) - f 3))
    (f 4 + omega * ((collision_w1 * ld * (1 - uy * 3 + (uy * uy) * (9 / 2) - usq)) - f 4))
    (f 5 + omega * ((collision_w2 * ld
      * (1 + (ux + uy) * 3 + ((ux + uy) * (ux + uy)) * (9 / 2) - usq)) - f 5))
    (f 6 + omega * ((collision_w2 * ld
      * (1 + (uy - ux) * 3 + ((uy - ux) * (uy - ux)) * (9 / 2) - usq)) - f 6))
    (f 7 + omega * ((collision_w2 * ld
      * (1 + (-uy - ux) * 3 + ((-uy - ux) * (-uy - ux)) * (9 / 2) - usq)) - f 7))
    (f 8 + omega * ((collision_w2 * ld
      * (1 + (ux - uy) * 3 + ((ux - uy) * (ux - uy)) * (9 / 2) - usq)) - f 8))
    k x

/-- The row into which the scatter of a cell of row `ii` writes component `k`. -/
def dest_row (ny k ii : Nat) : Nat :=
  if k = 0 ∨ k = 1 ∨ k = 3 then ii else if k = 2 ∨ k = 5 ∨ k = 6 then y_n ny ii else y_s ny ii

/-- The column into which the scatter of a cell of column `jj` writes component `k`. -/
def dest_col (nx k jj : Nat) : Nat :=
  if k = 0 ∨ k = 2 ∨ k = 4 then jj else if k = 1 ∨ k = 5 ∨ k = 8 then x_e nx jj else x_w nx jj

/-- The row from which component `k` of a cell of row `i` is streamed: one step
against direction `k`. -/
def src_row (ny k i : Nat) : Nat :=
  if k = 0 ∨ k = 1 ∨ k = 3 then i else if k = 2 ∨ k = 5 ∨ k = 6 then y_s ny i else y_n ny i

/-- The column from which component `k` of a cell of column `j` is streamed. -/
def src_col (nx k j : Nat) : Nat :=
  if k = 0 ∨ k = 2 ∨ k = 4 then j else if k = 1 ∨ k = 5 ∨ k = 8 then x_w nx j else x_e nx j

/-- Every scratch slot whose source row is in `S` holds the value of its source cell. -/
def Streamed (params : t_param) (S : Nat → Prop) (s : Grid × Grid) : Prop :=
  ∀ i j k, i < params.ny → j < params.nx → k ≤ 8 → S (src_row params.ny k i) →
    s.2 (i * params.nx + j) k
      = s.1 (src_row params.ny k i * params.nx + src_col params.nx k j) k

/-! ## The relaxation formula in the words of the specification -/

/-- The x component of the D2Q9 direction vector `e_k`. -/
def e_x (k : Nat) : ℚ :=
  if k = 1 ∨ k = 5 ∨ k = 8 then 1 else if k = 3 ∨ k = 6 ∨ k = 7 then -1 else 0

/-- The y component of the D2Q9 direction vector `e_k`. -/
def e_y (k : Nat) : ℚ :=
  if k = 2 ∨ k = 5 ∨ k = 6 then 1 else if k = 4 ∨ k = 7 ∨ k = 8 then -1 else 0

/-- Lattice weights: `w0` for the rest direction, `w1` for the four axis directions,
`w2` for the four diagonals. -/
def lattice_weight (w0 w1 w2 : ℚ) (k : Nat) : ℚ :=
  if k = 0 then w0 else if k ≤ 4 then w1 else w2

/-- The sum over the nine directions of `g k`. -/
def sum9 (g : Nat → ℚ) : ℚ := g 0 + g 1 + g 2 + g 3 + g 4 + g 5 + g 6 + g 7 + g 8

/-- The equilibrium `eq_k = w_k * rho * (1 + 3 (e_k.u) + 4.5 (e_k.u)^2 - 1.5 (u.u))`
with `rho` the sum of `f` and `u = (sum of e_k * f_k) / rho`. -/
def spec_equilibrium (w : Nat → ℚ) (f : t_speed) (k : Nat) : ℚ :=
  let rho := sum9 f
  let ux := sum9 (fun j => e_x j * f j) / rho
  let uy := sum9 (fun j => e_y j * f j) / rho
  let eu := e_x k * ux + e_y k * uy
  w k * rho * (1 + 3 * eu + (9 / 2) * eu ^ 2 - (3 / 2) * (ux * ux + uy * uy))

/-- The BGK relaxation `f_k + omega * (eq_k - f_k)`. -/
def spec_bgk (w : Nat → ℚ) (omega : ℚ) (f : t_speed) (k : Nat) : ℚ :=
  f k + omega * (spec_equilibrium w f k - f k)

/-! ## Concrete inputs used by the examples -/

/-- Parameters of a grid of `nx` columns and `ny` rows split among `nprocs`
workers, with `density = 1`, the given `accel` and `omega`, and `rest` as `main`
sets it. -/
def example_params (nx ny nprocs : Nat) (accel omega : ℚ) : t_param :=
  set_rest { nx := nx, ny := ny, maxIters := 1, reynolds_dim := 1, density := 1,
             accel := accel, omega := omega, rest := 0 } nprocs

/-- A grid without obstacles. -/
def no_obstacles : Obstacles := fun _ => 0

/-- A grid with one obstacle, at flat index `idx`. -/
def one_obstacle (idx : Nat) : Obstacles := fun i => if i = idx then 1 else 0

/-- A grid whose cell `i` holds the value `10 * i + k` in component `k`. -/
def ramp_grid : Grid := fun i k => 10 * (i : ℚ) + (k : ℚ)

/-- A grid whose cells all hold `1` in every component. -/
def ones_grid : Grid := fun _ _ => 1

/-- A state of all workers in which cell `i` of worker `r` holds `100 * r + 10 * i + k`
in component `k`, so that every value names its worker and its cell. -/
def ranked_world : World := fun r => (fun i k => 100 * (r : ℚ) + 10 * (i : ℚ) + (k : ℚ), ones_grid)

/-- The grid every process holds after `initialise`, for the example parameters. -/
def example_init (nx ny : Nat) : Grid :=
  initialise_cells (example_params nx ny 1 0 1) (fun _ _ => 0)

/-! ## Closed forms of the forcing block -/

/-- The guard of the forcing block for the cell with flat index `idx`. -/
def forcing_guard (params : t_param) (cells : Grid) (obstacles : Obstacles) (idx : Nat) : Prop :=
  obstacles idx = 0 ∧ cells idx 3 - params.density * params.accel / 9 > 0
    ∧ cells idx 6 - params.density * params.accel / 36 > 0
    ∧ cells idx 7 - params.density * params.accel / 36 > 0

instance forcing_guard_decidable (params : t_param) (cells : Grid) (obstacles : Obstacles)
    (idx : Nat) : Decidable (forcing_guard params cells obstacles idx) := by
  unfold forcing_guard
  infer_instance

/-- The value the six assignments of the forcing block leave in component `k` of a
cell that held `c`. -/
def forced_val (w1 w2 : ℚ) (c : t_speed) (k : Nat) : ℚ :=
  if k = 7 then c 7 - w2 else if k = 6 then c 6 - w2 else if k = 3 then c 3 - w1
  else if k = 8 then c 8 + w2 else if k = 5 then c 5 + w2 else if k = 1 then c 1 + w1
  else c k

/-- The call of `propagate` on every worker. -/
def propagate_all (params : t_param) (nprocs : Nat) (obstacles : Obstacles) (w : World) : World :=
  fun rank => propagate params rank nprocs (halo_south_r params nprocs w rank)
    (halo_north_r params nprocs w rank) (w rank).1 (w rank).2 obstacles

/-! ## Closed forms of `collision` -/

/-- The equilibrium value that `collision` computes for component `k` of the scratch
cell `f`: the expressions `w * local_density * (1.0 + ... - u_sq)` of the nine
assignments. -/
def collision_equ (f : t_speed) (k : Nat) : ℚ :=
  let ld := local_density f
  let ux := u_x f
  let uy := u_y f
  let usq := u_sq f
  chain9
    (collision_w0 * ld * (1 - usq))
    (collision_w1 * ld * (1 + ux * 3 + (ux * ux) * (9 / 2) - usq))
    (collision_w1 * ld * (1 + uy * 3 + (uy * uy) * (9 / 2) - usq))
    (collision_w1 * ld * (1 - ux * 3 + (ux * ux) * (9 / 2) - usq))
    (collision_w1 * ld * (1 - uy * 3 + (uy * uy) * (9 / 2) - usq))
    (collision_w2 * ld * (1 + (ux + uy) * 3 + ((ux + uy) * (ux + uy)) * (9 / 2) - usq))
    (collision_w2 * ld * (1 + (uy - ux) * 3 + ((uy - ux) * (uy - ux)) * (9 / 2) - usq))
    (collision_w2 * ld * (1 + (-uy - ux) * 3 + ((-uy - ux) * (-uy - ux)) * (9 / 2) - usq))
    (collision_w2 * ld * (1 + (ux - uy) * 3 + ((ux - uy) * (ux - uy)) * (9 / 2) - usq))
    k 0


/-- A grid whose cells all hold `0` in every component. -/
def zero_grid : Grid := fun _ _ => 0

/-- A grid whose cells all hold the nine values `197/450`, `133/900`, `197/1800`,
`73/900`, `197/1800`, `133/3600`, `73/3600`, `73/3600`, `133/3600`: density 1 and
velocity `(1/10, 0)`. -/
def equilibrium_grid : Grid :=
  fun _ k => chain9 (197 / 450) (133 / 900) (197 / 1800) (73 / 900) (197 / 1800)
    (133 / 3600) (73 / 3600) (73 / 3600) (133 / 3600) k 0

/-! ## `collision` with the float division by `local_density` -/

/-- The float division `x / y` of two finite values: the quotient when `y` is not zero;
for `y = 0` the result is NaN or an infinity, no finite value, written `none`. -/
def float_div (x y : ℚ) : Option ℚ := if y = 0 then none else some (x / y)

/-- The value `u_x` of `collision` as a float: `none` when it is NaN or an infinity. -/
def u_x_float (f : t_speed) : Option ℚ :=
  float_div (f 1 + f 5 + f 8 - (f 3 + f 6 + f 7)) (local_density f)

/-- The value `u_y` of `collision` as a float: `none` when it is NaN or an infinity. -/
def u_y_float (f : t_speed) : Option ℚ :=
  float_div (f 2 + f 5 + f 6 - (f 4 + f 7 + f 8)) (local_density f)

/-- The right-hand sides of the nine assignments of `collision` for the scratch cell `f`
and finite values `ux`, `uy` of `u_x` and `u_y`. -/
def collision_expr (omega : ℚ) (f : t_speed) (ux uy : ℚ) (k : Nat) : ℚ :=
  let ld := local_density f
  let usq := (ux * ux + uy * uy) * (3 / 2)
  chain9
    (f 0 + omega * ((collision_w0 * ld * (1 - usq)) - f 0))
    (f 1 + omega * ((collision_w1 * ld * (1 + ux * 3 + (ux * ux) * (9 / 2) - usq)) - f 1))
    (f 2 + omega * ((collision_w1 * ld * (1 + uy * 3 + (uy * uy) * (9 / 2) - usq)) - f 2))
    (f 3 + omega * ((collision_w1 * ld * (1 - ux * 3 + (ux * ux) * (9 / 2) - usq)) - f 3))
    (f 4 + omega * ((collision_w1 * ld * (1 - uy * 3 + (uy * uy) * (9 / 2) - usq)) - f 4))
    (f 5 + omega * ((collision_w2 * ld
      * (1 + (ux + uy) * 3 + ((ux + uy) * (ux + uy)) * (9 / 2) - usq)) - f 5))
    (f 6 + omega * ((collision_w2 * ld
      * (1 + (uy - ux) * 3 + ((uy - ux) * (uy - ux)) * (9 / 2) - usq)) - f 6))
    (f 7 + omega * ((collision_w2 * ld
      * (1 + (-uy - ux) * 3 + ((-uy - ux) * (-uy - ux)) * (9 / 2) - usq)) - f 7))
    (f 8 + omega * ((collision_w2 * ld
      * (1 + (ux - uy) * 3 + ((ux - uy) * (ux - uy)) * (9 / 2) - usq)) - f 8))
    k 0

/-- The float that `collision` stores in component `k` of a non-obstacle cell with the
scratch cell `f`: `none` when it is NaN or an infinity.  A float addition,
subtraction or multiplication with an operand that is NaN or an infinity gives NaN or
an infinity, and each of the nine right-hand sides has `u_sq`, so `u_x` and `u_y`, among
its operands: the stored value is finite only when both quotients are. -/
def collision_store (omega : ℚ) (f : t_speed) (k : Nat) : Option ℚ :=
  match u_x_float f, u_y_float f with
  | some ux, some uy => some (collision_expr omega f ux uy k)
  | _, _ => none

/-- An array of cells whose floats may be NaN or infinite (`none`), indexed like a
grid. -/
abbrev FloatGrid := Nat → Nat → Option ℚ

/-- The assignment `g[idx].speeds[k] = v` on such an array. -/
def set_speed_float (g : FloatGrid) (idx k : Nat) (v : Option ℚ) : FloatGrid :=
  fun i c => if i = idx ∧ c = k then v else g i c

/-- The nine relaxation assignments of `collision` for the cell `idx`, with the floats
they store. -/
def collision_cell_float (omega : ℚ) (cells : FloatGrid) (tmp_cells : Grid) (idx : Nat) :
    FloatGrid :=
  let f := tmp_cells idx
  let c0 := set_speed_float cells idx 0 (collision_store omega f 0)
  let c1 := set_speed_float c0 idx 1 (collision_store omega f 1)
  let c2 := set_speed_float c1 idx 2 (collision_store omega f 2)
  let c3 := set_speed_float c2 idx 3 (collision_store omega f 3)
  let c4 := set_speed_float c3 idx 4 (collision_store omega f 4)
  let c5 := set_speed_float c4 idx 5 (collision_store omega f 5)
  let c6 := set_speed_float c5 idx 6 (collision_store omega f 6)
  let c7 := set_speed_float c6 idx 7 (collision_store omega f 7)
  set_speed_float c7 idx 8 (collision_store omega f 8)

/-- The function `collision` with the floats it stores: the loops of `collision` over a
scratch grid of finite values. -/
def collision_float (params : t_param) (rank nprocs : Nat) (cells : FloatGrid)
    (tmp_cells : Grid) (obstacles : Obstacles) : FloatGrid :=
  let start := (row_range params.ny params.rest rank nprocs).1
  let stop := (row_range params.ny params.rest rank nprocs).2
  loop_range start stop
    (fun ii c => loop (fun jj c =>
      if obstacles (ii * params.nx + jj) = 0 then
        collision_cell_float params.omega c tmp_cells (ii * params.nx + jj)
      else c) params.nx c) cells

/-- Outcome of `collision`.  The source has no check of `local_density` and no call of
`die` in `collision`, so the outcome is always the array it has written. -/
def collision_outcome (params : t_param) (rank nprocs : Nat) (cells : FloatGrid)
    (tmp_cells : Grid) (obstacles : Obstacles) : Except String FloatGrid :=
  Except.ok (collision_float params rank nprocs cells tmp_cells obstacles)

/-- A grid of finite values as an array of floats. -/
def finite_grid (cells : Grid) : FloatGrid := fun i k => some (cells i k)

/-- A grid whose cells all hold `1, 1, 1, 1, 1, -1, -1, -1, -2`, which sum to zero. -/
def zero_sum_grid : Grid :=
  fun _ k => chain9 1 1 1 1 1 (-1) (-1) (-1) (-2) k 0

/-! ## The average velocity in the words of the specification -/

/-- The sum, over the non-obstacle cells of row `r`, of the x velocity of the cell. -/
def row_u_x (nx : Nat) (cells : Grid) (obstacles : Obstacles) (r : Nat) : ℚ :=
  Finset.sum (Finset.range nx)
    (fun j => if obstacles (r * nx + j) = 0 then u_x (cells (r * nx + j)) else 0)

/-- The number of non-obstacle cells of row `r`. -/
def row_count (nx : Nat) (obstacles : Obstacles) (r : Nat) : Nat :=
  Finset.sum (Finset.range nx) (fun j => if obstacles (r * nx + j) = 0 then 1 else 0)

/-- The sum of the x velocities of the non-obstacle cells of the grid divided by the
number of non-obstacle cells. -/
def spec_av_velocity (params : t_param) (cells : Grid) (obstacles : Obstacles) : ℚ :=
  Finset.sum (Finset.range params.ny) (fun i => row_u_x params.nx cells obstacles i)
    / ((Finset.sum (Finset.range params.ny) (fun i => row_count params.nx obstacles i) : Nat) : ℚ)

/-- Two grids agree on every non-obstacle cell of the `nx` by `ny` grid. -/
def agree_off_obstacles (params : t_param) (obstacles : Obstacles) (c1 c2 : Grid) : Prop :=
  ∀ i j k, i < params.ny → j < params.nx → k ≤ 8 → obstacles (i * params.nx + j) = 0 →
    c1 (i * params.nx + j) k = c2 (i * params.nx + j) k

/-- The grid `ramp_grid` with the cell of flat index 1 replaced by zeros. -/
def ramp_grid_cleared : Grid := fun i k => if i = 1 then 0 else ramp_grid i k

/-! ## Loading the obstacle file (`initialise`) -/

/-- One call of `fscanf(fp,"%d %d %d\n", &xx, &yy, &blocked)` that did not return `EOF`:
its return value and the three variables after the call. -/
structure obstacle_line where
  retval : Int
  xx : Int
  yy : Int
  blocked : Int

/-- The assignment `obstacles[i] = v`. -/
def set_obstacle (obstacles : Obstacles) (i : Nat) (v : Int) : Obstacles :=
  fun d => if d = i then v else obstacles d

/-- The loops of `initialise` that set all cells in the obstacle array to zero. -/
def clear_obstacles (params : t_param) (raw : Obstacles) : Obstacles :=
  loop (fun ii o => loop (fun jj o => set_obstacle o (ii * params.nx + jj) 0) params.nx o)
    params.ny raw

/-- The body of the reading loop of `initialise`: the four checks, each ending the run
through `die`, then the assignment `obstacles[yy*nx + xx] = blocked`. -/
def load_obstacle_line (params : t_param) (e : obstacle_line) (obstacles : Obstacles) :
    Except String Obstacles :=
  if e.retval ≠ 3 then Except.error "expected 3 values per line in obstacle file"
  else if e.xx < 0 ∨ e.xx > (params.nx : Int) - 1 then
    Except.error "obstacle x-coord out of range"
  else if e.yy < 0 ∨ e.yy > (params.ny : Int) - 1 then
    Except.error "obstacle y-coord out of range"
  else if e.blocked ≠ 1 then Except.error "obstacle blocked value should be 1"
  else Except.ok (set_obstacle obstacles (e.yy * (params.nx : Int) + e.xx).toNat e.blocked)

/-- The reading loop of `initialise` over the lines of the obstacle file. -/
def load_obstacle_lines (params : t_param) : List obstacle_line → Obstacles →
    Except String Obstacles
  | [], obstacles => Except.ok obstacles
  | e :: es, obstacles =>
    match load_obstacle_line params e obstacles with
    | Except.error msg => Except.error msg
    | Except.ok o => load_obstacle_lines params es o

/-- The obstacle part of `initialise`: clear the freshly allocated array `raw`, then
read the file. -/
def load_obstacles (params : t_param) (lines : List obstacle_line) (raw : Obstacles) :
    Except String Obstacles :=
  load_obstacle_lines params lines (clear_obstacles params raw)

/-- What the claim asks of an entry: three values, coordinates in range, flag 1. -/
def valid_line (params : t_param) (e : obstacle_line) : Prop :=
  e.retval = 3 ∧ 0 ≤ e.xx ∧ e.xx ≤ (params.nx : Int) - 1 ∧ 0 ≤ e.yy
    ∧ e.yy ≤ (params.ny : Int) - 1 ∧ e.blocked = 1

/-- The entry `(xx, yy)` is listed, for natural numbers `j` and `i`. -/
def listed (lines : List obstacle_line) (i j : Nat) : Prop :=
  ∃ e, e ∈ lines ∧ e.yy = (i : Int) ∧ e.xx = (j : Int)

/-! ## Uniform grids -/

/-- The nine values `initialise` gives every cell: `density * 4/9`, four times
`density / 9`, four times `density / 36`. -/
def initial_speeds (params : t_param) : t_speed :=
  fun k => chain9 (params.density * 4 / 9) (params.density / 9) (params.density / 9)
    (params.density / 9) (params.density / 9) (params.density / 36) (params.density / 36)
    (params.density / 36) (params.density / 36) k 0

/-- Every cell of the `nx` by `ny` grid holds the values `v` in its components 0..8. -/
def Uniform (params : t_param) (v : t_speed) (c : Grid) : Prop :=
  ∀ i j k, i < params.ny → j < params.nx → k ≤ 8 → c (i * params.nx + j) k = v k

/-- Every entry of a row buffer holds the value `v` of its component. -/
def UniformBuffer (params : t_param) (v : t_speed) (b : Buffer) : Prop :=
  ∀ hh ff, hh < params.nx → ff < 9 → b (9 * hh + ff) = v ff

/-! ## Partition: lemmas -/

/-- The subtraction in `end = start + ny/nprocs - 1` is exact: in that branch
`start ≥ 1`. -/
theorem row_range_end_exact (ny rest rank nprocs : Nat) (h0 : rest ≠ 0)
    (h1 : rank ≥ rest) :
    1 ≤ rest * (ny / nprocs + 1) + (rank - rest) * (ny / nprocs) + ny / nprocs := by
  have h2 : 1 ≤ rest * (ny / nprocs + 1) :=
    Nat.mul_pos (Nat.pos_of_ne_zero h0) (Nat.succ_pos _)
  have _h3 : rest ≤ rank := h1
  exact le_trans h2 (le_trans (Nat.le_add_right _ _) (Nat.le_add_right _ _))

theorem row_range_lt_rest (ny rest rank nprocs : Nat) (h : rank < rest) :
    row_range ny rest rank nprocs
      = (rank * (ny / nprocs + 1), rank * (ny / nprocs + 1) + ny / nprocs) := by
  have h0 : rest ≠ 0 := by omega
  have h1 : ¬ rank ≥ rest := by omega
  simp [row_range, h0, h1]

theorem row_range_ge_rest (ny rest rank nprocs : Nat) (h0 : rest ≠ 0) (h : rest ≤ rank) :
    row_range ny rest rank nprocs
      = (rest * (ny / nprocs + 1) + (rank - rest) * (ny / nprocs),
         rest * (ny / nprocs + 1) + (rank - rest) * (ny / nprocs) + ny / nprocs - 1) := by
  simp [row_range, h0, h]

theorem row_range_rest_zero (ny rank nprocs : Nat) :
    row_range ny 0 rank nprocs = (0, 0) := by
  simp [row_range]

/-- For `r < nprocs` and `rest = ny % nprocs ≠ 0`, the last row of worker `r` is a row
of the grid. -/
theorem row_range_stop_lt (ny nprocs rank : Nat) (hr : rank < nprocs) (h0 : ny % nprocs ≠ 0) :
    (row_range ny (ny % nprocs) rank nprocs).2 < ny := by
  have hdm : nprocs * (ny / nprocs) + ny % nprocs = ny := Nat.div_add_mod ny nprocs
  have hlt : ny % nprocs < nprocs := Nat.mod_lt _ (by omega)
  generalize hm : ny % nprocs = m at *
  by_cases h : rank < m
  · rw [row_range_lt_rest _ _ _ _ h]
    dsimp only
    generalize ny / nprocs = q at *
    have h1 : (rank + 1) * (q + 1) ≤ m * (q + 1) := Nat.mul_le_mul_right _ h
    have h2 : m * q ≤ nprocs * q := Nat.mul_le_mul_right _ (by omega)
    have e1 : (rank + 1) * (q + 1) = rank * (q + 1) + q + 1 := by ring
    have e2 : m * (q + 1) = m * q + m := by ring
    omega
  · obtain ⟨d, rfl⟩ := Nat.exists_eq_add_of_le (Nat.le_of_not_lt h)
    rw [row_range_ge_rest _ _ _ _ h0 (Nat.le_add_right _ _)]
    dsimp only
    generalize ny / nprocs = q at *
    have h1 : (m + d + 1) * q ≤ nprocs * q := Nat.mul_le_mul_right _ hr
    have e0 : m + d - m = d := by omega
    have e1 : (m + d + 1) * q = m * q + d * q + q := by ring
    have e2 : m * (q + 1) = m * q + m := by ring
    rw [e0]
    omega

/-! ## Loops that update cells in place -/

theorem set_speed_apply (g : Grid) (idx k : Nat) (v : ℚ) (i c : Nat) :
    set_speed g idx k v i c = if i = idx ∧ c = k then v else g i c := rfl

theorem loop_succ {σ : Type} (body : Nat → σ → σ) (n : Nat) (s : σ) :
    loop body (n + 1) s = body n (loop body n s) := rfl

/-- A loop whose iterations leave cell `i` alone leaves cell `i` alone. -/
theorem loop_visit_miss {α : Type} (f : Nat → (Nat → Nat → α) → (Nat → Nat → α))
    (V : Nat → Nat → Prop) (hmiss : ∀ m c i k, ¬ V m i → f m c i k = c i k)
    (n : Nat) (c : Nat → Nat → α) (i k : Nat) (h : ∀ m, m < n → ¬ V m i) :
    loop f n c i k = c i k := by
  induction n with
  | zero => rfl
  | succ n ih =>
    rw [loop_succ, hmiss n _ i k (h n (Nat.lt_succ_self n))]
    exact ih (fun m hm => h m (Nat.lt_succ_of_lt hm))

/-- A loop whose iterations apply the idempotent map `H i k` to the cells they
visit applies `H i k` to every cell visited by some iteration. -/
theorem loop_visit_hit {α : Type} (f : Nat → (Nat → Nat → α) → (Nat → Nat → α))
    (V : Nat → Nat → Prop) (H : Nat → Nat → α → α)
    (hhit : ∀ m c i k, V m i → f m c i k = H i k (c i k))
    (hmiss : ∀ m c i k, ¬ V m i → f m c i k = c i k)
    (hidem : ∀ i k x, H i k (H i k x) = H i k x)
    (n : Nat) (c : Nat → Nat → α) (i k : Nat) (h : ∃ m, m < n ∧ V m i) :
    loop f n c i k = H i k (c i k) := by
  induction n with
  | zero =>
    obtain ⟨m, hm, _⟩ := h
    exact absurd hm (Nat.not_lt_zero m)
  | succ n ih =>
    rw [loop_succ]
    by_cases hprev : ∃ m, m < n ∧ V m i
    · by_cases hn : V n i
      · rw [hhit n _ i k hn, ih hprev, hidem]
      · rw [hmiss n _ i k hn, ih hprev]
    · have hnone : ∀ m, m < n → ¬ V m i := fun m hm hv => hprev ⟨m, hm, hv⟩
      obtain ⟨m, hm, hv⟩ := h
      have hmn : m = n := by
        rcases Nat.lt_succ_iff_lt_or_eq.mp hm with h1 | h1
        · exact absurd hv (hnone m h1)
        · exact h1
      subst hmn
      rw [hhit m _ i k hv, loop_visit_miss f V hmiss m c i k hnone]

/-- The double loop over rows `start..stop` and columns `0..nx-1` that applies `step`
to each cell: a cell inside the swept rows is mapped by `H`. -/
theorem sweep_hit {α : Type} (nx start stop : Nat)
    (step : Nat → (Nat → Nat → α) → (Nat → Nat → α)) (H : Nat → Nat → α → α)
    (hstep : ∀ idx c i k, step idx c i k = if i = idx then H idx k (c idx k) else c i k)
    (hidem : ∀ i k x, H i k (H i k x) = H i k x)
    (c : Nat → Nat → α) (ii jj k : Nat) (h1 : start ≤ ii) (h2 : ii ≤ stop) (h3 : jj < nx) :
    loop_range start stop (fun r c => loop (fun q c => step (r * nx + q) c) nx c) c
        (ii * nx + jj) k
      = H (ii * nx + jj) k (c (ii * nx + jj) k) := by
  have inner_hit : ∀ r c i k, (∃ q, q < nx ∧ i = r * nx + q) →
      loop (fun q c => step (r * nx + q) c) nx c i k = H i k (c i k) := by
    intro r c i k hv
    refine loop_visit_hit (fun q c => step (r * nx + q) c) (fun q i => i = r * nx + q) H
      ?_ ?_ hidem nx c i k hv
    · intro m c i k hm
      show step (r * nx + m) c i k = _
      rw [hstep, if_pos hm, hm]
    · intro m c i k hm
      show step (r * nx + m) c i k = _
      rw [hstep, if_neg hm]
  have inner_miss : ∀ r c i k, (¬ ∃ q, q < nx ∧ i = r * nx + q) →
      loop (fun q c => step (r * nx + q) c) nx c i k = c i k := by
    intro r c i k hv
    refine loop_visit_miss (fun q c => step (r * nx + q) c) (fun q i => i = r * nx + q)
      ?_ nx c i k (fun m hm hq => hv ⟨m, hm, hq⟩)
    intro m c i k hm
    show step (r * nx + m) c i k = _
    rw [hstep, if_neg hm]
  unfold loop_range
  refine loop_visit_hit (fun m c => loop (fun q c => step ((start + m) * nx + q) c) nx c)
    (fun m i => ∃ q, q < nx ∧ i = (start + m) * nx + q) H ?_ ?_ hidem _ c _ k ?_
  · intro m c i k hv
    exact inner_hit (start + m) c i k hv
  · intro m c i k hv
    exact inner_miss (start + m) c i k hv
  · refine ⟨ii - start, by omega, jj, h3, ?_⟩
    have : start + (ii - start) = ii := by omega
    rw [this]

/-- The same double loop leaves every cell outside the swept rows and columns
as it was. -/
theorem sweep_miss (nx start stop : Nat) (step : Nat → Grid → Grid)
    (hstep : ∀ idx c i k, i ≠ idx → step idx c i k = c i k)
    (c : Grid) (i k : Nat)
    (h : ∀ ii jj, start ≤ ii → ii ≤ stop → jj < nx → i ≠ ii * nx + jj) :
    loop_range start stop (fun r c => loop (fun q c => step (r * nx + q) c) nx c) c i k
      = c i k := by
  unfold loop_range
  refine loop_visit_miss (fun m c => loop (fun q c => step ((start + m) * nx + q) c) nx c)
    (fun m i => ∃ q, q < nx ∧ i = (start + m) * nx + q) ?_ _ c i k ?_
  · intro m c i k hm
    refine loop_visit_miss (fun q c => step ((start + m) * nx + q) c)
      (fun q i => i = (start + m) * nx + q) ?_ nx c i k (fun q hq he => hm ⟨q, hq, he⟩)
    intro q c i k hq
    exact hstep _ c i k hq
  · rintro m hm ⟨q, hq, he⟩
    exact h (start + m) q (by omega) (by omega) hq he

/-! ## `rebound` and `collision`, cell by cell -/

theorem rebound_cell_apply (cells tmp_cells : Grid) (idx i k : Nat) :
    rebound_cell cells tmp_cells idx i k
      = if i = idx then rebound_val (tmp_cells idx) k (cells idx k) else cells i k := by
  unfold rebound_cell rebound_val
  simp only [set_speed_apply]
  by_cases hi : i = idx
  · subst hi
    simp only [true_and, if_true]
    split_ifs <;> first | rfl | omega
  · simp [hi]

theorem rebound_val_idem (t : t_speed) (k : Nat) (x : ℚ) :
    rebound_val t k (rebound_val t k x) = rebound_val t k x := by
  unfold rebound_val
  split_ifs <;> rfl

theorem chain9_idem (v0 v1 v2 v3 v4 v5 v6 v7 v8 : ℚ) (k : Nat) (x : ℚ) :
    chain9 v0 v1 v2 v3 v4 v5 v6 v7 v8 k (chain9 v0 v1 v2 v3 v4 v5 v6 v7 v8 k x)
      = chain9 v0 v1 v2 v3 v4 v5 v6 v7 v8 k x := by
  unfold chain9
  split_ifs <;> rfl

/-- Nine successive writes of the components `0..8` of the cell `idx`. -/
theorem set9_apply (g : Grid) (idx : Nat) (v0 v1 v2 v3 v4 v5 v6 v7 v8 : ℚ) (i k : Nat) :
    set_speed (set_speed (set_speed (set_speed (set_speed (set_speed (set_speed (set_speed
      (set_speed g idx 0 v0) idx 1 v1) idx 2 v2) idx 3 v3) idx 4 v4) idx 5 v5) idx 6 v6)
      idx 7 v7) idx 8 v8 i k
      = if i = idx then chain9 v0 v1 v2 v3 v4 v5 v6 v7 v8 k (g idx k) else g i k := by
  unfold chain9
  simp only [set_speed_apply]
  by_cases hi : i = idx
  · subst hi
    simp only [true_and, if_true]
  · simp only [hi, false_and, if_false]

theorem collision_cell_apply (omega : ℚ) (cells tmp_cells : Grid) (idx i k : Nat) :
    collision_cell omega cells tmp_cells idx i k
      = if i = idx then collision_val omega (tmp_cells idx) k (cells idx k) else cells i k := by
  unfold collision_cell collision_val
  exact set9_apply cells idx _ _ _ _ _ _ _ _ _ i k

theorem collision_val_idem (omega : ℚ) (f : t_speed) (k : Nat) (x : ℚ) :
    collision_val omega f k (collision_val omega f k x) = collision_val omega f k x := by
  unfold collision_val
  exact chain9_idem _ _ _ _ _ _ _ _ _ k x

/-- What `rebound` leaves in a cell of the worker's rows. -/
theorem rebound_owned (params : t_param) (rank nprocs : Nat) (cells tmp_cells : Grid)
    (obstacles : Obstacles) (ii jj k : Nat)
    (h1 : (row_range params.ny params.rest rank nprocs).1 ≤ ii)
    (h2 : ii ≤ (row_range params.ny params.rest rank nprocs).2) (h3 : jj < params.nx) :
    rebound params rank nprocs cells tmp_cells obstacles (ii * params.nx + jj) k
      = if obstacles (ii * params.nx + jj) ≠ 0
        then rebound_val (tmp_cells (ii * params.nx + jj)) k (cells (ii * params.nx + jj) k)
        else cells (ii * params.nx + jj) k := by
  unfold rebound
  refine sweep_hit params.nx _ _
    (fun idx c => if obstacles idx ≠ 0 then rebound_cell c tmp_cells idx else c)
    (fun i k x => if obstacles i ≠ 0 then rebound_val (tmp_cells i) k x else x)
    ?_ ?_ cells ii jj k h1 h2 h3
  · intro idx c i k
    by_cases ho : obstacles idx ≠ 0
    · simp only [if_pos ho, rebound_cell_apply]
    · simp only [if_neg ho]
      split_ifs with hi
      · rw [hi]
      · rfl
  · intro i k x
    by_cases ho : obstacles i ≠ 0
    · simp only [if_pos ho, rebound_val_idem]
    · simp only [if_neg ho]

/-- What `collision` leaves in a cell of the worker's rows. -/
theorem collision_owned (params : t_param) (rank nprocs : Nat) (cells tmp_cells : Grid)
    (obstacles : Obstacles) (ii jj k : Nat)
    (h1 : (row_range params.ny params.rest rank nprocs).1 ≤ ii)
    (h2 : ii ≤ (row_range params.ny params.rest rank nprocs).2) (h3 : jj < params.nx) :
    collision params rank nprocs cells tmp_cells obstacles (ii * params.nx + jj) k
      = if obstacles (ii * params.nx + jj) = 0
        then collision_val params.omega (tmp_cells (ii * params.nx + jj)) k
          (cells (ii * params.nx + jj) k)
        else cells (ii * params.nx + jj) k := by
  unfold collision
  refine sweep_hit params.nx _ _
    (fun idx c => if obstacles idx = 0 then collision_cell params.omega c tmp_cells idx else c)
    (fun i k x => if obstacles i = 0 then collision_val params.omega (tmp_cells i) k x else x)
    ?_ ?_ cells ii jj k h1 h2 h3
  · intro idx c i k
    by_cases ho : obstacles idx = 0
    · simp only [if_pos ho, collision_cell_apply]
    · simp only [if_neg ho]
      split_ifs with hi
      · rw [hi]
      · rfl
  · intro i k x
    by_cases ho : obstacles i = 0
    · simp only [if_pos ho, collision_val_idem]
    · simp only [if_neg ho]

/-! ## Streaming: the scatter of `propagate` -/

theorem flat_index_inj (nx a b a' b' : Nat) (hb : b < nx) (hb' : b' < nx)
    (h : a * nx + b = a' * nx + b') : a = a' ∧ b = b' := by
  have hnx : 0 < nx := by omega
  have h1 : (a * nx + b) / nx = a := by
    rw [Nat.add_comm, Nat.add_mul_div_right _ _ hnx, Nat.div_eq_of_lt hb, Nat.zero_add]
  have h2 : (a' * nx + b') / nx = a' := by
    rw [Nat.add_comm, Nat.add_mul_div_right _ _ hnx, Nat.div_eq_of_lt hb', Nat.zero_add]
  have h3 : (a * nx + b) % nx = b := by
    rw [Nat.add_comm, Nat.add_mul_mod_self_right, Nat.mod_eq_of_lt hb]
  have h4 : (a' * nx + b') % nx = b' := by
    rw [Nat.add_comm, Nat.add_mul_mod_self_right, Nat.mod_eq_of_lt hb']
  constructor
  · rw [← h1, ← h2, h]
  · rw [← h3, ← h4, h]

theorem x_e_lt (nx jj : Nat) (h : 0 < nx) : x_e nx jj < nx := Nat.mod_lt _ h

theorem x_w_lt (nx jj : Nat) (h : jj < nx) : x_w nx jj < nx := by
  unfold x_w
  split_ifs <;> omega

theorem y_n_lt (ny ii : Nat) (h : 0 < ny) : y_n ny ii < ny := Nat.mod_lt _ h

theorem y_s_lt (ny ii : Nat) (h : ii < ny) : y_s ny ii < ny := by
  unfold y_s
  split_ifs <;> omega

/-- Stepping east lands on `j` exactly from the western neighbour of `j`. -/
theorem x_e_eq_iff (nx jj j : Nat) (hjj : jj < nx) (hj : j < nx) :
    x_e nx jj = j ↔ jj = x_w nx j := by
  unfold x_e x_w
  by_cases h1 : jj + 1 = nx
  · rw [h1, Nat.mod_self]
    split_ifs <;> omega
  · rw [Nat.mod_eq_of_lt (by omega)]
    split_ifs <;> omega

/-- Stepping west lands on `j` exactly from the eastern neighbour of `j`. -/
theorem x_w_eq_iff (nx jj j : Nat) (hjj : jj < nx) (hj : j < nx) :
    x_w nx jj = j ↔ jj = x_e nx j := by
  unfold x_e x_w
  by_cases h1 : j + 1 = nx
  · rw [h1, Nat.mod_self]
    split_ifs <;> omega
  · rw [Nat.mod_eq_of_lt (by omega)]
    split_ifs <;> omega

theorem y_n_eq_iff (ny ii i : Nat) (hii : ii < ny) (hi : i < ny) :
    y_n ny ii = i ↔ ii = y_s ny i :=
  x_e_eq_iff ny ii i hii hi

theorem y_s_eq_iff (ny ii i : Nat) (hii : ii < ny) (hi : i < ny) :
    y_s ny ii = i ↔ ii = y_n ny i :=
  x_w_eq_iff ny ii i hii hi

theorem dest_col_lt (nx k jj : Nat) (h : jj < nx) : dest_col nx k jj < nx := by
  unfold dest_col
  split_ifs
  · exact h
  · exact x_e_lt nx jj (by omega)
  · exact x_w_lt nx jj h

theorem src_col_lt (nx k j : Nat) (h : j < nx) : src_col nx k j < nx := by
  unfold src_col
  split_ifs
  · exact h
  · exact x_w_lt nx j h
  · exact x_e_lt nx j (by omega)

theorem dest_row_lt (ny k ii : Nat) (h : ii < ny) : dest_row ny k ii < ny := by
  unfold dest_row
  split_ifs
  · exact h
  · exact y_n_lt ny ii (by omega)
  · exact y_s_lt ny ii h

theorem src_row_lt (ny k i : Nat) (h : i < ny) : src_row ny k i < ny := by
  unfold src_row
  split_ifs
  · exact h
  · exact y_s_lt ny i h
  · exact y_n_lt ny i (by omega)

theorem dest_col_eq_iff (nx k jj j : Nat) (hjj : jj < nx) (hj : j < nx) :
    dest_col nx k jj = j ↔ jj = src_col nx k j := by
  unfold dest_col src_col
  split_ifs
  · exact Iff.rfl
  · exact x_e_eq_iff nx jj j hjj hj
  · exact x_w_eq_iff nx jj j hjj hj

theorem dest_row_eq_iff (ny k ii i : Nat) (hii : ii < ny) (hi : i < ny) :
    dest_row ny k ii = i ↔ ii = src_row ny k i := by
  unfold dest_row src_row
  split_ifs
  · exact Iff.rfl
  · exact y_n_eq_iff ny ii i hii hi
  · exact y_s_eq_iff ny ii i hii hi

/-- The scatter of one cell writes component `k` of exactly one scratch cell. -/
theorem scatter_cell_apply (params : t_param) (cells : Grid) (ii jj : Nat) (t : Grid)
    (d k : Nat) (hk : k ≤ 8) :
    scatter_cell params cells ii jj t d k
      = if d = dest_row params.ny k ii * params.nx + dest_col params.nx k jj
        then cells (ii * params.nx + jj) k else t d k := by
  unfold scatter_cell
  simp only [set_speed_apply]
  interval_cases k <;> simp [dest_row, dest_col]

/-- A loop whose iteration `m` writes `V m` into component `k` of the cell `D m`:
if `m0` is the only iteration writing to `d`, the loop leaves `V m0` there. -/
theorem loop_write_hit (f : Nat → Grid → Grid) (D : Nat → Nat) (V : Nat → ℚ) (k : Nat)
    (hf : ∀ m t d, f m t d k = if d = D m then V m else t d k)
    (n : Nat) (t : Grid) (d m0 : Nat) (hm0 : m0 < n) (hD : d = D m0)
    (huniq : ∀ m, m < n → d = D m → m = m0) :
    loop f n t d k = V m0 := by
  induction n with
  | zero => exact absurd hm0 (Nat.not_lt_zero m0)
  | succ n ih =>
    rw [loop_succ, hf]
    by_cases hn : d = D n
    · rw [if_pos hn, huniq n (Nat.lt_succ_self n) hn]
    · rw [if_neg hn]
      have hne : m0 ≠ n := fun e => hn (e ▸ hD)
      exact ih (by omega) (fun m hm => huniq m (Nat.lt_succ_of_lt hm))

/-- If no iteration writes to `d`, the loop leaves component `k` of `d` as it was. -/
theorem loop_write_miss (f : Nat → Grid → Grid) (D : Nat → Nat) (V : Nat → ℚ) (k : Nat)
    (hf : ∀ m t d, f m t d k = if d = D m then V m else t d k)
    (n : Nat) (t : Grid) (d : Nat) (h : ∀ m, m < n → d ≠ D m) :
    loop f n t d k = t d k := by
  induction n with
  | zero => rfl
  | succ n ih =>
    rw [loop_succ, hf, if_neg (h n (Nat.lt_succ_self n))]
    exact ih (fun m hm => h m (Nat.lt_succ_of_lt hm))

/-- The scatter of row `ii`: the scratch slot `(i, j, k)` receives the value of its
source cell if its source row is `ii`, and is left alone otherwise. -/
theorem scatter_row_apply (params : t_param) (cells : Grid) (ii : Nat) (t : Grid)
    (i j k : Nat) (hii : ii < params.ny) (hi : i < params.ny) (hj : j < params.nx)
    (hk : k ≤ 8) :
    scatter_row params cells ii t (i * params.nx + j) k
      = if ii = src_row params.ny k i
        then cells (ii * params.nx + src_col params.nx k j) k
        else t (i * params.nx + j) k := by
  unfold scatter_row
  have hf : ∀ m t d, (fun jj t => scatter_cell params cells ii jj t) m t d k
      = if d = (fun m => dest_row params.ny k ii * params.nx + dest_col params.nx k m) m
        then (fun m => cells (ii * params.nx + m) k) m else t d k :=
    fun m t d => scatter_cell_apply params cells ii m t d k hk
  by_cases h : ii = src_row params.ny k i
  · rw [if_pos h]
    have hrow : dest_row params.ny k ii = i := (dest_row_eq_iff _ k ii i hii hi).mpr h
    refine loop_write_hit _ _ (fun m => cells (ii * params.nx + m) k) k hf params.nx t _
      (src_col params.nx k j) (src_col_lt _ k j hj) ?_ ?_
    · show i * params.nx + j = dest_row params.ny k ii * params.nx
        + dest_col params.nx k (src_col params.nx k j)
      rw [hrow, (dest_col_eq_iff _ k _ j (src_col_lt _ k j hj) hj).mpr rfl]
    · intro m hm he
      have h2 := (flat_index_inj params.nx _ _ _ _ hj (dest_col_lt _ k m hm) he).2
      exact (dest_col_eq_iff _ k m j hm hj).mp h2.symm
  · rw [if_neg h]
    refine loop_write_miss _ _ (fun m => cells (ii * params.nx + m) k) k hf params.nx t _ ?_
    intro m hm he
    have h1 := (flat_index_inj params.nx _ _ _ _ hj (dest_col_lt _ k m hm) he).1
    exact h ((dest_row_eq_iff _ k ii i hii hi).mp h1.symm)

/-- The forcing block changes no cell other than the one it is applied to. -/
theorem accelerate_cell_other (params : t_param) (cells : Grid) (obstacles : Obstacles)
    (ii jj d k : Nat) (h : d ≠ ii * params.nx + jj) :
    accelerate_cell params cells obstacles ii jj d k = cells d k := by
  unfold accelerate_cell
  simp only
  split_ifs
  · simp [set_speed_apply, h]
  · rfl

/-- Forcing and scattering one more row keeps every scratch slot already
streamed and streams the slots whose source row is the new row. -/
theorem streamed_stream_row (params : t_param) (obstacles : Obstacles) (S : Nat → Prop)
    (s : Grid × Grid) (ii : Nat) (hii : ii < params.ny) (h : Streamed params S s) :
    Streamed params (fun r => S r ∨ r = ii) (stream_row params obstacles ii s) := by
  intro i j k hi hj hk hS
  show scatter_row params (accelerate_cell params s.1 obstacles ii 0) ii s.2
      (i * params.nx + j) k
    = accelerate_cell params s.1 obstacles ii 0
      (src_row params.ny k i * params.nx + src_col params.nx k j) k
  rw [scatter_row_apply params _ ii s.2 i j k hii hi hj hk]
  by_cases he : ii = src_row params.ny k i
  · rw [if_pos he, ← he]
  · rw [if_neg he]
    have hS' : S (src_row params.ny k i) := by
      rcases hS with h1 | h1
      · exact h1
      · exact absurd h1.symm he
    rw [h i j k hi hj hk hS', accelerate_cell_other]
    intro e
    have hnx : 0 < params.nx := by omega
    exact he (flat_index_inj params.nx _ _ _ _ (src_col_lt _ k j hj) hnx e).1.symm

/-- The loop over the rows `start..stop` streams every slot whose source row is
one of these rows. -/
theorem streamed_loop_range (params : t_param) (obstacles : Obstacles) (S : Nat → Prop)
    (start stop : Nat) (hstop : stop < params.ny) (s : Grid × Grid)
    (h : Streamed params S s) :
    Streamed params (fun r => S r ∨ (start ≤ r ∧ r ≤ stop))
      (loop_range start stop (fun ii s => stream_row params obstacles ii s) s) := by
  unfold loop_range
  have key : ∀ n, n ≤ stop + 1 - start →
      Streamed params (fun r => S r ∨ (start ≤ r ∧ r < start + n))
        (loop (fun q s => stream_row params obstacles (start + q) s) n s) := by
    intro n
    induction n with
    | zero =>
      intro _ i j k hi hj hk hS
      rcases hS with h1 | h1
      · exact h i j k hi hj hk h1
      · omega
    | succ n ih =>
      intro hn i j k hi hj hk hS
      rw [loop_succ]
      refine streamed_stream_row params obstacles _ _ (start + n) (by omega)
        (ih (by omega)) i j k hi hj hk ?_
      rcases hS with h1 | h1
      · exact Or.inl (Or.inl h1)
      · by_cases h2 : src_row params.ny k i = start + n
        · exact Or.inr h2
        · exact Or.inl (Or.inr ⟨h1.1, by omega⟩)
  intro i j k hi hj hk hS
  refine key _ (Nat.le_refl _) i j k hi hj hk ?_
  rcases hS with h1 | h1
  · exact Or.inl h1
  · exact Or.inr ⟨h1.1, by omega⟩

/-- With `rest` as `main` sets it, the last row of every worker is a row of the grid. -/
theorem row_range_stop_lt_ny (params : t_param) (rank nprocs : Nat) (hny : 0 < params.ny)
    (hrank : rank < nprocs) (hrest : params.rest = params.ny % nprocs) :
    (row_range params.ny params.rest rank nprocs).2 < params.ny := by
  rw [hrest]
  by_cases h0 : params.ny % nprocs = 0
  · rw [h0, row_range_rest_zero]
    exact hny
  · exact row_range_stop_lt params.ny nprocs rank hrank h0

/-- After `propagate`, every scratch slot whose source row is `h_south`, `h_north` or
one of the rows `start..end` holds the value of its source cell in `cells`. -/
theorem propagate_streamed (params : t_param) (rank nprocs : Nat)
    (hsr hnr : Buffer) (cells tmp_cells : Grid) (obstacles : Obstacles)
    (hny : 0 < params.ny)
    (hstop : (row_range params.ny params.rest rank nprocs).2 < params.ny)
    (hne : (row_range params.ny params.rest rank nprocs).1
      ≤ (row_range params.ny params.rest rank nprocs).2) :
    Streamed params
      (fun r => r = h_south params.ny (row_range params.ny params.rest rank nprocs).1
        ∨ r = h_north params.ny (row_range params.ny params.rest rank nprocs).2
        ∨ ((row_range params.ny params.rest rank nprocs).1 ≤ r
            ∧ r ≤ (row_range params.ny params.rest rank nprocs).2))
      (propagate params rank nprocs hsr hnr cells tmp_cells obstacles) := by
  unfold propagate stream_phase
  generalize halo_phase params rank nprocs hsr hnr cells = c0
  generalize (row_range params.ny params.rest rank nprocs).1 = start at *
  generalize (row_range params.ny params.rest rank nprocs).2 = stop at *
  have hS : h_south params.ny start < params.ny := by
    unfold h_south
    split_ifs <;> omega
  have hN : h_north params.ny stop < params.ny := by
    unfold h_north
    split_ifs <;> omega
  have e0 : Streamed params (fun _ => False) (c0, tmp_cells) :=
    fun i j k _ _ _ hF => absurd hF not_false
  have e1 := streamed_stream_row params obstacles _ _ _ hS e0
  have e2 := streamed_stream_row params obstacles _ _ _ hN e1
  have e3 := streamed_loop_range params obstacles _ start stop hstop _ e2
  intro i j k hi hj hk hSrc
  refine e3 i j k hi hj hk ?_
  rcases hSrc with h1 | h1 | h1
  · exact Or.inl (Or.inl (Or.inr h1))
  · exact Or.inl (Or.inr h1)
  · exact Or.inr h1

/-- The three source rows of an owned row `i` are all rows that `propagate` scatters. -/
theorem src_row_scattered (ny start stop k i : Nat) (hny : 0 < ny) (hstop : stop < ny)
    (h1 : start ≤ i) (h2 : i ≤ stop) :
    src_row ny k i = h_south ny start ∨ src_row ny k i = h_north ny stop
      ∨ (start ≤ src_row ny k i ∧ src_row ny k i ≤ stop) := by
  unfold src_row
  split_ifs
  · exact Or.inr (Or.inr ⟨h1, h2⟩)
  · unfold y_s h_south
    by_cases hs : i = start
    · subst hs
      left
      split_ifs <;> omega
    · right
      right
      split_ifs <;> omega
  · unfold y_n h_north
    by_cases hs : i = stop
    · subst hs
      right
      left
      by_cases he : i = ny - 1
      · rw [if_pos he]
        have : i + 1 = ny := by omega
        rw [this, Nat.mod_self]
      · rw [if_neg he, Nat.mod_eq_of_lt (by omega)]
    · right
      right
      rw [Nat.mod_eq_of_lt (by omega)]
      omega

/-- After `propagate`, component `k` of every scratch cell of an owned row holds
component `k` of its source cell, one step against direction `k`. -/
theorem propagate_owned (params : t_param) (rank nprocs : Nat)
    (hsr hnr : Buffer) (cells tmp_cells : Grid) (obstacles : Obstacles) (i j k : Nat)
    (hny : 0 < params.ny) (hrank : rank < nprocs) (hrest : params.rest = params.ny % nprocs)
    (h1 : (row_range params.ny params.rest rank nprocs).1 ≤ i)
    (h2 : i ≤ (row_range params.ny params.rest rank nprocs).2)
    (hj : j < params.nx) (hk : k ≤ 8) :
    (propagate params rank nprocs hsr hnr cells tmp_cells obstacles).2 (i * params.nx + j) k
      = (propagate params rank nprocs hsr hnr cells tmp_cells obstacles).1
          (src_row params.ny k i * params.nx + src_col params.nx k j) k := by
  have hstop := row_range_stop_lt_ny params rank nprocs hny hrank hrest
  exact propagate_streamed params rank nprocs hsr hnr cells tmp_cells obstacles hny hstop
    (le_trans h1 h2) i j k (lt_of_le_of_lt h2 hstop) hj hk
    (src_row_scattered params.ny _ _ k i hny hstop h1 h2)

/-! ## Partition: claims -/

/-- C1 (defect): with `ny = 4` rows and `P = 2` workers, `ny % P = 0`, the `start`/`end`
computation is skipped and both workers get the range `[0, 0]`: the ranges overlap and
no worker gets row 1, 2 or 3. -/
theorem C1_partition_divisible_all_zero :
    row_range 4 (4 % 2) 0 2 = (0, 0) ∧ row_range 4 (4 % 2) 1 2 = (0, 0) ∧
    ¬ ∃ r, r < 2 ∧ (row_range 4 (4 % 2) r 2).1 ≤ 1 ∧ 1 ≤ (row_range 4 (4 % 2) r 2).2 := by
  decide

/-- C9: when `ny % P ≠ 0` and `P ≤ ny`, every worker `r < ny % P` gets `ny/P + 1` rows,
every worker `r ≥ ny % P` gets `ny/P` rows, the first range starts at row 0, each
next range starts right after the previous one ends, and the last range ends
at row `ny - 1`. -/
theorem C9_partition_balanced (ny P : Nat) (hP : 0 < P) (hPny : P ≤ ny) (hrest : ny % P ≠ 0) :
    (∀ r, r < ny % P →
      (row_range ny (ny % P) r P).1 ≤ (row_range ny (ny % P) r P).2 ∧
      (row_range ny (ny % P) r P).2 + 1 - (row_range ny (ny % P) r P).1 = ny / P + 1) ∧
    (∀ r, ny % P ≤ r →
      (row_range ny (ny % P) r P).1 ≤ (row_range ny (ny % P) r P).2 ∧
      (row_range ny (ny % P) r P).2 + 1 - (row_range ny (ny % P) r P).1 = ny / P) ∧
    (row_range ny (ny % P) 0 P).1 = 0 ∧
    (∀ r, r + 1 < P →
      (row_range ny (ny % P) (r + 1) P).1 = (row_range ny (ny % P) r P).2 + 1) ∧
    (row_range ny (ny % P) (P - 1) P).2 = ny - 1 := by
  have hdm : P * (ny / P) + ny % P = ny := Nat.div_add_mod ny P
  have hlt : ny % P < P := Nat.mod_lt _ hP
  have hq : 0 < ny / P := Nat.div_pos hPny hP
  generalize ny % P = m at *
  refine ⟨?_, ?_, ?_, ?_, ?_⟩
  · intro r hr
    rw [row_range_lt_rest _ _ _ _ hr]
    constructor
    · exact Nat.le_add_right _ _
    · dsimp only
      generalize ny / P = q at *
      omega
  · intro r hr
    rw [row_range_ge_rest _ _ _ _ hrest hr]
    constructor
    · dsimp only
      generalize ny / P = q at *
      omega
    · dsimp only
      generalize ny / P = q at *
      omega
  · rw [row_range_lt_rest _ _ _ _ (Nat.pos_of_ne_zero hrest)]
    simp
  · intro r hr
    by_cases h1 : r + 1 < m
    · rw [row_range_lt_rest _ _ _ _ h1, row_range_lt_rest _ _ _ _ (by omega)]
      dsimp only
      generalize ny / P = q at *
      ring
    · by_cases h2 : r < m
      · have e : r + 1 = m := by omega
        rw [row_range_ge_rest _ _ _ _ hrest (by omega), row_range_lt_rest _ _ _ _ h2]
        dsimp only
        generalize ny / P = q at *
        subst e
        simp
        ring
      · obtain ⟨d, rfl⟩ := Nat.exists_eq_add_of_le (Nat.le_of_not_lt h2)
        rw [row_range_ge_rest _ _ _ _ hrest (by omega),
          row_range_ge_rest _ _ _ _ hrest (by omega)]
        dsimp only
        generalize ny / P = q at *
        have e0 : m + d + 1 - m = d + 1 := by omega
        have e1 : m + d - m = d := by omega
        have e2 : (d + 1) * q = d * q + q := by ring
        rw [e0, e1, e2]
        omega
  · obtain ⟨d, hd⟩ := Nat.exists_eq_add_of_le (show m ≤ P - 1 by omega)
    rw [row_range_ge_rest _ _ _ _ hrest (by omega), hd]
    dsimp only
    generalize ny / P = q at *
    have e0 : m + d - m = d := by omega
    have e1 : P = m + d + 1 := by omega
    have e2 : (m + d + 1) * q = m * q + d * q + q := by ring
    have e3 : m * (q + 1) = m * q + m := by ring
    rw [e0]
    rw [e1, e2] at hdm
    omega

/-- C9 at `ny = 5`, `P = 2`: worker 0 gets rows `0..2`, worker 1 rows `3..4`. -/
theorem C9_partition_balanced_witness :
    (∀ r, r < 5 % 2 →
      (row_range 5 (5 % 2) r 2).1 ≤ (row_range 5 (5 % 2) r 2).2 ∧
      (row_range 5 (5 % 2) r 2).2 + 1 - (row_range 5 (5 % 2) r 2).1 = 5 / 2 + 1) ∧
    (∀ r, 5 % 2 ≤ r →
      (row_range 5 (5 % 2) r 2).1 ≤ (row_range 5 (5 % 2) r 2).2 ∧
      (row_range 5 (5 % 2) r 2).2 + 1 - (row_range 5 (5 % 2) r 2).1 = 5 / 2) ∧
    (row_range 5 (5 % 2) 0 2).1 = 0 ∧
    (∀ r, r + 1 < 2 →
      (row_range 5 (5 % 2) (r + 1) 2).1 = (row_range 5 (5 % 2) r 2).2 + 1) ∧
    (row_range 5 (5 % 2) (2 - 1) 2).2 = 5 - 1 :=
  C9_partition_balanced 5 2 (by decide) (by decide) (by decide)

/-- C10 (as stated, fails): with `ny = 2` rows and `P = 3 > ny` workers the partition
computation of worker 2 does not fail, it returns `start = 2`, `end = 1`. -/
theorem C10_no_failure_counterexample :
    2 < 3 ∧ partition_outcome 2 3 2 = Except.ok (2, 1) :=
  ⟨by decide, rfl⟩

/-- C10 (amended): when `P > ny` the partition computation never fails; it gives worker
`r < ny` the single row `[r, r]` and every worker `r ≥ ny` the values `start = ny`,
`end = ny - 1`, an empty range. -/
theorem C10_partition_more_workers_than_rows (ny P r : Nat) (h : ny < P) :
    partition_outcome ny P r = Except.ok (if r < ny then (r, r) else (ny, ny - 1)) := by
  unfold partition_outcome
  congr 1
  rw [Nat.mod_eq_of_lt h]
  by_cases hr : r < ny
  · rw [row_range_lt_rest _ _ _ _ hr, if_pos hr, Nat.div_eq_of_lt h]
    simp
  · rw [if_neg hr]
    by_cases h0 : ny = 0
    · subst h0
      exact row_range_rest_zero _ _ _
    · rw [row_range_ge_rest _ _ _ _ h0 (Nat.le_of_not_lt hr), Nat.div_eq_of_lt h]
      simp

/-- C10 (amended) at `ny = 2`, `P = 3`, worker 1. -/
theorem C10_partition_more_workers_than_rows_witness :
    2 < 3 ∧ partition_outcome 2 3 1 = Except.ok (if 1 < 2 then (1, 1) else (2, 2 - 1)) :=
  ⟨by decide, C10_partition_more_workers_than_rows 2 3 1 (by decide)⟩

/-! ## `propagate`: claims -/

/-- C4: after `propagate` returns on a worker, for every owned row `i` in `start..end`
and every column `j`, component `k` of `tmp_cells[i][j]` equals component `k` of the
`cells` entry one step against direction `k`, with periodic wrap in both axes: 0 from
`(i,j)`, 1 from `(i,j-1)`, 2 from `(i-1,j)`, 3 from `(i,j+1)`, 4 from `(i+1,j)`, 5 from
`(i-1,j-1)`, 6 from `(i-1,j+1)`, 7 from `(i+1,j+1)`, 8 from `(i+1,j-1)`, where `cells`
is the grid as `propagate` leaves it. -/
theorem C4_propagate_streams (params : t_param) (rank nprocs : Nat)
    (halo_south_r halo_north_r : Buffer) (cells tmp_cells : Grid) (obstacles : Obstacles)
    (i j : Nat) (hny : 0 < params.ny) (hrank : rank < nprocs)
    (hrest : params.rest = params.ny % nprocs)
    (h1 : (row_range params.ny params.rest rank nprocs).1 ≤ i)
    (h2 : i ≤ (row_range params.ny params.rest rank nprocs).2)
    (hj : j < params.nx) :
    (propagate params rank nprocs halo_south_r halo_north_r cells tmp_cells obstacles).2 (i * params.nx + j) 0
        = (propagate params rank nprocs halo_south_r halo_north_r cells tmp_cells obstacles).1 (i * params.nx + j) 0 ∧
    (propagate params rank nprocs halo_south_r halo_north_r cells tmp_cells obstacles).2 (i * params.nx + j) 1
        = (propagate params rank nprocs halo_south_r halo_north_r cells tmp_cells obstacles).1 (i * params.nx + x_w params.nx j) 1 ∧
    (propagate params rank nprocs halo_south_r halo_north_r cells tmp_cells obstacles).2 (i * params.nx + j) 2
        = (propagate params rank nprocs halo_south_r halo_north_r cells tmp_cells obstacles).1 (y_s params.ny i * params.nx + j) 2 ∧
    (propagate params rank nprocs halo_south_r halo_north_r cells tmp_cells obstacles).2 (i * params.nx + j) 3
        = (propagate params rank nprocs halo_south_r halo_north_r cells tmp_cells obstacles).1 (i * params.nx + x_e params.nx j) 3 ∧
    (propagate params rank nprocs halo_south_r halo_north_r cells tmp_cells obstacles).2 (i * params.nx + j) 4
        = (propagate params rank nprocs halo_south_r halo_north_r cells tmp_cells obstacles).1 (y_n params.ny i * params.nx + j) 4 ∧
    (propagate params rank nprocs halo_south_r halo_north_r cells tmp_cells obstacles).2 (i * params.nx + j) 5
        = (propagate params rank nprocs halo_south_r halo_north_r cells tmp_cells obstacles).1 (y_s params.ny i * params.nx + x_w params.nx j) 5 ∧
    (propagate params rank nprocs halo_south_r halo_north_r cells tmp_cells obstacles).2 (i * params.nx + j) 6
        = (propagate params rank nprocs halo_south_r halo_north_r cells tmp_cells obstacles).1 (y_s params.ny i * params.nx + x_e params.nx j) 6 ∧
    (propagate params rank nprocs halo_south_r halo_north_r cells tmp_cells obstacles).2 (i * params.nx + j) 7
        = (propagate params rank nprocs halo_south_r halo_north_r cells tmp_cells obstacles).1 (y_n params.ny i * params.nx + x_e params.nx j) 7 ∧
    (propagate params rank nprocs halo_south_r halo_north_r cells tmp_cells obstacles).2 (i * params.nx + j) 8
        = (propagate params rank nprocs halo_south_r halo_north_r cells tmp_cells obstacles).1 (y_n params.ny i * params.nx + x_w params.nx j) 8 := by
  have key := fun k hk => propagate_owned params rank nprocs halo_south_r halo_north_r cells
    tmp_cells obstacles i j k hny hrank hrest h1 h2 hj hk
  refine ⟨?_, ?_, ?_, ?_, ?_, ?_, ?_, ?_, ?_⟩
  · simpa [src_row, src_col] using key 0 (by decide)
  · simpa [src_row, src_col] using key 1 (by decide)
  · simpa [src_row, src_col] using key 2 (by decide)
  · simpa [src_row, src_col] using key 3 (by decide)
  · simpa [src_row, src_col] using key 4 (by decide)
  · simpa [src_row, src_col] using key 5 (by decide)
  · simpa [src_row, src_col] using key 6 (by decide)
  · simpa [src_row, src_col] using key 7 (by decide)
  · simpa [src_row, src_col] using key 8 (by decide)

/-- C4 on a grid of 2 columns and 3 rows split among 2 workers, for worker 0 (rows
0..1), row 1, column 0. -/
theorem C4_propagate_streams_witness :
    (propagate (example_params 2 3 2 (1 / 10) 1) 0 2 (fun _ => 0) (fun _ => 0)
        ramp_grid ones_grid no_obstacles).2
        (1 * (example_params 2 3 2 (1 / 10) 1).nx + 0) 0
      = (propagate (example_params 2 3 2 (1 / 10) 1) 0 2 (fun _ => 0) (fun _ => 0)
        ramp_grid ones_grid no_obstacles).1
        (1 * (example_params 2 3 2 (1 / 10) 1).nx + 0) 0 ∧
    (propagate (example_params 2 3 2 (1 / 10) 1) 0 2 (fun _ => 0) (fun _ => 0)
        ramp_grid ones_grid no_obstacles).2
        (1 * (example_params 2 3 2 (1 / 10) 1).nx + 0) 1
      = (propagate (example_params 2 3 2 (1 / 10) 1) 0 2 (fun _ => 0) (fun _ => 0)
        ramp_grid ones_grid no_obstacles).1
        (1 * (example_params 2 3 2 (1 / 10) 1).nx + x_w (example_params 2 3 2 (1 / 10) 1).nx 0) 1 ∧
    (propagate (example_params 2 3 2 (1 / 10) 1) 0 2 (fun _ => 0) (fun _ => 0)
        ramp_grid ones_grid no_obstacles).2
        (1 * (example_params 2 3 2 (1 / 10) 1).nx + 0) 2
      = (propagate (example_params 2 3 2 (1 / 10) 1) 0 2 (fun _ => 0) (fun _ => 0)
        ramp_grid ones_grid no_obstacles).1
        (y_s (example_params 2 3 2 (1 / 10) 1).ny 1 * (example_params 2 3 2 (1 / 10) 1).nx + 0) 2 ∧
    (propagate (example_params 2 3 2 (1 / 10) 1) 0 2 (fun _ => 0) (fun _ => 0)
        ramp_grid ones_grid no_obstacles).2
        (1 * (example_params 2 3 2 (1 / 10) 1).nx + 0) 3
      = (propagate (example_params 2 3 2 (1 / 10) 1) 0 2 (fun _ => 0) (fun _ => 0)
        ramp_grid ones_grid no_obstacles).1
        (1 * (example_params 2 3 2 (1 / 10) 1).nx + x_e (example_params 2 3 2 (1 / 10) 1).nx 0) 3 ∧
    (propagate (example_params 2 3 2 (1 / 10) 1) 0 2 (fun _ => 0) (fun _ => 0)
        ramp_grid ones_grid no_obstacles).2
        (1 * (example_params 2 3 2 (1 / 10) 1).nx + 0) 4
      = (propagate (example_params 2 3 2 (1 / 10) 1) 0 2 (fun _ => 0) (fun _ => 0)
        ramp_grid ones_grid no_obstacles).1
        (y_n (example_params 2 3 2 (1 / 10) 1).ny 1 * (example_params 2 3 2 (1 / 10) 1).nx + 0) 4 ∧
    (propagate (example_params 2 3 2 (1 / 10) 1) 0 2 (fun _ => 0) (fun _ => 0)
        ramp_grid ones_grid no_obstacles).2
        (1 * (example_params 2 3 2 (1 / 10) 1).nx + 0) 5
      = (propagate (example_params 2 3 2 (1 / 10) 1) 0 2 (fun _ => 0) (fun _ => 0)
        ramp_grid ones_grid no_obstacles).1
        (y_s (example_params 2 3 2 (1 / 10) 1).ny 1 * (example_params 2 3 2 (1 / 10) 1).nx + x_w (example_params 2 3 2 (1 / 10) 1).nx 0) 5 ∧
    (propagate (example_params 2 3 2 (1 / 10) 1) 0 2 (fun _ => 0) (fun _ => 0)
        ramp_grid ones_grid no_obstacles).2
        (1 * (example_params 2 3 2 (1 / 10) 1).nx + 0) 6
      = (propagate (example_params 2 3 2 (1 / 10) 1) 0 2 (fun _ => 0) (fun _ => 0)
        ramp_grid ones_grid no_obstacles).1
        (y_s (example_params 2 3 2 (1 / 10) 1).ny 1 * (example_params 2 3 2 (1 / 10) 1).nx + x_e (example_params 2 3 2 (1 / 10) 1).nx 0) 6 ∧
    (propagate (example_params 2 3 2 (1 / 10) 1) 0 2 (fun _ => 0) (fun _ => 0)
        ramp_grid ones_grid no_obstacles).2
        (1 * (example_params 2 3 2 (1 / 10) 1).nx + 0) 7
      = (propagate (example_params 2 3 2 (1 / 10) 1) 0 2 (fun _ => 0) (fun _ => 0)
        ramp_grid ones_grid no_obstacles).1
        (y_n (example_params 2 3 2 (1 / 10) 1).ny 1 * (example_params 2 3 2 (1 / 10) 1).nx + x_e (example_params 2 3 2 (1 / 10) 1).nx 0) 7 ∧
    (propagate (example_params 2 3 2 (1 / 10) 1) 0 2 (fun _ => 0) (fun _ => 0)
        ramp_grid ones_grid no_obstacles).2
        (1 * (example_params 2 3 2 (1 / 10) 1).nx + 0) 8
      = (propagate (example_params 2 3 2 (1 / 10) 1) 0 2 (fun _ => 0) (fun _ => 0)
        ramp_grid ones_grid no_obstacles).1
        (y_n (example_params 2 3 2 (1 / 10) 1).ny 1 * (example_params 2 3 2 (1 / 10) 1).nx + x_w (example_params 2 3 2 (1 / 10) 1).nx 0) 8 :=
  C4_propagate_streams (example_params 2 3 2 (1 / 10) 1) 0 2 (fun _ => 0) (fun _ => 0)
    ramp_grid ones_grid no_obstacles 1 0 (by decide) (by decide) rfl (by decide) (by decide)
    (by decide)

set_option maxRecDepth 100000 in
/-- C2 (defect): 3 rows, 1 column, 2 workers; worker 0 owns rows 0..1, worker 1 owns row 2,
so the row above worker 1's block is row 0, owned by worker 0.  After the halo-exchange
phase worker 1 holds in row 0 the values of worker 0's row 1 (the buffer `halo_south_r`
is copied a second time), not those of worker 0's row 0. -/
theorem C2_north_halo_filled_from_south_buffer :
    row_range 3 (3 % 2) 0 2 = (0, 1) ∧ row_range 3 (3 % 2) 1 2 = (2, 2) ∧
    h_north 3 (row_range 3 (3 % 2) 1 2).2 = 0 ∧
    (ranked_world 0).1 (0 * 1 + 0) 4 = 4 ∧ (ranked_world 0).1 (1 * 1 + 0) 4 = 14 ∧
    halo_exchange (example_params 1 3 2 0 1) 2 ranked_world 1 (0 * 1 + 0) 4 = 14 ∧
    halo_exchange (example_params 1 3 2 0 1) 2 ranked_world 1 (0 * 1 + 0) 4
      ≠ (ranked_world 0).1 (0 * 1 + 0) 4 := by
  decide!

set_option maxRecDepth 100000 in
/-- C3 (defect): 3 rows, 1 column, density 1, accel 1/10, omega 1, no obstacles, one
timestep from the grid of `initialise`.  With 2 workers row 1 is owned by worker 0 and
is streamed and relaxed; with a single worker `params.rest = 0`, the range is `[0, 0]`
and row 1 keeps `4/9` in component 0.  The two runs differ on row 1. -/
theorem C3_two_workers_differ_from_one :
    row_range 3 (3 % 2) 0 2 = (0, 1) ∧ row_range 3 (3 % 1) 0 1 = (0, 0) ∧
    (run (example_params 1 3 1 (1 / 10) 1) 1 no_obstacles 1
        (start_world (example_init 1 3) (fun _ => ones_grid)) 0).1 (1 * 1 + 0) 0 = 4 / 9 ∧
    (run (example_params 1 3 2 (1 / 10) 1) 2 no_obstacles 1
        (start_world (example_init 1 3) (fun _ => ones_grid)) 0).1 (1 * 1 + 0) 0
      ≠ (run (example_params 1 3 1 (1 / 10) 1) 1 no_obstacles 1
        (start_world (example_init 1 3) (fun _ => ones_grid)) 0).1 (1 * 1 + 0) 0 := by
  decide!

/-! ## `rebound` and `collision`: claims -/

/-- C5: after `rebound`, every obstacle cell of the worker's rows `start..end` holds in
components 1..8 the scratch values of the opposite directions, pairs (1,3), (2,4),
(5,7), (6,8) swapped, and keeps its component 0. -/
theorem C5_rebound_swaps_pairs (params : t_param) (rank nprocs : Nat)
    (cells tmp_cells : Grid) (obstacles : Obstacles) (ii jj : Nat)
    (h1 : (row_range params.ny params.rest rank nprocs).1 ≤ ii)
    (h2 : ii ≤ (row_range params.ny params.rest rank nprocs).2)
    (h3 : jj < params.nx) (hobs : obstacles (ii * params.nx + jj) ≠ 0) :
    rebound params rank nprocs cells tmp_cells obstacles (ii * params.nx + jj) 1
        = tmp_cells (ii * params.nx + jj) 3 ∧
    rebound params rank nprocs cells tmp_cells obstacles (ii * params.nx + jj) 2
        = tmp_cells (ii * params.nx + jj) 4 ∧
    rebound params rank nprocs cells tmp_cells obstacles (ii * params.nx + jj) 3
        = tmp_cells (ii * params.nx + jj) 1 ∧
    rebound params rank nprocs cells tmp_cells obstacles (ii * params.nx + jj) 4
        = tmp_cells (ii * params.nx + jj) 2 ∧
    rebound params rank nprocs cells tmp_cells obstacles (ii * params.nx + jj) 5
        = tmp_cells (ii * params.nx + jj) 7 ∧
    rebound params rank nprocs cells tmp_cells obstacles (ii * params.nx + jj) 6
        = tmp_cells (ii * params.nx + jj) 8 ∧
    rebound params rank nprocs cells tmp_cells obstacles (ii * params.nx + jj) 7
        = tmp_cells (ii * params.nx + jj) 5 ∧
    rebound params rank nprocs cells tmp_cells obstacles (ii * params.nx + jj) 8
        = tmp_cells (ii * params.nx + jj) 6 ∧
    rebound params rank nprocs cells tmp_cells obstacles (ii * params.nx + jj) 0
        = cells (ii * params.nx + jj) 0 := by
  simp only [rebound_owned params rank nprocs cells tmp_cells obstacles ii jj _ h1 h2 h3,
    if_pos hobs]
  refine ⟨?_, ?_, ?_, ?_, ?_, ?_, ?_, ?_, ?_⟩ <;> simp [rebound_val]

/-- C5 on a grid of 1 column and 3 rows split among 2 workers: worker 0 owns rows
0..1 and the cell of row 1 is an obstacle. -/
theorem C5_rebound_swaps_pairs_witness :
    rebound (example_params 1 3 2 0 1) 0 2 ones_grid ramp_grid (one_obstacle 1) (1 * 1 + 0) 1
        = ramp_grid (1 * 1 + 0) 3 ∧
    rebound (example_params 1 3 2 0 1) 0 2 ones_grid ramp_grid (one_obstacle 1) (1 * 1 + 0) 2
        = ramp_grid (1 * 1 + 0) 4 ∧
    rebound (example_params 1 3 2 0 1) 0 2 ones_grid ramp_grid (one_obstacle 1) (1 * 1 + 0) 3
        = ramp_grid (1 * 1 + 0) 1 ∧
    rebound (example_params 1 3 2 0 1) 0 2 ones_grid ramp_grid (one_obstacle 1) (1 * 1 + 0) 4
        = ramp_grid (1 * 1 + 0) 2 ∧
    rebound (example_params 1 3 2 0 1) 0 2 ones_grid ramp_grid (one_obstacle 1) (1 * 1 + 0) 5
        = ramp_grid (1 * 1 + 0) 7 ∧
    rebound (example_params 1 3 2 0 1) 0 2 ones_grid ramp_grid (one_obstacle 1) (1 * 1 + 0) 6
        = ramp_grid (1 * 1 + 0) 8 ∧
    rebound (example_params 1 3 2 0 1) 0 2 ones_grid ramp_grid (one_obstacle 1) (1 * 1 + 0) 7
        = ramp_grid (1 * 1 + 0) 5 ∧
    rebound (example_params 1 3 2 0 1) 0 2 ones_grid ramp_grid (one_obstacle 1) (1 * 1 + 0) 8
        = ramp_grid (1 * 1 + 0) 6 ∧
    rebound (example_params 1 3 2 0 1) 0 2 ones_grid ramp_grid (one_obstacle 1) (1 * 1 + 0) 0
        = ones_grid (1 * 1 + 0) 0 :=
  C5_rebound_swaps_pairs (example_params 1 3 2 0 1) 0 2 ones_grid ramp_grid (one_obstacle 1) 1 0
    (by decide) (by decide) (by decide) (by decide)

/-- C6: for every non-obstacle cell of the worker's rows whose scratch cell `f` has
non-zero density, `collision` stores `f_k + omega * (eq_k - f_k)` in each component
`k = 0..8`, with `eq_k` the D2Q9 equilibrium of `f` for the direction vectors `e_k` and
the lattice weights `w_0 = 4/9`, `w_1..w_4 = 1/9`, `w_5..w_8 = 1/36`. -/
theorem C6_collision_bgk (params : t_param) (rank nprocs : Nat)
    (cells tmp_cells : Grid) (obstacles : Obstacles) (ii jj k : Nat)
    (h1 : (row_range params.ny params.rest rank nprocs).1 ≤ ii)
    (h2 : ii ≤ (row_range params.ny params.rest rank nprocs).2)
    (h3 : jj < params.nx) (hobs : obstacles (ii * params.nx + jj) = 0)
    (_hrho : local_density (tmp_cells (ii * params.nx + jj)) ≠ 0) (hk : k ≤ 8) :
    collision params rank nprocs cells tmp_cells obstacles (ii * params.nx + jj) k
      = spec_bgk (lattice_weight (4 / 9) (1 / 9) (1 / 36)) params.omega
          (tmp_cells (ii * params.nx + jj)) k := by
  rw [collision_owned params rank nprocs cells tmp_cells obstacles ii jj k h1 h2 h3, if_pos hobs]
  generalize tmp_cells (ii * params.nx + jj) = f
  generalize cells (ii * params.nx + jj) k = x
  have hsum : sum9 f = local_density f := rfl
  have hx : sum9 (fun j => e_x j * f j) = f 1 + f 5 + f 8 - (f 3 + f 6 + f 7) := by
    simp [sum9, e_x]
    ring
  have hy : sum9 (fun j => e_y j * f j) = f 2 + f 5 + f 6 - (f 4 + f 7 + f 8) := by
    simp [sum9, e_y]
    ring
  unfold spec_bgk spec_equilibrium collision_val
  simp only [hsum, hx, hy]
  unfold u_sq u_x u_y
  generalize (f 1 + f 5 + f 8 - (f 3 + f 6 + f 7)) / local_density f = ux
  generalize (f 2 + f 5 + f 6 - (f 4 + f 7 + f 8)) / local_density f = uy
  generalize local_density f = rho
  interval_cases k <;>
    simp only [chain9, lattice_weight, collision_w0, collision_w1, collision_w2, e_x, e_y,
      if_true, if_false, Nat.reduceEqDiff,
      Nat.reduceLeDiff, OfNat.ofNat_ne_zero, OfNat.zero_ne_ofNat, or_true, true_or, or_false,
      false_or, reduceCtorEq, Nat.succ_ne_self, OfNat.ofNat_ne_one, OfNat.one_ne_ofNat,
      Nat.one_ne_zero, Nat.zero_ne_one, le_refl, Nat.zero_le, Nat.one_le_ofNat] <;>
    ring

/-- C6 on a 1 x 1 grid, one worker, `omega = 1`: the scratch cell holds `0, 1, .., 8`
(density 36, velocity not zero), component 5. -/
theorem C6_collision_bgk_witness :
    collision (example_params 1 1 1 0 1) 0 1 ones_grid ramp_grid no_obstacles
        (0 * (example_params 1 1 1 0 1).nx + 0) 5
      = spec_bgk (lattice_weight (4 / 9) (1 / 9) (1 / 36))
          (example_params 1 1 1 0 1).omega
          (ramp_grid (0 * (example_params 1 1 1 0 1).nx + 0)) 5 :=
  C6_collision_bgk (example_params 1 1 1 0 1) 0 1 ones_grid ramp_grid
    no_obstacles 0 0 5 (by decide) (by decide) (by decide) rfl
    (by norm_num [local_density, ramp_grid]) (by decide)

/-! ## Whole-grid quantities: claims -/

set_option maxRecDepth 100000 in
/-- C7 (defect): 2 rows, 1 column, one worker, no obstacles, accel 0, omega 1, cells of
density 36 and 126.  The total density is 162 before the timestep and below 73 after
it: with one worker `params.rest = 0`, the range is `[0, 0]`, row 1 is overwritten by
the halo copy of row 0 and only row 0 is relaxed. -/
theorem C7_total_density_not_conserved :
    (example_params 1 2 1 0 1).accel = 0 ∧
    local_density (ramp_grid 0) = 36 ∧ local_density (ramp_grid 1) = 126 ∧
    total_density (example_params 1 2 1 0 1) ramp_grid = 162 ∧
    total_density (example_params 1 2 1 0 1)
      (run (example_params 1 2 1 0 1) 1 no_obstacles 1
        (start_world ramp_grid (fun _ => ones_grid)) 0).1 < 73 := by
  decide!

set_option maxRecDepth 100000 in
/-- C8 (defect): 2 rows, 1 column, one worker, no obstacles.  The value stored in
`av_vels[ii]` is the x velocity `-1/18` of the cell of row 0 alone, while the average
over both cells, as `av_velocity` computes it, is `-1/28`: with `params.rest = 0` the
partial sums run over the range `[0, 0]` and row 1 is never counted. -/
theorem C8_av_vels_misses_rows :
    av_vels_entry (example_params 1 2 1 0 1) 1 (fun _ => ramp_grid) no_obstacles = -1 / 18 ∧
    av_velocity (example_params 1 2 1 0 1) ramp_grid no_obstacles = -1 / 28 ∧
    av_vels_entry (example_params 1 2 1 0 1) 1 (fun _ => ramp_grid) no_obstacles
      ≠ av_velocity (example_params 1 2 1 0 1) ramp_grid no_obstacles := by
  decide!

/-! ## The forcing block, cell by cell -/

/-- The forcing block in closed form. -/
theorem accelerate_cell_apply (params : t_param) (cells : Grid) (obstacles : Obstacles)
    (ii jj d k : Nat) :
    accelerate_cell params cells obstacles ii jj d k
      = if forcing_guard params cells obstacles (ii * params.nx + jj) ∧ d = ii * params.nx + jj
        then forced_val (params.density * params.accel / 9) (params.density * params.accel / 36)
          (cells (ii * params.nx + jj)) k
        else cells d k := by
  unfold accelerate_cell forcing_guard forced_val
  simp only
  by_cases hg : obstacles (ii * params.nx + jj) = 0
      ∧ cells (ii * params.nx + jj) 3 - params.density * params.accel / 9 > 0
      ∧ cells (ii * params.nx + jj) 6 - params.density * params.accel / 36 > 0
      ∧ cells (ii * params.nx + jj) 7 - params.density * params.accel / 36 > 0
  · rw [if_pos hg]
    by_cases hd : d = ii * params.nx + jj
    · subst hd
      rw [if_pos ⟨hg, rfl⟩]
      simp [set_speed_apply]
    · rw [if_neg (fun h => hd h.2)]
      simp [set_speed_apply, hd]
  · rw [if_neg hg, if_neg (fun h => hg h.1)]

/-- The forcing block reads nothing but the cell it is applied to. -/
theorem accelerate_cell_congr (params : t_param) (c c' : Grid) (obstacles : Obstacles)
    (ii jj k : Nat) (h : ∀ q, c (ii * params.nx + jj) q = c' (ii * params.nx + jj) q) :
    accelerate_cell params c obstacles ii jj (ii * params.nx + jj) k
      = accelerate_cell params c' obstacles ii jj (ii * params.nx + jj) k := by
  rw [accelerate_cell_apply, accelerate_cell_apply]
  unfold forcing_guard forced_val
  simp only [h]

/-! ## The forcing block: claims -/

/-- C13: whenever the forcing block is applied to a cell (its guard holds), components 1,
5, 8 increase by `w1`, `w2`, `w2`, components 3, 6, 7 decrease by `w1`, `w2`, `w2`, with
`w1 = density*accel/9` and `w2 = density*accel/36`, and components 0, 2, 4 are unchanged. -/
theorem C13_forcing_amounts (params : t_param) (cells : Grid) (obstacles : Obstacles)
    (ii jj : Nat) (hg : forcing_guard params cells obstacles (ii * params.nx + jj)) :
    accelerate_cell params cells obstacles ii jj (ii * params.nx + jj) 1
        = cells (ii * params.nx + jj) 1 + params.density * params.accel / 9 ∧
    accelerate_cell params cells obstacles ii jj (ii * params.nx + jj) 5
        = cells (ii * params.nx + jj) 5 + params.density * params.accel / 36 ∧
    accelerate_cell params cells obstacles ii jj (ii * params.nx + jj) 8
        = cells (ii * params.nx + jj) 8 + params.density * params.accel / 36 ∧
    accelerate_cell params cells obstacles ii jj (ii * params.nx + jj) 3
        = cells (ii * params.nx + jj) 3 - params.density * params.accel / 9 ∧
    accelerate_cell params cells obstacles ii jj (ii * params.nx + jj) 6
        = cells (ii * params.nx + jj) 6 - params.density * params.accel / 36 ∧
    accelerate_cell params cells obstacles ii jj (ii * params.nx + jj) 7
        = cells (ii * params.nx + jj) 7 - params.density * params.accel / 36 ∧
    accelerate_cell params cells obstacles ii jj (ii * params.nx + jj) 0
        = cells (ii * params.nx + jj) 0 ∧
    accelerate_cell params cells obstacles ii jj (ii * params.nx + jj) 2
        = cells (ii * params.nx + jj) 2 ∧
    accelerate_cell params cells obstacles ii jj (ii * params.nx + jj) 4
        = cells (ii * params.nx + jj) 4 := by
  have key : ∀ k, accelerate_cell params cells obstacles ii jj (ii * params.nx + jj) k
      = forced_val (params.density * params.accel / 9) (params.density * params.accel / 36)
          (cells (ii * params.nx + jj)) k := by
    intro k
    rw [accelerate_cell_apply, if_pos ⟨hg, rfl⟩]
  simp only [key]
  refine ⟨?_, ?_, ?_, ?_, ?_, ?_, ?_, ?_, ?_⟩ <;> simp [forced_val]

set_option maxRecDepth 100000 in
/-- C13 on the cell `(0, 0)` of the grid of `initialise` with density 1 and accel 1/10. -/
theorem C13_forcing_amounts_witness :
    accelerate_cell (example_params 1 1 1 (1 / 10) 1) (example_init 1 1) no_obstacles 0 0
        (0 * (example_params 1 1 1 (1 / 10) 1).nx + 0) 1
      = example_init 1 1 (0 * (example_params 1 1 1 (1 / 10) 1).nx + 0) 1
        + (example_params 1 1 1 (1 / 10) 1).density * (example_params 1 1 1 (1 / 10) 1).accel / 9 :=
  (C13_forcing_amounts (example_params 1 1 1 (1 / 10) 1) (example_init 1 1) no_obstacles 0 0
    (by decide!)).1

set_option maxRecDepth 100000 in
/-- C14 (as stated, fails): density 1, accel 1, the cell of `initialise`, not an obstacle.
`w1 = 1/9` equals component 3 and `w2 = 1/36` equals components 6 and 7, so no
subtraction gives a negative value, yet the forcing is skipped: component 1 keeps its
value `1/9` where an applied forcing would give `2/9`. -/
theorem C14_boundary_counterexample :
    no_obstacles 0 = 0 ∧
    ¬ (example_init 1 1 0 3
        - (example_params 1 1 1 1 1).density * (example_params 1 1 1 1 1).accel / 9 < 0) ∧
    ¬ (example_init 1 1 0 6
        - (example_params 1 1 1 1 1).density * (example_params 1 1 1 1 1).accel / 36 < 0) ∧
    ¬ (example_init 1 1 0 7
        - (example_params 1 1 1 1 1).density * (example_params 1 1 1 1 1).accel / 36 < 0) ∧
    accelerate_cell (example_params 1 1 1 1 1) (example_init 1 1) no_obstacles 0 0 0 1
      = example_init 1 1 0 1 ∧
    example_init 1 1 0 1
      + (example_params 1 1 1 1 1).density * (example_params 1 1 1 1 1).accel / 9
      ≠ example_init 1 1 0 1 := by
  decide!

/-- C14 (amended): the forcing block leaves the grid unchanged if the cell is an obstacle or
`speeds[3] - w1 <= 0` or `speeds[6] - w2 <= 0` or `speeds[7] - w2 <= 0`; in every other case
it is applied: the cell gets the forced values and every other cell is unchanged. -/
theorem C14_forcing_skipped_iff (params : t_param) (cells : Grid) (obstacles : Obstacles)
    (ii jj d k : Nat) :
    accelerate_cell params cells obstacles ii jj d k
      = if obstacles (ii * params.nx + jj) ≠ 0
          ∨ cells (ii * params.nx + jj) 3 - params.density * params.accel / 9 ≤ 0
          ∨ cells (ii * params.nx + jj) 6 - params.density * params.accel / 36 ≤ 0
          ∨ cells (ii * params.nx + jj) 7 - params.density * params.accel / 36 ≤ 0
        then cells d k
        else if d = ii * params.nx + jj
          then forced_val (params.density * params.accel / 9)
            (params.density * params.accel / 36) (cells (ii * params.nx + jj)) k
          else cells d k := by
  rw [accelerate_cell_apply]
  unfold forcing_guard
  by_cases h0 : obstacles (ii * params.nx + jj) = 0
  · by_cases h3 : cells (ii * params.nx + jj) 3 - params.density * params.accel / 9 > 0
    · by_cases h6 : cells (ii * params.nx + jj) 6 - params.density * params.accel / 36 > 0
      · by_cases h7 : cells (ii * params.nx + jj) 7 - params.density * params.accel / 36 > 0
        · have hn : ¬ (obstacles (ii * params.nx + jj) ≠ 0
              ∨ cells (ii * params.nx + jj) 3 - params.density * params.accel / 9 ≤ 0
              ∨ cells (ii * params.nx + jj) 6 - params.density * params.accel / 36 ≤ 0
              ∨ cells (ii * params.nx + jj) 7 - params.density * params.accel / 36 ≤ 0) := by
            rintro (h | h | h | h)
            · exact h h0
            · exact absurd h3 (not_lt.mpr h)
            · exact absurd h6 (not_lt.mpr h)
            · exact absurd h7 (not_lt.mpr h)
          rw [if_neg hn]
          by_cases hd : d = ii * params.nx + jj
          · rw [if_pos ⟨⟨h0, h3, h6, h7⟩, hd⟩, if_pos hd]
          · rw [if_neg (fun h => hd h.2), if_neg hd]
        · rw [if_neg (fun h => h7 h.1.2.2.2),
            if_pos (Or.inr (Or.inr (Or.inr (not_lt.mp h7))))]
      · rw [if_neg (fun h => h6 h.1.2.2.1), if_pos (Or.inr (Or.inr (Or.inl (not_lt.mp h6))))]
    · rw [if_neg (fun h => h3 h.1.2.1), if_pos (Or.inr (Or.inl (not_lt.mp h3)))]
  · rw [if_neg (fun h => h0 h.1.1), if_pos (Or.inl h0)]

/-! ## What `propagate` does to `cells` after the halo exchange -/

/-- The grid `cells` evolves through the row loop by the forcing block alone. -/
theorem loop_stream_row_fst (params : t_param) (obstacles : Obstacles) (start n : Nat)
    (s : Grid × Grid) :
    (loop (fun q s => stream_row params obstacles (start + q) s) n s).1
      = loop (fun q c => accelerate_cell params c obstacles (start + q) 0) n s.1 := by
  induction n with
  | zero => rfl
  | succ n ih =>
    rw [loop_succ, loop_succ]
    show accelerate_cell params _ obstacles (start + n) 0 = _
    rw [ih]

/-- After the halo exchange `propagate` changes `cells` only through the forcing block,
applied at column 0 of row `h_south`, of row `h_north` and of the rows `start..end`. -/
theorem stream_phase_fst (params : t_param) (rank nprocs : Nat) (obstacles : Obstacles)
    (s : Grid × Grid) :
    (stream_phase params rank nprocs obstacles s).1
      = loop_range (row_range params.ny params.rest rank nprocs).1
          (row_range params.ny params.rest rank nprocs).2
          (fun ii c => accelerate_cell params c obstacles ii 0)
          (accelerate_cell params
            (accelerate_cell params s.1 obstacles
              (h_south params.ny (row_range params.ny params.rest rank nprocs).1) 0)
            obstacles (h_north params.ny (row_range params.ny params.rest rank nprocs).2) 0) := by
  unfold stream_phase loop_range
  exact loop_stream_row_fst params obstacles _ _ _

/-- A loop of forcing blocks at column 0 leaves every cell that is not in column 0 of a
visited row as it was. -/
theorem loop_accelerate_miss (params : t_param) (obstacles : Obstacles) (start n : Nat)
    (c : Grid) (d k : Nat) (h : ∀ m, m < n → d ≠ (start + m) * params.nx + 0) :
    loop (fun q c => accelerate_cell params c obstacles (start + q) 0) n c d k = c d k := by
  refine loop_visit_miss (fun q c => accelerate_cell params c obstacles (start + q) 0)
    (fun m i => i = (start + m) * params.nx + 0) ?_ n c d k h
  intro m c i k hm
  exact accelerate_cell_other params c obstacles (start + m) 0 i k hm

/-- A loop of forcing blocks over distinct rows applies the block once to the cell of
column 0 of each visited row. -/
theorem loop_accelerate_hit (params : t_param) (obstacles : Obstacles) (start n : Nat)
    (c : Grid) (m0 k : Nat) (hnx : 0 < params.nx) (hm0 : m0 < n) :
    loop (fun q c => accelerate_cell params c obstacles (start + q) 0) n c
        ((start + m0) * params.nx + 0) k
      = accelerate_cell params c obstacles (start + m0) 0 ((start + m0) * params.nx + 0) k := by
  induction n with
  | zero => exact absurd hm0 (Nat.not_lt_zero m0)
  | succ n ih =>
    rw [loop_succ]
    by_cases he : m0 = n
    · subst he
      refine accelerate_cell_congr params _ c obstacles (start + m0) 0 k ?_
      intro q
      refine loop_accelerate_miss params obstacles start m0 c _ q ?_
      intro m hm e
      have := (flat_index_inj params.nx _ _ _ _ hnx hnx e).1
      omega
    · rw [accelerate_cell_other, ih (by omega)]
      intro e
      have := (flat_index_inj params.nx _ _ _ _ hnx hnx e).1
      omega

/-- The forcing of `propagate` changes no cell outside column 0. -/
theorem stream_phase_other_column (params : t_param) (rank nprocs : Nat)
    (obstacles : Obstacles) (s : Grid × Grid) (i j k : Nat) (hj0 : 0 < j) (hj : j < params.nx) :
    (stream_phase params rank nprocs obstacles s).1 (i * params.nx + j) k
      = s.1 (i * params.nx + j) k := by
  have hne : ∀ r, i * params.nx + j ≠ r * params.nx + 0 := by
    intro r e
    have := (flat_index_inj params.nx _ _ _ _ hj (by omega) e).2
    omega
  rw [stream_phase_fst]
  unfold loop_range
  rw [loop_accelerate_miss params obstacles _ _ _ _ k (fun m _ => hne _),
    accelerate_cell_other _ _ _ _ _ _ _ (hne _), accelerate_cell_other _ _ _ _ _ _ _ (hne _)]

/-- The cell of column 0 of an owned row that is neither `h_south` nor `h_north` is
forced once by `propagate`. -/
theorem stream_phase_owned_column_zero (params : t_param) (rank nprocs : Nat)
    (obstacles : Obstacles) (s : Grid × Grid) (ii k : Nat) (hnx : 0 < params.nx)
    (h1 : (row_range params.ny params.rest rank nprocs).1 ≤ ii)
    (h2 : ii ≤ (row_range params.ny params.rest rank nprocs).2)
    (hs : ii ≠ h_south params.ny (row_range params.ny params.rest rank nprocs).1)
    (hn : ii ≠ h_north params.ny (row_range params.ny params.rest rank nprocs).2) :
    (stream_phase params rank nprocs obstacles s).1 (ii * params.nx + 0) k
      = accelerate_cell params s.1 obstacles ii 0 (ii * params.nx + 0) k := by
  rw [stream_phase_fst]
  unfold loop_range
  generalize (row_range params.ny params.rest rank nprocs).1 = start at *
  generalize (row_range params.ny params.rest rank nprocs).2 = stop at *
  have hrow : ∀ r, ii ≠ r → ii * params.nx + 0 ≠ r * params.nx + 0 := by
    intro r hr e
    exact hr (flat_index_inj params.nx _ _ _ _ hnx hnx e).1
  have e : start + (ii - start) = ii := by omega
  have key := loop_accelerate_hit params obstacles start (stop + 1 - start)
    (accelerate_cell params (accelerate_cell params s.1 obstacles (h_south params.ny start) 0)
      obstacles (h_north params.ny stop) 0) (ii - start) k hnx (by omega)
  rw [e] at key
  rw [key]
  refine accelerate_cell_congr params _ s.1 obstacles ii 0 k ?_
  intro q
  rw [accelerate_cell_other _ _ _ _ _ _ _ (hrow _ hn),
    accelerate_cell_other _ _ _ _ _ _ _ (hrow _ hs)]

/-! ## Where and how often the forcing acts: claims -/

set_option maxRecDepth 100000 in
/-- C11 (as stated, fails): 2 columns, 3 rows, 2 workers, density 1, accel 1/10, no obstacle,
the grid of `initialise`, worker 0 (rows 0..1).  The forcing changes the cell `(1, 0)`,
which is not in row 0, and leaves the cell `(0, 1)` of row 0 as it was although it is not
an obstacle and passes the guard. -/
theorem C11_forcing_row_zero_counterexample :
    row_range 3 (3 % 2) 0 2 = (0, 1) ∧
    (propagate_all (example_params 2 3 2 (1 / 10) 1) 2 no_obstacles
        (start_world (example_init 2 3) (fun _ => ones_grid)) 0).1 (1 * 2 + 0) 1
      ≠ halo_exchange (example_params 2 3 2 (1 / 10) 1) 2
        (start_world (example_init 2 3) (fun _ => ones_grid)) 0 (1 * 2 + 0) 1 ∧
    forcing_guard (example_params 2 3 2 (1 / 10) 1)
      (halo_exchange (example_params 2 3 2 (1 / 10) 1) 2
        (start_world (example_init 2 3) (fun _ => ones_grid)) 0) no_obstacles (0 * 2 + 1) ∧
    (propagate_all (example_params 2 3 2 (1 / 10) 1) 2 no_obstacles
        (start_world (example_init 2 3) (fun _ => ones_grid)) 0).1 (0 * 2 + 1) 1
      = halo_exchange (example_params 2 3 2 (1 / 10) 1) 2
        (start_world (example_init 2 3) (fun _ => ones_grid)) 0 (0 * 2 + 1) 1 := by
  decide!

/-- C11 (amended): in one call of `propagate` the forcing changes only cells of column 0:
no cell `(i, j)` with `0 < j < nx` is changed by it, whatever its row, and for every row
`ii` of the worker's range `start..end` (that is not also one of its halo rows) the cell
`(ii, 0)` gets the forcing block applied to it: it is forced if it is not an obstacle and
passes the guard. -/
theorem C11_forcing_column_zero (params : t_param) (rank nprocs : Nat)
    (halo_south_r halo_north_r : Buffer) (cells tmp_cells : Grid) (obstacles : Obstacles)
    (hnx : 0 < params.nx) :
    (∀ i j k, 0 < j → j < params.nx →
      (propagate params rank nprocs halo_south_r halo_north_r cells tmp_cells obstacles).1
          (i * params.nx + j) k
        = halo_phase params rank nprocs halo_south_r halo_north_r cells (i * params.nx + j) k) ∧
    (∀ ii k, (row_range params.ny params.rest rank nprocs).1 ≤ ii →
      ii ≤ (row_range params.ny params.rest rank nprocs).2 →
      ii ≠ h_south params.ny (row_range params.ny params.rest rank nprocs).1 →
      ii ≠ h_north params.ny (row_range params.ny params.rest rank nprocs).2 →
      (propagate params rank nprocs halo_south_r halo_north_r cells tmp_cells obstacles).1
          (ii * params.nx + 0) k
        = accelerate_cell params
            (halo_phase params rank nprocs halo_south_r halo_north_r cells) obstacles ii 0
            (ii * params.nx + 0) k) := by
  constructor
  · intro i j k hj0 hj
    exact stream_phase_other_column params rank nprocs obstacles _ i j k hj0 hj
  · intro ii k h1 h2 hs hn
    exact stream_phase_owned_column_zero params rank nprocs obstacles _ ii k hnx h1 h2 hs hn

/-- C11 (amended) on a grid of 2 columns and 3 rows split among 2 workers, worker 0. -/
theorem C11_forcing_column_zero_witness :
    (∀ i j k, 0 < j → j < (example_params 2 3 2 (1 / 10) 1).nx →
      (propagate (example_params 2 3 2 (1 / 10) 1) 0 2 (fun _ => 0) (fun _ => 0)
          (example_init 2 3) ones_grid no_obstacles).1
          (i * (example_params 2 3 2 (1 / 10) 1).nx + j) k
        = halo_phase (example_params 2 3 2 (1 / 10) 1) 0 2 (fun _ => 0) (fun _ => 0)
          (example_init 2 3) (i * (example_params 2 3 2 (1 / 10) 1).nx + j) k) ∧
    (∀ ii k,
      (row_range (example_params 2 3 2 (1 / 10) 1).ny
        (example_params 2 3 2 (1 / 10) 1).rest 0 2).1 ≤ ii →
      ii ≤ (row_range (example_params 2 3 2 (1 / 10) 1).ny
        (example_params 2 3 2 (1 / 10) 1).rest 0 2).2 →
      ii ≠ h_south (example_params 2 3 2 (1 / 10) 1).ny
        (row_range (example_params 2 3 2 (1 / 10) 1).ny
          (example_params 2 3 2 (1 / 10) 1).rest 0 2).1 →
      ii ≠ h_north (example_params 2 3 2 (1 / 10) 1).ny
        (row_range (example_params 2 3 2 (1 / 10) 1).ny
          (example_params 2 3 2 (1 / 10) 1).rest 0 2).2 →
      (propagate (example_params 2 3 2 (1 / 10) 1) 0 2 (fun _ => 0) (fun _ => 0)
          (example_init 2 3) ones_grid no_obstacles).1
          (ii * (example_params 2 3 2 (1 / 10) 1).nx + 0) k
        = accelerate_cell (example_params 2 3 2 (1 / 10) 1)
            (halo_phase (example_params 2 3 2 (1 / 10) 1) 0 2 (fun _ => 0) (fun _ => 0)
              (example_init 2 3)) no_obstacles ii 0
            (ii * (example_params 2 3 2 (1 / 10) 1).nx + 0) k) :=
  C11_forcing_column_zero (example_params 2 3 2 (1 / 10) 1) 0 2 (fun _ => 0) (fun _ => 0)
    (example_init 2 3) ones_grid no_obstacles (by decide)

set_option maxRecDepth 100000 in
/-- C12 (defect): 1 column, 3 rows, 2 workers, density 1, accel 1/10, no obstacle, the grid
of `initialise`.  Worker 0 owns rows 0..1, so the row below and the row above its block
are both row 2.  The cell `(2, 0)` holds `1/9` in component 1 after the halo exchange,
one application of the forcing block gives `11/90`, and `propagate` leaves `2/15`: the
block is applied twice, and the doubly forced value is what is scattered. -/
theorem C12_forcing_applied_twice :
    h_south 3 (row_range 3 (3 % 2) 0 2).1 = 2 ∧ h_north 3 (row_range 3 (3 % 2) 0 2).2 = 2 ∧
    halo_exchange (example_params 1 3 2 (1 / 10) 1) 2
        (start_world (example_init 1 3) (fun _ => ones_grid)) 0 (2 * 1 + 0) 1 = 1 / 9 ∧
    accelerate_cell (example_params 1 3 2 (1 / 10) 1)
        (halo_exchange (example_params 1 3 2 (1 / 10) 1) 2
          (start_world (example_init 1 3) (fun _ => ones_grid)) 0)
        no_obstacles 2 0 (2 * 1 + 0) 1 = 11 / 90 ∧
    (propagate_all (example_params 1 3 2 (1 / 10) 1) 2 no_obstacles
        (start_world (example_init 1 3) (fun _ => ones_grid)) 0).1 (2 * 1 + 0) 1 = 2 / 15 ∧
    (propagate_all (example_params 1 3 2 (1 / 10) 1) 2 no_obstacles
        (start_world (example_init 1 3) (fun _ => ones_grid)) 0).2 (2 * 1 + 0) 1 = 2 / 15 := by
  decide!

/-! ## `collision` at and away from equilibrium -/

/-- The value stored by `collision` is the relaxation towards `collision_equ`. -/
theorem collision_val_eq (omega : ℚ) (f : t_speed) (k : Nat) (x : ℚ) (hk : k ≤ 8) :
    collision_val omega f k x = f k + omega * (collision_equ f k - f k) := by
  unfold collision_val collision_equ
  simp only
  interval_cases k <;>
    simp only [chain9, if_true, if_false, Nat.reduceEqDiff, OfNat.ofNat_ne_zero,
      OfNat.zero_ne_ofNat, reduceCtorEq, Nat.succ_ne_self, OfNat.ofNat_ne_one,
      OfNat.one_ne_ofNat, Nat.one_ne_zero, Nat.zero_ne_one]

/-- The nine equilibrium values of `collision` sum to the density of the scratch cell:
the weights sum to 1 and the velocity terms cancel. -/
theorem collision_equ_sum (f : t_speed) :
    sum9 (collision_equ f) = local_density f := by
  unfold sum9 collision_equ u_sq
  simp only [chain9, if_true, if_false, Nat.reduceEqDiff, OfNat.ofNat_ne_zero,
    OfNat.zero_ne_ofNat, reduceCtorEq, Nat.succ_ne_self, OfNat.ofNat_ne_one,
    OfNat.one_ne_ofNat, Nat.one_ne_zero, Nat.zero_ne_one, collision_w0, collision_w1,
    collision_w2]
  ring

/-- A division by a divisor that is not zero is the rational quotient. -/
theorem float_div_of_ne (x y : ℚ) (h : y ≠ 0) : float_div x y = some (x / y) := by
  unfold float_div
  rw [if_neg h]

/-- A division by zero has no finite value. -/
theorem float_div_zero (x : ℚ) : float_div x 0 = none := by
  unfold float_div
  rw [if_pos rfl]

/-- For a scratch cell of non-zero density the float model of the stored value is the
value of the rational model. -/
theorem collision_store_of_ne (omega : ℚ) (f : t_speed) (k : Nat)
    (h : local_density f ≠ 0) :
    collision_store omega f k = some (collision_val omega f k 0) := by
  unfold collision_store u_x_float u_y_float
  rw [float_div_of_ne _ _ h, float_div_of_ne _ _ h]
  rfl

/-- A scratch cell of density zero makes both quotients, hence every stored value, NaN
or infinite. -/
theorem collision_store_zero (omega : ℚ) (f : t_speed) (k : Nat) (h : local_density f = 0) :
    u_x_float f = none ∧ u_y_float f = none ∧ collision_store omega f k = none := by
  have hx : u_x_float f = none := by
    unfold u_x_float
    rw [h, float_div_zero]
  have hy : u_y_float f = none := by
    unfold u_y_float
    rw [h, float_div_zero]
  refine ⟨hx, hy, ?_⟩
  unfold collision_store
  rw [hx]

theorem set_speed_float_apply (g : FloatGrid) (idx k : Nat) (v : Option ℚ) (i c : Nat) :
    set_speed_float g idx k v i c = if i = idx ∧ c = k then v else g i c := rfl

theorem collision_cell_float_apply (omega : ℚ) (cells : FloatGrid) (tmp_cells : Grid)
    (idx i k : Nat) :
    collision_cell_float omega cells tmp_cells idx i k
      = if i = idx then
          (if k ≤ 8 then collision_store omega (tmp_cells idx) k else cells idx k)
        else cells i k := by
  unfold collision_cell_float
  simp only [set_speed_float_apply]
  by_cases hi : i = idx
  · subst hi
    simp only [true_and, if_true]
    by_cases hk : k ≤ 8
    · rw [if_pos hk]
      interval_cases k <;> simp
    · rw [if_neg hk]
      have h0 : k ≠ 0 := by omega
      have h1 : k ≠ 1 := by omega
      have h2 : k ≠ 2 := by omega
      have h3 : k ≠ 3 := by omega
      have h4 : k ≠ 4 := by omega
      have h5 : k ≠ 5 := by omega
      have h6 : k ≠ 6 := by omega
      have h7 : k ≠ 7 := by omega
      have h8 : k ≠ 8 := by omega
      simp only [h0, h1, h2, h3, h4, h5, h6, h7, h8, if_false]
  · simp [hi]

/-- What `collision` leaves, as floats, in a cell of the worker's rows. -/
theorem collision_float_owned (params : t_param) (rank nprocs : Nat) (cells : FloatGrid)
    (tmp_cells : Grid) (obstacles : Obstacles) (ii jj k : Nat)
    (h1 : (row_range params.ny params.rest rank nprocs).1 ≤ ii)
    (h2 : ii ≤ (row_range params.ny params.rest rank nprocs).2) (h3 : jj < params.nx) :
    collision_float params rank nprocs cells tmp_cells obstacles (ii * params.nx + jj) k
      = if obstacles (ii * params.nx + jj) = 0 then
          (if k ≤ 8 then collision_store params.omega (tmp_cells (ii * params.nx + jj)) k
            else cells (ii * params.nx + jj) k)
        else cells (ii * params.nx + jj) k := by
  unfold collision_float
  refine sweep_hit params.nx _ _
    (fun idx c => if obstacles idx = 0 then collision_cell_float params.omega c tmp_cells idx
      else c)
    (fun i k x => if obstacles i = 0 then
        (if k ≤ 8 then collision_store params.omega (tmp_cells i) k else x) else x)
    ?_ ?_ cells ii jj k h1 h2 h3
  · intro idx c i k
    by_cases ho : obstacles idx = 0
    · simp only [if_pos ho, collision_cell_float_apply]
    · simp only [if_neg ho]
      split_ifs with hi
      · rw [hi]
      · rfl
  · intro i k x
    by_cases ho : obstacles i = 0
    · simp only [if_pos ho]
      by_cases hk : k ≤ 8
      · simp only [if_pos hk]
      · simp only [if_neg hk]
    · simp only [if_neg ho]

/-- For a non-obstacle cell of the worker's rows with non-zero scratch density, the floats
`collision` stores are the values of the rational model. -/
theorem collision_float_of_ne (params : t_param) (rank nprocs : Nat) (fcells : FloatGrid)
    (cells tmp_cells : Grid) (obstacles : Obstacles) (ii jj k : Nat)
    (h1 : (row_range params.ny params.rest rank nprocs).1 ≤ ii)
    (h2 : ii ≤ (row_range params.ny params.rest rank nprocs).2) (h3 : jj < params.nx)
    (hobs : obstacles (ii * params.nx + jj) = 0)
    (hrho : local_density (tmp_cells (ii * params.nx + jj)) ≠ 0) (hk : k ≤ 8) :
    collision_float params rank nprocs fcells tmp_cells obstacles (ii * params.nx + jj) k
      = some (collision params rank nprocs cells tmp_cells obstacles (ii * params.nx + jj) k) := by
  rw [collision_float_owned params rank nprocs fcells tmp_cells obstacles ii jj k h1 h2 h3,
    if_pos hobs, if_pos hk, collision_store_of_ne _ _ _ hrho,
    collision_owned params rank nprocs cells tmp_cells obstacles ii jj k h1 h2 h3, if_pos hobs,
    collision_val_eq _ _ _ _ hk, collision_val_eq _ _ _ _ hk]

/-! ## `collision` at and away from equilibrium: claims -/

/-- C15: for every omega and every non-obstacle cell of the worker's rows whose scratch
cell `f` has non-zero density and whose 9 components equal the equilibrium values
`collision` computes from the density and velocity of `f`, `collision` writes back
exactly `f`: `cells.speeds[k] = f_k` for all `k = 0..8`. -/
theorem C15_equilibrium_fixed_point (params : t_param) (rank nprocs : Nat)
    (cells tmp_cells : Grid) (obstacles : Obstacles) (ii jj : Nat)
    (h1 : (row_range params.ny params.rest rank nprocs).1 ≤ ii)
    (h2 : ii ≤ (row_range params.ny params.rest rank nprocs).2)
    (h3 : jj < params.nx) (hobs : obstacles (ii * params.nx + jj) = 0)
    (_hrho : local_density (tmp_cells (ii * params.nx + jj)) ≠ 0)
    (heq : ∀ k, k ≤ 8 →
      tmp_cells (ii * params.nx + jj) k = collision_equ (tmp_cells (ii * params.nx + jj)) k) :
    ∀ k, k ≤ 8 →
      collision params rank nprocs cells tmp_cells obstacles (ii * params.nx + jj) k
        = tmp_cells (ii * params.nx + jj) k := by
  intro k hk
  rw [collision_owned params rank nprocs cells tmp_cells obstacles ii jj k h1 h2 h3,
    if_pos hobs, collision_val_eq _ _ _ _ hk, ← heq k hk]
  ring

set_option maxRecDepth 100000 in
/-- C15 on a 1 x 1 grid, omega 17/10, for a scratch cell of density 1 and velocity
`(1/10, 0)` whose nine components are at equilibrium: component 1, which holds
`133/900`, is written back as it is. -/
theorem C15_equilibrium_fixed_point_witness :
    local_density (equilibrium_grid (0 * (example_params 1 1 1 0 (17 / 10)).nx + 0)) = 1 ∧
    u_x (equilibrium_grid (0 * (example_params 1 1 1 0 (17 / 10)).nx + 0)) = 1 / 10 ∧
    collision (example_params 1 1 1 0 (17 / 10)) 0 1 ones_grid equilibrium_grid
        no_obstacles (0 * (example_params 1 1 1 0 (17 / 10)).nx + 0) 1
      = equilibrium_grid (0 * (example_params 1 1 1 0 (17 / 10)).nx + 0) 1 :=
  ⟨by decide!, by decide!,
    C15_equilibrium_fixed_point (example_params 1 1 1 0 (17 / 10)) 0 1 ones_grid
      equilibrium_grid no_obstacles 0 0 (by decide) (by decide) (by decide) rfl
      (by decide!) (by decide!) 1 (by decide)⟩

/-- C16 (as stated, fails): on a 1 x 1 grid with one worker, no obstacle and a scratch
cell of nine zeros, `collision` reports no error: its outcome is the array it has
written, in which component 0 of the cell, computed with the two quotients by the zero
density, is no finite number. -/
theorem C16_zero_density_no_error_counterexample :
    no_obstacles (0 * 1 + 0) = 0 ∧ local_density (zero_grid (0 * 1 + 0)) = 0 ∧
    collision_outcome (example_params 1 1 1 0 1) 0 1 (finite_grid ones_grid) zero_grid
        no_obstacles
      = Except.ok (collision_float (example_params 1 1 1 0 1) 0 1 (finite_grid ones_grid)
          zero_grid no_obstacles) ∧
    u_x_float (zero_grid (0 * 1 + 0)) = none ∧ u_y_float (zero_grid (0 * 1 + 0)) = none ∧
    collision_float (example_params 1 1 1 0 1) 0 1 (finite_grid ones_grid) zero_grid
        no_obstacles (0 * 1 + 0) 0 = none := by
  have h0 : local_density (zero_grid (0 * 1 + 0)) = 0 := by
    simp [local_density, zero_grid]
  have hz := collision_store_zero (example_params 1 1 1 0 1).omega (zero_grid (0 * 1 + 0)) 0 h0
  refine ⟨rfl, h0, rfl, hz.1, hz.2.1, ?_⟩
  have h := collision_float_owned (example_params 1 1 1 0 1) 0 1 (finite_grid ones_grid)
    zero_grid no_obstacles 0 0 0 (by decide) (by decide) (by decide)
  simp only [example_params, set_rest] at h hz ⊢
  rw [h, if_pos (show no_obstacles (0 * 1 + 0) = 0 from rfl), if_pos (by decide), hz.2.2]

/-- C16 (amended): when a non-obstacle cell of the worker's rows has scratch density zero,
`collision` makes no check and reports no error; it divides by that density, so `u_x`
and `u_y` are NaN or infinite, and each of the nine values it stores in the cell,
`k = 0..8`, is NaN or infinite, no finite number. -/
theorem C16_zero_density_unchecked (params : t_param) (rank nprocs : Nat)
    (cells : FloatGrid) (tmp_cells : Grid) (obstacles : Obstacles) (ii jj k : Nat)
    (h1 : (row_range params.ny params.rest rank nprocs).1 ≤ ii)
    (h2 : ii ≤ (row_range params.ny params.rest rank nprocs).2)
    (h3 : jj < params.nx) (hobs : obstacles (ii * params.nx + jj) = 0)
    (hrho : local_density (tmp_cells (ii * params.nx + jj)) = 0) (hk : k ≤ 8) :
    collision_outcome params rank nprocs cells tmp_cells obstacles
      = Except.ok (collision_float params rank nprocs cells tmp_cells obstacles) ∧
    u_x_float (tmp_cells (ii * params.nx + jj)) = none ∧
    u_y_float (tmp_cells (ii * params.nx + jj)) = none ∧
    collision_float params rank nprocs cells tmp_cells obstacles (ii * params.nx + jj) k
      = none := by
  have hz := collision_store_zero params.omega (tmp_cells (ii * params.nx + jj)) k hrho
  refine ⟨rfl, hz.1, hz.2.1, ?_⟩
  rw [collision_float_owned params rank nprocs cells tmp_cells obstacles ii jj k h1 h2 h3,
    if_pos hobs, if_pos hk, hz.2.2]

/-- C16 (amended) on a 1 x 1 grid with one worker and a scratch cell whose components
`1, 1, 1, 1, 1, -1, -1, -1, -2` sum to zero, component 3. -/
theorem C16_zero_density_unchecked_witness :
    collision_outcome (example_params 1 1 1 0 1) 0 1 (finite_grid ones_grid) zero_sum_grid
        no_obstacles
      = Except.ok (collision_float (example_params 1 1 1 0 1) 0 1 (finite_grid ones_grid)
          zero_sum_grid no_obstacles) ∧
    u_x_float (zero_sum_grid (0 * (example_params 1 1 1 0 1).nx + 0)) = none ∧
    u_y_float (zero_sum_grid (0 * (example_params 1 1 1 0 1).nx + 0)) = none ∧
    collision_float (example_params 1 1 1 0 1) 0 1 (finite_grid ones_grid) zero_sum_grid
        no_obstacles (0 * (example_params 1 1 1 0 1).nx + 0) 3 = none :=
  C16_zero_density_unchecked (example_params 1 1 1 0 1) 0 1 (finite_grid ones_grid)
    zero_sum_grid no_obstacles 0 0 3 (by decide) (by decide) (by decide) rfl
    (by norm_num [local_density, zero_sum_grid, chain9]) (by decide)

/-! ## The average velocity loops -/

theorem sum_speeds_eq (f : t_speed) : sum_speeds f = local_density f := by
  unfold sum_speeds local_density NSPEEDS
  simp only [loop]
  ring

/-- The accumulation for one cell adds the x velocity and one, or nothing. -/
theorem av_cell_eq (cells : Grid) (obstacles : Obstacles) (idx : Nat) (acc : ℚ × Nat) :
    av_cell cells obstacles idx acc
      = (acc.1 + (if obstacles idx = 0 then u_x (cells idx) else 0),
         acc.2 + (if obstacles idx = 0 then 1 else 0)) := by
  unfold av_cell
  by_cases h : obstacles idx = 0
  · simp only [if_pos h, sum_speeds_eq]
    rfl
  · simp only [if_neg h, add_zero]

/-- The loop over the columns of row `r` adds the row sums to the accumulators. -/
theorem av_row_loop (nx : Nat) (cells : Grid) (obstacles : Obstacles) (r n : Nat)
    (acc : ℚ × Nat) :
    loop (fun jj acc => av_cell cells obstacles (r * nx + jj) acc) n acc
      = (acc.1 + Finset.sum (Finset.range n)
            (fun j => if obstacles (r * nx + j) = 0 then u_x (cells (r * nx + j)) else 0),
         acc.2 + Finset.sum (Finset.range n)
            (fun j => if obstacles (r * nx + j) = 0 then 1 else 0)) := by
  induction n with
  | zero => simp [loop]
  | succ n ih =>
    rw [loop_succ, ih, av_cell_eq, Finset.sum_range_succ, Finset.sum_range_succ]
    simp only [add_assoc]

/-- The loop over `n` rows, row `R m` at iteration `m`, adds the sums of these rows. -/
theorem av_rows_loop (nx : Nat) (cells : Grid) (obstacles : Obstacles) (R : Nat → Nat)
    (n : Nat) (acc : ℚ × Nat) :
    loop (fun m acc => loop (fun jj acc => av_cell cells obstacles (R m * nx + jj) acc) nx acc)
        n acc
      = (acc.1 + Finset.sum (Finset.range n) (fun m => row_u_x nx cells obstacles (R m)),
         acc.2 + Finset.sum (Finset.range n) (fun m => row_count nx obstacles (R m))) := by
  induction n with
  | zero => simp [loop]
  | succ n ih =>
    rw [loop_succ, ih, av_row_loop, Finset.sum_range_succ, Finset.sum_range_succ]
    simp only [add_assoc, row_u_x, row_count]

theorem av_velocity_eq_spec (params : t_param) (cells : Grid) (obstacles : Obstacles) :
    av_velocity params cells obstacles = spec_av_velocity params cells obstacles := by
  unfold av_velocity spec_av_velocity
  have h := av_rows_loop params.nx cells obstacles (fun m => m) params.ny (0, 0)
  simp only [zero_add] at h
  simp only [h]

theorem local_av_eq (params : t_param) (rank nprocs : Nat) (cells : Grid)
    (obstacles : Obstacles) :
    local_av params rank nprocs cells obstacles
      = (Finset.sum (Finset.range ((row_range params.ny params.rest rank nprocs).2 + 1
            - (row_range params.ny params.rest rank nprocs).1))
          (fun m => row_u_x params.nx cells obstacles
            ((row_range params.ny params.rest rank nprocs).1 + m)),
         Finset.sum (Finset.range ((row_range params.ny params.rest rank nprocs).2 + 1
            - (row_range params.ny params.rest rank nprocs).1))
          (fun m => row_count params.nx obstacles
            ((row_range params.ny params.rest rank nprocs).1 + m))) := by
  unfold local_av loop_range
  have h := av_rows_loop params.nx cells obstacles
    (fun m => (row_range params.ny params.rest rank nprocs).1 + m)
    ((row_range params.ny params.rest rank nprocs).2 + 1
      - (row_range params.ny params.rest rank nprocs).1) (0, 0)
  simp only [zero_add] at h
  exact h

/-- The x velocity of a cell depends on its components 0..8 only. -/
theorem u_x_congr (f g : t_speed) (h : ∀ k, k ≤ 8 → f k = g k) : u_x f = u_x g := by
  unfold u_x local_density
  rw [h 0 (by decide), h 1 (by decide), h 2 (by decide), h 3 (by decide), h 4 (by decide),
    h 5 (by decide), h 6 (by decide), h 7 (by decide), h 8 (by decide)]

/-- The sum of a row of the grid is the same for two grids that agree off the obstacles. -/
theorem row_u_x_congr (params : t_param) (obstacles : Obstacles) (c1 c2 : Grid)
    (h : agree_off_obstacles params obstacles c1 c2) (r : Nat) (hr : r < params.ny) :
    row_u_x params.nx c1 obstacles r = row_u_x params.nx c2 obstacles r := by
  unfold row_u_x
  refine Finset.sum_congr rfl ?_
  intro j hj
  by_cases ho : obstacles (r * params.nx + j) = 0
  · rw [if_pos ho, if_pos ho]
    exact u_x_congr _ _ (fun k hk => h r j k hr (Finset.mem_range.mp hj) hk ho)
  · rw [if_neg ho, if_neg ho]

/-! ## The average velocity: claims -/

/-- C19: `av_velocity` returns the sum of the x velocities of the non-obstacle cells
divided by the number of non-obstacle cells, and returns the same value for any two
grids that agree on every non-obstacle cell; likewise the partial sum and count of
each worker in the reduction of `main` are the sum and the number over the non-obstacle
cells of its rows `start..end`, and are the same for two such grids. -/
theorem C19_av_velocity_ignores_obstacles (params : t_param) (obstacles : Obstacles)
    (c1 c2 : Grid) (h : agree_off_obstacles params obstacles c1 c2) :
    av_velocity params c1 obstacles = spec_av_velocity params c1 obstacles ∧
    av_velocity params c1 obstacles = av_velocity params c2 obstacles ∧
    (∀ rank nprocs,
      local_av params rank nprocs c1 obstacles
        = (Finset.sum (Finset.range ((row_range params.ny params.rest rank nprocs).2 + 1
              - (row_range params.ny params.rest rank nprocs).1))
            (fun m => row_u_x params.nx c1 obstacles
              ((row_range params.ny params.rest rank nprocs).1 + m)),
           Finset.sum (Finset.range ((row_range params.ny params.rest rank nprocs).2 + 1
              - (row_range params.ny params.rest rank nprocs).1))
            (fun m => row_count params.nx obstacles
              ((row_range params.ny params.rest rank nprocs).1 + m)))) ∧
    (∀ rank nprocs, rank < nprocs → params.rest = params.ny % nprocs → 0 < params.ny →
      local_av params rank nprocs c1 obstacles = local_av params rank nprocs c2 obstacles) := by
  refine ⟨av_velocity_eq_spec params c1 obstacles, ?_,
    fun rank nprocs => local_av_eq params rank nprocs c1 obstacles, ?_⟩
  · rw [av_velocity_eq_spec, av_velocity_eq_spec]
    unfold spec_av_velocity
    congr 1
    refine Finset.sum_congr rfl ?_
    intro i hi
    exact row_u_x_congr params obstacles c1 c2 h i (Finset.mem_range.mp hi)
  · intro rank nprocs hrank hrest hny
    have hstop := row_range_stop_lt_ny params rank nprocs hny hrank hrest
    rw [local_av_eq, local_av_eq]
    congr 1
    refine Finset.sum_congr rfl ?_
    intro m hm
    have hm' := Finset.mem_range.mp hm
    exact row_u_x_congr params obstacles c1 c2 h _ (by omega)

/-- C19 on a grid of 1 column and 3 rows with an obstacle in row 1, for two grids that
differ in the obstacle cell only. -/
theorem C19_av_velocity_ignores_obstacles_witness :
    agree_off_obstacles (example_params 1 3 2 0 1) (one_obstacle 1) ramp_grid
      ramp_grid_cleared ∧
    av_velocity (example_params 1 3 2 0 1) ramp_grid (one_obstacle 1)
      = av_velocity (example_params 1 3 2 0 1) ramp_grid_cleared (one_obstacle 1) := by
  have h : agree_off_obstacles (example_params 1 3 2 0 1) (one_obstacle 1) ramp_grid
      ramp_grid_cleared := by
    intro i j k _ hj _ ho
    have hj' : j = 0 := by
      have : j < 1 := hj
      omega
    subst hj'
    have hi : i ≠ 1 := by
      intro e
      subst e
      revert ho
      decide
    have e : i * (example_params 1 3 2 0 1).nx + 0 = i := by
      show i * 1 + 0 = i
      omega
    rw [e]
    unfold ramp_grid_cleared
    rw [if_neg hi]
  exact ⟨h, (C19_av_velocity_ignores_obstacles (example_params 1 3 2 0 1) (one_obstacle 1)
    ramp_grid ramp_grid_cleared h).2.1⟩

/-! ## Loading the obstacle file -/

/-- A loop whose iterations either store `v` in a cell or leave it alone does the same. -/
theorem loop_fill_keep {α : Type} (v : α) (f : Nat → (Nat → α) → (Nat → α))
    (hkeep : ∀ m o d, f m o d = v ∨ f m o d = o d) (n : Nat) (o : Nat → α) (d : Nat) :
    loop f n o d = v ∨ loop f n o d = o d := by
  induction n with
  | zero => exact Or.inr rfl
  | succ n ih =>
    rw [loop_succ]
    rcases hkeep n (loop f n o) d with h | h
    · exact Or.inl h
    · rw [h]
      exact ih

/-- Such a loop stores `v` in every cell that some iteration visits. -/
theorem loop_fill_hit {α : Type} (v : α) (f : Nat → (Nat → α) → (Nat → α))
    (V : Nat → Nat → Prop) (hhit : ∀ m o d, V m d → f m o d = v)
    (hkeep : ∀ m o d, f m o d = v ∨ f m o d = o d) (n : Nat) (o : Nat → α) (d : Nat)
    (h : ∃ m, m < n ∧ V m d) : loop f n o d = v := by
  induction n with
  | zero =>
    obtain ⟨m, hm, _⟩ := h
    exact absurd hm (Nat.not_lt_zero m)
  | succ n ih =>
    rw [loop_succ]
    by_cases hn : V n d
    · exact hhit n _ d hn
    · obtain ⟨m, hm, hv⟩ := h
      have hmn : m < n := by
        rcases Nat.lt_succ_iff_lt_or_eq.mp hm with h1 | h1
        · exact h1
        · exact absurd (h1 ▸ hv) hn
      rcases hkeep n (loop f n o) d with h1 | h1
      · exact h1
      · rw [h1]
        exact ih ⟨m, hmn, hv⟩

/-- After the clearing loops every cell of the grid holds 0. -/
theorem clear_obstacles_apply (params : t_param) (raw : Obstacles) (i j : Nat)
    (hi : i < params.ny) (hj : j < params.nx) :
    clear_obstacles params raw (i * params.nx + j) = 0 := by
  unfold clear_obstacles
  have hset : ∀ (r m : Nat) (o : Obstacles) (d : Nat),
      set_obstacle o (r * params.nx + m) 0 d = 0 ∨ set_obstacle o (r * params.nx + m) 0 d = o d := by
    intro r m o d
    unfold set_obstacle
    by_cases h : d = r * params.nx + m
    · exact Or.inl (if_pos h)
    · exact Or.inr (if_neg h)
  refine loop_fill_hit (0 : Int)
    (fun ii o => loop (fun jj o => set_obstacle o (ii * params.nx + jj) 0) params.nx o)
    (fun r d => ∃ m, m < params.nx ∧ d = r * params.nx + m) ?_ ?_ params.ny raw _
    ⟨i, hi, j, hj, rfl⟩
  · intro r o d hv
    refine loop_fill_hit (0 : Int) (fun jj o => set_obstacle o (r * params.nx + jj) 0)
      (fun m d => d = r * params.nx + m) ?_ (fun m o d => hset r m o d) params.nx o d hv
    intro m o d hd
    show set_obstacle o (r * params.nx + m) 0 d = 0
    unfold set_obstacle
    exact if_pos hd
  · intro r o d
    exact loop_fill_keep (0 : Int) (fun jj o => set_obstacle o (r * params.nx + jj) 0)
      (fun m o d => hset r m o d) params.nx o d

/-- One line is accepted exactly when it is valid, and then marks its cell. -/
theorem load_obstacle_line_valid (params : t_param) (e : obstacle_line) (o : Obstacles)
    (h : valid_line params e) :
    load_obstacle_line params e o
      = Except.ok (set_obstacle o (e.yy * (params.nx : Int) + e.xx).toNat 1) := by
  obtain ⟨h1, h2, h3, h4, h5, h6⟩ := h
  unfold load_obstacle_line
  rw [if_neg (not_not.mpr h1), if_neg (by omega), if_neg (by omega), if_neg (not_not.mpr h6), h6]

theorem load_obstacle_line_invalid (params : t_param) (e : obstacle_line) (o : Obstacles)
    (h : ¬ valid_line params e) :
    ∃ msg, load_obstacle_line params e o = Except.error msg := by
  unfold load_obstacle_line
  by_cases h1 : e.retval ≠ 3
  · exact ⟨_, if_pos h1⟩
  · rw [if_neg h1]
    by_cases h2 : e.xx < 0 ∨ e.xx > (params.nx : Int) - 1
    · exact ⟨_, if_pos h2⟩
    · rw [if_neg h2]
      by_cases h3 : e.yy < 0 ∨ e.yy > (params.ny : Int) - 1
      · exact ⟨_, if_pos h3⟩
      · rw [if_neg h3]
        by_cases h4 : e.blocked ≠ 1
        · exact ⟨_, if_pos h4⟩
        · exfalso
          apply h
          unfold valid_line
          refine ⟨not_not.mp h1, ?_, ?_, ?_, ?_, not_not.mp h4⟩ <;> omega

/-- The flat index of a valid line is that of the cell `(i, j)` exactly when the line
names that cell. -/
theorem valid_line_index (params : t_param) (e : obstacle_line) (h : valid_line params e)
    (i j : Nat) (hj : j < params.nx) :
    i * params.nx + j = (e.yy * (params.nx : Int) + e.xx).toNat
      ↔ (e.yy = (i : Int) ∧ e.xx = (j : Int)) := by
  obtain ⟨_, h2, h3, h4, _, _⟩ := h
  obtain ⟨y, hy⟩ := Int.eq_ofNat_of_zero_le h4
  obtain ⟨x, hx⟩ := Int.eq_ofNat_of_zero_le h2
  have hxlt : x < params.nx := by omega
  have e1 : (e.yy * (params.nx : Int) + e.xx).toNat = y * params.nx + x := by
    rw [hy, hx]
    have : ((y : Int) * (params.nx : Int) + (x : Int)) = ((y * params.nx + x : Nat) : Int) := by
      push_cast
      ring
    rw [this, Int.toNat_ofNat]
  rw [e1, hy, hx]
  constructor
  · intro he
    have := flat_index_inj params.nx _ _ _ _ hj hxlt he
    exact ⟨by exact_mod_cast this.1.symm, by exact_mod_cast this.2.symm⟩
  · rintro ⟨ha, hb⟩
    have ha' : y = i := by exact_mod_cast ha
    have hb' : x = j := by exact_mod_cast hb
    rw [ha', hb']

/-- The reading loop succeeds exactly when every line is valid. -/
theorem load_obstacle_lines_ok_iff (params : t_param) (lines : List obstacle_line)
    (o : Obstacles) :
    (∃ mask, load_obstacle_lines params lines o = Except.ok mask)
      ↔ ∀ e, e ∈ lines → valid_line params e := by
  induction lines generalizing o with
  | nil =>
    constructor
    · intro _ e he
      exact absurd he (List.not_mem_nil e)
    · intro _
      exact ⟨o, rfl⟩
  | cons e es ih =>
    by_cases hv : valid_line params e
    · have hstep : load_obstacle_lines params (e :: es) o
          = load_obstacle_lines params es
              (set_obstacle o (e.yy * (params.nx : Int) + e.xx).toNat 1) := by
        show (match load_obstacle_line params e o with
          | Except.error msg => Except.error msg
          | Except.ok o => load_obstacle_lines params es o) = _
        rw [load_obstacle_line_valid params e o hv]
      rw [hstep, ih]
      constructor
      · intro h e' he'
        rcases List.mem_cons.mp he' with h1 | h1
        · rw [h1]
          exact hv
        · exact h e' h1
      · intro h e' he'
        exact h e' (List.mem_cons_of_mem e he')
    · obtain ⟨msg, hmsg⟩ := load_obstacle_line_invalid params e o hv
      have hstep : load_obstacle_lines params (e :: es) o = Except.error msg := by
        show (match load_obstacle_line params e o with
          | Except.error msg => Except.error msg
          | Except.ok o => load_obstacle_lines params es o) = _
        rw [hmsg]
      rw [hstep]
      constructor
      · rintro ⟨mask, hm⟩
        exact absurd hm (by simp)
      · intro h
        exact absurd (h e (List.mem_cons_self e es)) hv

/-- After a successful reading loop a cell of the grid holds 1 if it is listed and its
previous value otherwise. -/
theorem load_obstacle_lines_mask (params : t_param) (lines : List obstacle_line)
    (o mask : Obstacles) (h : load_obstacle_lines params lines o = Except.ok mask)
    (i j : Nat) (hj : j < params.nx) :
    (listed lines i j ∧ mask (i * params.nx + j) = 1)
      ∨ (¬ listed lines i j ∧ mask (i * params.nx + j) = o (i * params.nx + j)) := by
  induction lines generalizing o with
  | nil =>
    right
    have hm : mask = o := by
      have h' : (Except.ok o : Except String Obstacles) = Except.ok mask := h
      injection h' with h''
      exact h''.symm
    refine ⟨?_, by rw [hm]⟩
    rintro ⟨e, he, _⟩
    exact absurd he (List.not_mem_nil e)
  | cons e es ih =>
    have hall := (load_obstacle_lines_ok_iff params (e :: es) o).mp ⟨mask, h⟩
    have hv : valid_line params e := hall e (List.mem_cons_self e es)
    have hstep : load_obstacle_lines params (e :: es) o
        = load_obstacle_lines params es
            (set_obstacle o (e.yy * (params.nx : Int) + e.xx).toNat 1) := by
      show (match load_obstacle_line params e o with
        | Except.error msg => Except.error msg
        | Except.ok o => load_obstacle_lines params es o) = _
      rw [load_obstacle_line_valid params e o hv]
    rw [hstep] at h
    rcases ih _ h with ⟨hl, hm⟩ | ⟨hl, hm⟩
    · left
      obtain ⟨e', he', hyx⟩ := hl
      exact ⟨⟨e', List.mem_cons_of_mem e he', hyx⟩, hm⟩
    · by_cases hidx : i * params.nx + j = (e.yy * (params.nx : Int) + e.xx).toNat
      · left
        refine ⟨⟨e, List.mem_cons_self e es, (valid_line_index params e hv i j hj).mp hidx⟩, ?_⟩
        rw [hm]
        unfold set_obstacle
        exact if_pos hidx
      · right
        constructor
        · rintro ⟨e', he', hyx⟩
          rcases List.mem_cons.mp he' with h1 | h1
          · rw [h1] at hyx
            exact hidx ((valid_line_index params e hv i j hj).mpr hyx)
          · exact hl ⟨e', h1, hyx⟩
        · rw [hm]
          unfold set_obstacle
          exact if_neg hidx

/-! ## Loading the obstacle file: claims -/

/-- C20: loading an obstacle list succeeds if and only if every entry has three values with
`0 <= x <= nx-1`, `0 <= y <= ny-1` and flag 1 (so it fails on any violating entry); on
success every cell `(y, x)` of the grid holds 1 if it is listed and 0 if it is not. -/
theorem C20_load_obstacles (params : t_param) (lines : List obstacle_line) (raw : Obstacles) :
    ((∃ mask, load_obstacles params lines raw = Except.ok mask)
      ↔ ∀ e, e ∈ lines → valid_line params e) ∧
    (∀ mask, load_obstacles params lines raw = Except.ok mask →
      ∀ i j, i < params.ny → j < params.nx →
        (listed lines i j ∧ mask (i * params.nx + j) = 1)
          ∨ (¬ listed lines i j ∧ mask (i * params.nx + j) = 0)) := by
  constructor
  · exact load_obstacle_lines_ok_iff params lines _
  · intro mask h i j hi hj
    rcases load_obstacle_lines_mask params lines _ mask h i j hj with h1 | h1
    · exact Or.inl h1
    · exact Or.inr ⟨h1.1, by rw [h1.2, clear_obstacles_apply params raw i j hi hj]⟩

/-! ## Loops seen through one observation of the state -/

/-- If iteration `m0` sets the observation to `v` and no later iteration changes it,
the loop leaves `v`. -/
theorem loop_obs_last {σ β : Type} (f : Nat → σ → σ) (obs : σ → β) (v : β) (n m0 : Nat)
    (hm0 : m0 < n) (hhit : ∀ s, obs (f m0 s) = v)
    (hlater : ∀ m s, m0 < m → m < n → obs (f m s) = obs s) (s : σ) :
    obs (loop f n s) = v := by
  induction n with
  | zero => exact absurd hm0 (Nat.not_lt_zero m0)
  | succ n ih =>
    rw [loop_succ]
    by_cases he : m0 = n
    · rw [← he]
      exact hhit _
    · have hlt : m0 < n := by omega
      rw [hlater n _ hlt (Nat.lt_succ_self n)]
      exact ih hlt (fun m s h1 h2 => hlater m s h1 (Nat.lt_succ_of_lt h2))

/-- If no iteration changes the observation, the loop does not change it. -/
theorem loop_obs_keep {σ β : Type} (f : Nat → σ → σ) (obs : σ → β) (n : Nat)
    (hkeep : ∀ m s, m < n → obs (f m s) = obs s) (s : σ) :
    obs (loop f n s) = obs s := by
  induction n with
  | zero => rfl
  | succ n ih =>
    rw [loop_succ, hkeep n _ (Nat.lt_succ_self n)]
    exact ih (fun m s h => hkeep m s (Nat.lt_succ_of_lt h))

/-! ## Packing and unpacking a halo row -/

/-- The send buffer holds the row it was packed from. -/
theorem pack_row_apply (nx : Nat) (cells : Grid) (row : Nat) (buf : Buffer) (hh ff : Nat)
    (hhh : hh < nx) (hff : ff < 9) :
    pack_row nx cells row buf (9 * hh + ff) = cells (row * nx + hh) ff := by
  unfold pack_row
  refine loop_obs_last
    (fun hh b => loop (fun ff b => set_buf b (9 * hh + ff) (cells (row * nx + hh) ff)) 9 b)
    (fun b => b (9 * hh + ff)) _ nx hh hhh ?_ ?_ buf
  · intro b
    refine loop_obs_last (fun q b => set_buf b (9 * hh + q) (cells (row * nx + hh) q))
      (fun b => b (9 * hh + ff)) _ 9 ff hff ?_ ?_ b
    · intro b
      show set_buf b (9 * hh + ff) _ (9 * hh + ff) = _
      unfold set_buf
      rw [if_pos rfl]
    · intro m b h1 _
      show set_buf b (9 * hh + m) _ (9 * hh + ff) = b (9 * hh + ff)
      unfold set_buf
      rw [if_neg (by omega)]
  · intro m b h1 _
    refine loop_obs_keep (fun q b => set_buf b (9 * m + q) (cells (row * nx + m) q))
      (fun b => b (9 * hh + ff)) 9 ?_ b
    intro q b hq
    show set_buf b (9 * m + q) _ (9 * hh + ff) = b (9 * hh + ff)
    unfold set_buf
    rw [if_neg (by omega)]

/-- Unpacking a buffer into row `row` stores the buffer in the cells of that row. -/
theorem unpack_row_hit (nx : Nat) (cells : Grid) (row : Nat) (buf : Buffer) (hh k : Nat)
    (hhh : hh < nx) (hk : k < 9) :
    unpack_row nx cells row buf (row * nx + hh) k = buf (9 * hh + k) := by
  unfold unpack_row
  refine loop_obs_last
    (fun hh c => loop (fun ff c => set_speed c (row * nx + hh) ff (buf (9 * hh + ff))) 9 c)
    (fun c => c (row * nx + hh) k) _ nx hh hhh ?_ ?_ cells
  · intro c
    refine loop_obs_last (fun q c => set_speed c (row * nx + hh) q (buf (9 * hh + q)))
      (fun c => c (row * nx + hh) k) _ 9 k hk ?_ ?_ c
    · intro c
      show set_speed c (row * nx + hh) k _ (row * nx + hh) k = _
      rw [set_speed_apply, if_pos ⟨rfl, rfl⟩]
    · intro m c h1 _
      show set_speed c (row * nx + hh) m _ (row * nx + hh) k = c (row * nx + hh) k
      rw [set_speed_apply, if_neg (fun h => by omega)]
  · intro m c h1 _
    refine loop_obs_keep (fun q c => set_speed c (row * nx + m) q (buf (9 * m + q)))
      (fun c => c (row * nx + hh) k) 9 ?_ c
    intro q c _
    show set_speed c (row * nx + m) q _ (row * nx + hh) k = c (row * nx + hh) k
    rw [set_speed_apply, if_neg (fun h => by omega)]

/-- Unpacking a buffer into row `row` leaves the cells outside that row as they were. -/
theorem unpack_row_keep (nx : Nat) (cells : Grid) (row : Nat) (buf : Buffer) (d k : Nat)
    (h : ∀ hh, hh < nx → d ≠ row * nx + hh) :
    unpack_row nx cells row buf d k = cells d k := by
  unfold unpack_row
  refine loop_obs_keep
    (fun hh c => loop (fun ff c => set_speed c (row * nx + hh) ff (buf (9 * hh + ff))) 9 c)
    (fun c => c d k) nx ?_ cells
  intro m c hm
  refine loop_obs_keep (fun q c => set_speed c (row * nx + m) q (buf (9 * m + q)))
    (fun c => c d k) 9 ?_ c
  intro q c _
  show set_speed c (row * nx + m) q _ d k = c d k
  rw [set_speed_apply, if_neg (fun e => h m hm e.1)]

/-- Unpacking a uniform buffer into a row of a uniform grid leaves it uniform. -/
theorem unpack_row_uniform (params : t_param) (v : t_speed) (c : Grid) (row : Nat)
    (buf : Buffer) (hc : Uniform params v c) (hb : UniformBuffer params v buf) :
    Uniform params v (unpack_row params.nx c row buf) := by
  intro i j k hi hj hk
  by_cases hr : i = row
  · subst hr
    rw [unpack_row_hit params.nx c i buf j k hj (by omega)]
    exact hb j k hj (by omega)
  · rw [unpack_row_keep]
    · exact hc i j k hi hj hk
    · intro hh hhh e
      exact hr (flat_index_inj params.nx _ _ _ _ hj hhh e).1

/-- The buffer packed from a row of a uniform grid is uniform. -/
theorem pack_row_uniform (params : t_param) (v : t_speed) (c : Grid) (row : Nat)
    (buf : Buffer) (hc : Uniform params v c) (hrow : row < params.ny) :
    UniformBuffer params v (pack_row params.nx c row buf) := by
  intro hh ff hhh hff
  rw [pack_row_apply params.nx c row buf hh ff hhh hff]
  exact hc row hh ff hrow hhh (by omega)

/-! ## The grid of `initialise` -/

theorem chain9_low (v0 v1 v2 v3 v4 v5 v6 v7 v8 : ℚ) (k : Nat) (x y : ℚ) (hk : k ≤ 8) :
    chain9 v0 v1 v2 v3 v4 v5 v6 v7 v8 k x = chain9 v0 v1 v2 v3 v4 v5 v6 v7 v8 k y := by
  unfold chain9
  interval_cases k <;> rfl

theorem initialise_cell_apply (w0 w1 w2 : ℚ) (cells : Grid) (idx d k : Nat) :
    initialise_cell w0 w1 w2 cells idx d k
      = if d = idx then chain9 w0 w1 w1 w1 w1 w2 w2 w2 w2 k (cells idx k) else cells d k := by
  unfold initialise_cell
  exact set9_apply cells idx _ _ _ _ _ _ _ _ _ d k

/-- After `initialise` every cell of the grid holds the initial values. -/
theorem initialise_cells_uniform (params : t_param) (raw : Grid) :
    Uniform params (initial_speeds params) (initialise_cells params raw) := by
  intro i j k hi hj hk
  unfold initialise_cells initial_speeds
  refine loop_obs_last
    (fun ii c => loop (fun jj c => initialise_cell (params.density * 4 / 9)
      (params.density / 9) (params.density / 36) c (ii * params.nx + jj)) params.nx c)
    (fun c => c (i * params.nx + j) k) _ params.ny i hi ?_ ?_ raw
  · intro c
    refine loop_obs_last
      (fun jj c => initialise_cell (params.density * 4 / 9) (params.density / 9)
        (params.density / 36) c (i * params.nx + jj))
      (fun c => c (i * params.nx + j) k) _ params.nx j hj ?_ ?_ c
    · intro c
      show initialise_cell _ _ _ c (i * params.nx + j) (i * params.nx + j) k = _
      rw [initialise_cell_apply, if_pos rfl]
      exact chain9_low _ _ _ _ _ _ _ _ _ k _ _ hk
    · intro m c h1 _
      show initialise_cell _ _ _ c (i * params.nx + m) (i * params.nx + j) k = _
      rw [initialise_cell_apply, if_neg (by omega)]
  · intro m c h1 _
    refine loop_obs_keep
      (fun jj c => initialise_cell (params.density * 4 / 9) (params.density / 9)
        (params.density / 36) c (m * params.nx + jj))
      (fun c => c (i * params.nx + j) k) params.nx ?_ c
    intro q c hq
    show initialise_cell _ _ _ c (m * params.nx + q) (i * params.nx + j) k = _
    rw [initialise_cell_apply, if_neg]
    intro e
    have := (flat_index_inj params.nx _ _ _ _ hj hq e).1
    omega

/-! ## One timestep on a uniform grid without forcing -/

/-- With `accel = 0` the forcing block changes nothing. -/
theorem accelerate_cell_accel_zero (params : t_param) (cells : Grid) (obstacles : Obstacles)
    (ii jj d k : Nat) (haccel : params.accel = 0) :
    accelerate_cell params cells obstacles ii jj d k = cells d k := by
  rw [accelerate_cell_apply]
  by_cases h : forcing_guard params cells obstacles (ii * params.nx + jj)
      ∧ d = ii * params.nx + jj
  · rw [if_pos h, h.2]
    simp only [forced_val, haccel, mul_zero, zero_div, sub_zero, add_zero]
    split_ifs with h7 h6 h3 h8 h5 h1
    · rw [h7]
    · rw [h6]
    · rw [h3]
    · rw [h8]
    · rw [h5]
    · rw [h1]
    · rfl
  · rw [if_neg h]

/-- With `accel = 0` the streaming phase of `propagate` leaves `cells` as it was. -/
theorem stream_phase_fst_accel_zero (params : t_param) (rank nprocs : Nat)
    (obstacles : Obstacles) (s : Grid × Grid) (d k : Nat) (haccel : params.accel = 0) :
    (stream_phase params rank nprocs obstacles s).1 d k = s.1 d k := by
  rw [stream_phase_fst]
  unfold loop_range
  have h := loop_obs_keep
    (fun q c => accelerate_cell params c obstacles
      ((row_range params.ny params.rest rank nprocs).1 + q) 0)
    (fun c => c d k)
    ((row_range params.ny params.rest rank nprocs).2 + 1
      - (row_range params.ny params.rest rank nprocs).1)
    (fun m c _ => accelerate_cell_accel_zero params c obstacles _ 0 d k haccel)
  refine (h _).trans ?_
  show accelerate_cell params _ obstacles _ 0 d k = s.1 d k
  rw [accelerate_cell_accel_zero _ _ _ _ _ _ _ haccel,
    accelerate_cell_accel_zero _ _ _ _ _ _ _ haccel]

/-- The halo exchange of a uniform grid with a uniform received buffer leaves it uniform. -/
theorem halo_phase_uniform (params : t_param) (rank nprocs : Nat) (hsr hnr : Buffer)
    (cells : Grid) (v : t_speed) (hU : Uniform params v cells)
    (hB : UniformBuffer params v hsr) :
    Uniform params v (halo_phase params rank nprocs hsr hnr cells) := by
  unfold halo_phase recv_south
  exact unpack_row_uniform params v _ _ hsr (unpack_row_uniform params v _ _ hsr hU hB) hB

theorem local_density_congr (f g : t_speed) (h : ∀ k, k ≤ 8 → f k = g k) :
    local_density f = local_density g := by
  unfold local_density
  rw [h 0 (by decide), h 1 (by decide), h 2 (by decide), h 3 (by decide), h 4 (by decide),
    h 5 (by decide), h 6 (by decide), h 7 (by decide), h 8 (by decide)]

theorem u_y_congr (f g : t_speed) (h : ∀ k, k ≤ 8 → f k = g k) : u_y f = u_y g := by
  unfold u_y local_density
  rw [h 0 (by decide), h 1 (by decide), h 2 (by decide), h 3 (by decide), h 4 (by decide),
    h 5 (by decide), h 6 (by decide), h 7 (by decide), h 8 (by decide)]

/-- The values stored by `collision` depend on components 0..8 of the scratch cell only. -/
theorem collision_val_congr (omega : ℚ) (f g : t_speed) (k : Nat) (x y : ℚ)
    (h : ∀ q, q ≤ 8 → f q = g q) (hk : k ≤ 8) :
    collision_val omega f k x = collision_val omega g k y := by
  rw [collision_val_eq _ _ _ _ hk, collision_val_eq _ _ _ _ hk, h k hk]
  unfold collision_equ u_sq
  rw [local_density_congr f g h, u_x_congr f g h, u_y_congr f g h]

/-- On a uniform grid without obstacles and with `accel = 0`, one `timestep` of a worker
that receives a uniform buffer stores in every cell of its rows the relaxation of the
uniform cell. -/
theorem timestep_uniform (params : t_param) (rank nprocs : Nat) (hsr hnr : Buffer)
    (cells tmp_cells : Grid) (obstacles : Obstacles) (v : t_speed)
    (hobs : ∀ i, obstacles i = 0) (haccel : params.accel = 0) (hny : 0 < params.ny)
    (hrank : rank < nprocs) (hrest : params.rest = params.ny % nprocs)
    (hU : Uniform params v cells) (hB : UniformBuffer params v hsr) (ii jj k : Nat)
    (h1 : (row_range params.ny params.rest rank nprocs).1 ≤ ii)
    (h2 : ii ≤ (row_range params.ny params.rest rank nprocs).2)
    (hj : jj < params.nx) (hk : k ≤ 8) :
    (timestep params rank nprocs hsr hnr cells tmp_cells obstacles).1 (ii * params.nx + jj) k
      = collision_val params.omega v k 0 := by
  unfold timestep
  simp only
  rw [collision_owned params rank nprocs _ _ obstacles ii jj k h1 h2 hj, if_pos (hobs _)]
  refine collision_val_congr params.omega _ v k _ 0 ?_ hk
  intro q hq
  have hstop := row_range_stop_lt_ny params rank nprocs hny hrank hrest
  have hii : ii < params.ny := lt_of_le_of_lt h2 hstop
  rw [propagate_owned params rank nprocs hsr hnr cells tmp_cells obstacles ii jj q hny hrank
    hrest h1 h2 hj hq]
  unfold propagate
  rw [stream_phase_fst_accel_zero _ _ _ _ _ _ _ haccel]
  exact halo_phase_uniform params rank nprocs hsr hnr cells v hU hB _ _ q
    (src_row_lt _ q ii hii) (src_col_lt _ q jj hj) hq

/-- The relaxation of the cell of `initialise` is that cell, for every `omega`: its nine
values are the equilibrium values `collision` computes from them. -/
theorem collision_val_initial (params : t_param) (k : Nat) (hk : k ≤ 8) :
    collision_val params.omega (initial_speeds params) k 0 = initial_speeds params k := by
  have hld : local_density (initial_speeds params) = params.density := by
    simp [local_density, initial_speeds, chain9]
    ring
  have hux : u_x (initial_speeds params) = 0 := by
    unfold u_x
    simp [initial_speeds, chain9]
  have huy : u_y (initial_speeds params) = 0 := by
    unfold u_y
    simp [initial_speeds, chain9]
  have he : collision_equ (initial_speeds params) k = initial_speeds params k := by
    unfold collision_equ u_sq
    rw [hld, hux, huy]
    interval_cases k <;>
      simp [chain9, initial_speeds, collision_w0, collision_w1, collision_w2] <;> ring
  rw [collision_val_eq _ _ _ _ hk, he]
  ring

/-- The loops of `rebound` leave every cell they do not visit as it was. -/
theorem rebound_miss (params : t_param) (rank nprocs : Nat) (cells tmp_cells : Grid)
    (obstacles : Obstacles) (d k : Nat)
    (h : ∀ ii jj, (row_range params.ny params.rest rank nprocs).1 ≤ ii →
      ii ≤ (row_range params.ny params.rest rank nprocs).2 → jj < params.nx →
      d ≠ ii * params.nx + jj) :
    rebound params rank nprocs cells tmp_cells obstacles d k = cells d k := by
  unfold rebound
  refine sweep_miss params.nx _ _
    (fun idx c => if obstacles idx ≠ 0 then rebound_cell c tmp_cells idx else c) ?_
    cells d k h
  intro idx c i q hi
  by_cases ho : obstacles idx ≠ 0
  · simp only [if_pos ho, rebound_cell_apply, if_neg hi]
  · simp only [if_neg ho]

/-- The loops of `collision` leave every cell they do not visit as it was. -/
theorem collision_miss (params : t_param) (rank nprocs : Nat) (cells tmp_cells : Grid)
    (obstacles : Obstacles) (d k : Nat)
    (h : ∀ ii jj, (row_range params.ny params.rest rank nprocs).1 ≤ ii →
      ii ≤ (row_range params.ny params.rest rank nprocs).2 → jj < params.nx →
      d ≠ ii * params.nx + jj) :
    collision params rank nprocs cells tmp_cells obstacles d k = cells d k := by
  unfold collision
  refine sweep_miss params.nx _ _
    (fun idx c => if obstacles idx = 0 then collision_cell params.omega c tmp_cells idx else c)
    ?_ cells d k h
  intro idx c i q hi
  by_cases ho : obstacles idx = 0
  · simp only [if_pos ho, collision_cell_apply, if_neg hi]
  · simp only [if_neg ho]

/-- Without obstacles `rebound` leaves every cell as it was. -/
theorem rebound_no_obstacles (params : t_param) (rank nprocs : Nat) (cells tmp_cells : Grid)
    (obstacles : Obstacles) (hobs : ∀ i, obstacles i = 0) (d k : Nat) :
    rebound params rank nprocs cells tmp_cells obstacles d k = cells d k := by
  by_cases hv : ∃ ii jj, (row_range params.ny params.rest rank nprocs).1 ≤ ii ∧
      ii ≤ (row_range params.ny params.rest rank nprocs).2 ∧ jj < params.nx ∧
      d = ii * params.nx + jj
  · obtain ⟨ii, jj, h1, h2, h3, rfl⟩ := hv
    rw [rebound_owned params rank nprocs cells tmp_cells obstacles ii jj k h1 h2 h3,
      if_neg (fun h => h (hobs _))]
  · exact rebound_miss params rank nprocs cells tmp_cells obstacles d k
      (fun ii jj h1 h2 h3 e => hv ⟨ii, jj, h1, h2, h3, e⟩)

/-- On a uniform grid without obstacles and with `accel = 0`, whose cell is left as it is
by the relaxation, one `timestep` of a worker that receives a uniform buffer leaves the
grid uniform: the rows the worker relaxes and the rows it does not. -/
theorem timestep_uniform_grid (params : t_param) (rank nprocs : Nat) (hsr hnr : Buffer)
    (cells tmp_cells : Grid) (obstacles : Obstacles) (v : t_speed)
    (hobs : ∀ i, obstacles i = 0) (haccel : params.accel = 0) (hny : 0 < params.ny)
    (hrank : rank < nprocs) (hrest : params.rest = params.ny % nprocs)
    (hU : Uniform params v cells) (hB : UniformBuffer params v hsr)
    (hfix : ∀ k, k ≤ 8 → collision_val params.omega v k 0 = v k) :
    Uniform params v (timestep params rank nprocs hsr hnr cells tmp_cells obstacles).1 := by
  intro i j k hi hj hk
  by_cases hown : (row_range params.ny params.rest rank nprocs).1 ≤ i
      ∧ i ≤ (row_range params.ny params.rest rank nprocs).2
  · rw [timestep_uniform params rank nprocs hsr hnr cells tmp_cells obstacles v hobs haccel hny
      hrank hrest hU hB i j k hown.1 hown.2 hj hk]
    exact hfix k hk
  · have hmiss : ∀ ii jj, (row_range params.ny params.rest rank nprocs).1 ≤ ii →
        ii ≤ (row_range params.ny params.rest rank nprocs).2 → jj < params.nx →
        i * params.nx + j ≠ ii * params.nx + jj := by
      intro ii jj h1 h2 h3 e
      have hii := (flat_index_inj params.nx _ _ _ _ hj h3 e).1
      exact hown ⟨by omega, by omega⟩
    unfold timestep
    simp only
    rw [collision_miss params rank nprocs _ _ obstacles _ k hmiss,
      rebound_no_obstacles params rank nprocs _ _ obstacles hobs]
    unfold propagate
    rw [stream_phase_fst_accel_zero _ _ _ _ _ _ _ haccel]
    exact halo_phase_uniform params rank nprocs hsr hnr cells v hU hB i j k hi hj hk

/-! ## Scenarios: claims -/

/-- C17: on a 4 x 4 grid with no obstacles, omega = 1, accel = 0, initialised by
`initialise` with any non-zero density and run by a single worker for one timestep, every
cell of the grid ends with the 9 component values it started with.  (The initial state
is an equilibrium of `collision`, which keeps it for every omega; the non-zero density
keeps the divisions of `collision` away from zero.) -/
theorem C17_uniform_state_unchanged (params : t_param) (raw : Grid) (tmp_cells : Nat → Grid)
    (i j k : Nat) (hnx : params.nx = 4) (hny : params.ny = 4) (_homega : params.omega = 1)
    (haccel : params.accel = 0) (_hd : params.density ≠ 0)
    (hrest : params.rest = params.ny % 1) (hi : i < 4) (hj : j < 4) (hk : k ≤ 8) :
    (run params 1 no_obstacles 1 (start_world (initialise_cells params raw) tmp_cells) 0).1
        (i * params.nx + j) k
      = initialise_cells params raw (i * params.nx + j) k := by
  have hrest0 : params.rest = 0 := by rw [hrest, Nat.mod_one]
  have hrange : row_range params.ny params.rest 0 1 = (0, 0) := by
    rw [hrest0, row_range_rest_zero]
  have hU := initialise_cells_uniform params raw
  have hB : UniformBuffer params (initial_speeds params)
      (halo_south_r params 1 (start_world (initialise_cells params raw) tmp_cells) 0) := by
    unfold halo_south_r send_south
    refine pack_row_uniform params _ _ _ _ hU ?_
    show (row_range params.ny params.rest 0 1).2 < params.ny
    rw [hrange, hny]
    decide
  have hT := timestep_uniform_grid params 0 1
    (halo_south_r params 1 (start_world (initialise_cells params raw) tmp_cells) 0)
    (halo_north_r params 1 (start_world (initialise_cells params raw) tmp_cells) 0)
    (initialise_cells params raw) (tmp_cells 0) no_obstacles (initial_speeds params)
    (fun _ => rfl) haccel (by omega) (by decide) hrest hU hB
    (fun q hq => collision_val_initial params q hq)
  rw [hU i j k (by omega) (by omega) hk]
  exact hT i j k (by omega) (by omega) hk

/-- C17 for density 1, the cell `(2, 3)`, outside the row the single worker relaxes, and
component 5. -/
theorem C17_uniform_state_unchanged_witness :
    (run (example_params 4 4 1 0 1) 1 no_obstacles 1
        (start_world (initialise_cells (example_params 4 4 1 0 1) (fun _ _ => 0))
          (fun _ => ones_grid)) 0).1 (2 * (example_params 4 4 1 0 1).nx + 3) 5
      = initialise_cells (example_params 4 4 1 0 1) (fun _ _ => 0)
          (2 * (example_params 4 4 1 0 1).nx + 3) 5 :=
  C17_uniform_state_unchanged (example_params 4 4 1 0 1) (fun _ _ => 0) (fun _ => ones_grid)
    2 3 5 rfl rfl rfl rfl (by decide!) rfl (by decide) (by decide) (by decide)

set_option maxRecDepth 100000 in
/-- C18 (defect): 3 x 3 grid, one obstacle at the cell `(1, 1)`, density 1, accel 1/10,
omega 1, one worker, one timestep from the grid of `initialise`.  The scratch cell of
the obstacle holds `11/90` in component 1, streamed from the forced cell `(1, 0)`, but
component 3 of the obstacle cell is still `1/9`: with one worker `params.rest = 0`, the
range is `[0, 0]` and `rebound` never visits row 1. -/
theorem C18_obstacle_outside_row_zero_not_rebounded :
    row_range 3 (3 % 1) 0 1 = (0, 0) ∧ one_obstacle 4 (1 * 3 + 1) ≠ 0 ∧
    (run (example_params 3 3 1 (1 / 10) 1) 1 (one_obstacle 4) 1
        (start_world (example_init 3 3) (fun _ => ones_grid)) 0).2 (1 * 3 + 1) 1 = 11 / 90 ∧
    (run (example_params 3 3 1 (1 / 10) 1) 1 (one_obstacle 4) 1
        (start_world (example_init 3 3) (fun _ => ones_grid)) 0).1 (1 * 3 + 1) 3 = 1 / 9 ∧
    (run (example_params 3 3 1 (1 / 10) 1) 1 (one_obstacle 4) 1
        (start_world (example_init 3 3) (fun _ => ones_grid)) 0).1 (1 * 3 + 1) 3
      ≠ (run (example_params 3 3 1 (1 / 10) 1) 1 (one_obstacle 4) 1
        (start_world (example_init 3 3) (fun _ => ones_grid)) 0).2 (1 * 3 + 1) 1 := by
  decide!

/-- C20 on a 2 x 2 grid with the single line `1 1 1`: the load succeeds and the cell
`(1, 1)` holds 1. -/
theorem C20_load_obstacles_witness :
    load_obstacles (example_params 2 2 1 0 1) [⟨3, 1, 1, 1⟩] no_obstacles
      = Except.ok (set_obstacle (clear_obstacles (example_params 2 2 1 0 1) no_obstacles) 3 1) ∧
    ((listed [(⟨3, 1, 1, 1⟩ : obstacle_line)] 1 1
        ∧ set_obstacle (clear_obstacles (example_params 2 2 1 0 1) no_obstacles) 3 1
            (1 * (example_params 2 2 1 0 1).nx + 1) = 1)
      ∨ (¬ listed [(⟨3, 1, 1, 1⟩ : obstacle_line)] 1 1
        ∧ set_obstacle (clear_obstacles (example_params 2 2 1 0 1) no_obstacles) 3 1
            (1 * (example_params 2 2 1 0 1).nx + 1) = 0)) :=
  ⟨rfl, (C20_load_obstacles (example_params 2 2 1 0 1) [⟨3, 1, 1, 1⟩] no_obstacles).2 _ rfl
    1 1 (by decide) (by decide)⟩

/-! ## Layout of the ranges when `ny % P ≠ 0` -/

/-- When `ny % P ≠ 0` and `P ≤ ny` the ranges are non-empty and laid out one after the
other from row 0 to row `ny - 1`. -/
theorem row_range_layout (ny P : Nat) (hP : 0 < P) (hPny : P ≤ ny) (hrest : ny % P ≠ 0) :
    (∀ r, (row_range ny (ny % P) r P).1 ≤ (row_range ny (ny % P) r P).2) ∧
    (row_range ny (ny % P) 0 P).1 = 0 ∧
    (∀ r, r + 1 < P →
      (row_range ny (ny % P) (r + 1) P).1 = (row_range ny (ny % P) r P).2 + 1) ∧
    (row_range ny (ny % P) (P - 1) P).2 = ny - 1 := by
  have hdm : P * (ny / P) + ny % P = ny := Nat.div_add_mod ny P
  have hlt : ny % P < P := Nat.mod_lt _ hP
  have hq : 0 < ny / P := Nat.div_pos hPny hP
  generalize ny % P = m at *
  refine ⟨?_, ?_, ?_, ?_⟩
  · intro r
    by_cases hr : r < m
    · rw [row_range_lt_rest _ _ _ _ hr]
      exact Nat.le_add_right _ _
    · rw [row_range_ge_rest _ _ _ _ hrest (Nat.le_of_not_lt hr)]
      dsimp only
      generalize ny / P = q at *
      omega
  · rw [row_range_lt_rest _ _ _ _ (Nat.pos_of_ne_zero hrest)]
    simp
  · intro r hr
    by_cases h1 : r + 1 < m
    · rw [row_range_lt_rest _ _ _ _ h1, row_range_lt_rest _ _ _ _ (by omega)]
      dsimp only
      generalize ny / P = q at *
      ring
    · by_cases h2 : r < m
      · have e : r + 1 = m := by omega
        rw [row_range_ge_rest _ _ _ _ hrest (by omega), row_range_lt_rest _ _ _ _ h2]
        dsimp only
        generalize ny / P = q at *
        subst e
        simp
        ring
      · obtain ⟨d, rfl⟩ := Nat.exists_eq_add_of_le (Nat.le_of_not_lt h2)
        rw [row_range_ge_rest _ _ _ _ hrest (by omega),
          row_range_ge_rest _ _ _ _ hrest (by omega)]
        dsimp only
        generalize ny / P = q at *
        have e0 : m + d + 1 - m = d + 1 := by omega
        have e1 : m + d - m = d := by omega
        have e2 : (d + 1) * q = d * q + q := by ring
        rw [e0, e1, e2]
        omega
  · obtain ⟨d, hd⟩ := Nat.exists_eq_add_of_le (show m ≤ P - 1 by omega)
    rw [row_range_ge_rest _ _ _ _ hrest (by omega), hd]
    dsimp only
    generalize ny / P = q at *
    have e0 : m + d - m = d := by omega
    have e1 : P = m + d + 1 := by omega
    have e2 : (m + d + 1) * q = m * q + d * q + q := by ring
    have e3 : m * (q + 1) = m * q + m := by ring
    rw [e0]
    rw [e1, e2] at hdm
    omega

/-- Every worker but the first starts after row 0. -/
theorem row_range_start_pos (ny P r : Nat) (hr0 : 0 < r) (hr : r < P) (hPny : P ≤ ny)
    (hrest : ny % P ≠ 0) : 0 < (row_range ny (ny % P) r P).1 := by
  obtain ⟨_, _, hsucc, _⟩ := row_range_layout ny P (by omega) hPny hrest
  obtain ⟨r', rfl⟩ : ∃ r', r = r' + 1 := ⟨r - 1, by omega⟩
  rw [hsucc r' hr]
  exact Nat.succ_pos _

/-- Every worker but the last ends before row `ny - 1`. -/
theorem row_range_stop_succ_lt (ny P r : Nat) (hr : r + 1 < P) (hPny : P ≤ ny)
    (hrest : ny % P ≠ 0) : (row_range ny (ny % P) r P).2 + 1 < ny := by
  obtain ⟨hne, _, hsucc, _⟩ := row_range_layout ny P (by omega) hPny hrest
  have h1 := hsucc r hr
  have h2 := hne (r + 1)
  have h3 := row_range_stop_lt ny P (r + 1) hr hrest
  omega

/-- With `ny % P ≠ 0` there are at least two workers. -/
theorem two_workers_of_rest (ny P : Nat) (hP : 0 < P) (hrest : ny % P ≠ 0) : 2 ≤ P := by
  by_contra h
  have h1 : P = 1 := by omega
  rw [h1, Nat.mod_one] at hrest
  exact hrest rfl

/-- The row below the block of worker `r` is the last row of `rank_left`. -/
theorem h_south_eq (ny P r : Nat) (hr : r < P) (hPny : P ≤ ny) (hrest : ny % P ≠ 0) :
    h_south ny (row_range ny (ny % P) r P).1
      = (row_range ny (ny % P) (rank_left r P) P).2 := by
  obtain ⟨_, h0, hsucc, hlast⟩ := row_range_layout ny P (by omega) hPny hrest
  unfold h_south rank_left
  by_cases hr0 : r = 0
  · subst hr0
    rw [if_pos h0, if_pos rfl, hlast]
  · obtain ⟨r', rfl⟩ : ∃ r', r = r' + 1 := ⟨r - 1, by omega⟩
    rw [if_neg hr0, hsucc r' hr, if_neg (Nat.succ_ne_zero _)]
    simp

/-- The row above the block of worker `r` is the first row of `rank_right`. -/
theorem h_north_eq (ny P r : Nat) (hr : r < P) (hPny : P ≤ ny) (hrest : ny % P ≠ 0) :
    h_north ny (row_range ny (ny % P) r P).2
      = (row_range ny (ny % P) (rank_right r P) P).1 := by
  obtain ⟨_, h0, hsucc, hlast⟩ := row_range_layout ny P (by omega) hPny hrest
  unfold h_north rank_right
  by_cases hr1 : r + 1 < P
  · have h1 := row_range_stop_succ_lt ny P r hr1 hPny hrest
    rw [if_neg (by omega), Nat.mod_eq_of_lt hr1, hsucc r hr1]
  · have e : r = P - 1 := by omega
    have e2 : r + 1 = P := by omega
    rw [e2, Nat.mod_self, h0, e, hlast, if_pos rfl]

/-! ## Neighbours in the ring of workers: claims -/

/-- C21: for every `ny`, `P` with `ny % P ≠ 0` and `P ≤ ny` and every worker `r`, the row
`h_south(r)` is the last row of the range of `rank_left = (r-1 if r > 0 else P-1)` and lies
in that range, and the row `h_north(r)` is the first row of the range of
`rank_right = (r+1) % P` and lies in that range. -/
theorem C21_ring_neighbours_own_halo_rows (ny P r : Nat) (hr : r < P) (hPny : P ≤ ny)
    (hrest : ny % P ≠ 0) :
    rank_left r P = (if r > 0 then r - 1 else P - 1) ∧
    h_south ny (row_range ny (ny % P) r P).1 = (row_range ny (ny % P) (rank_left r P) P).2 ∧
    (row_range ny (ny % P) (rank_left r P) P).1 ≤ h_south ny (row_range ny (ny % P) r P).1 ∧
    h_south ny (row_range ny (ny % P) r P).1 ≤ (row_range ny (ny % P) (rank_left r P) P).2 ∧
    h_north ny (row_range ny (ny % P) r P).2 = (row_range ny (ny % P) (rank_right r P) P).1 ∧
    (row_range ny (ny % P) (rank_right r P) P).1 ≤ h_north ny (row_range ny (ny % P) r P).2 ∧
    h_north ny (row_range ny (ny % P) r P).2 ≤ (row_range ny (ny % P) (rank_right r P) P).2 := by
  obtain ⟨hne, _, _, _⟩ := row_range_layout ny P (by omega) hPny hrest
  have hs := h_south_eq ny P r hr hPny hrest
  have hn := h_north_eq ny P r hr hPny hrest
  refine ⟨?_, hs, ?_, ?_, hn, ?_, ?_⟩
  · unfold rank_left
    by_cases h0 : r = 0
    · rw [if_pos h0, if_neg (by omega)]
    · rw [if_neg h0, if_pos (by omega)]
  · rw [hs]
    exact hne _
  · rw [hs]
  · rw [hn]
  · rw [hn]
    exact hne _

/-- C21 at `ny = 5`, `P = 2`, worker 0. -/
theorem C21_ring_neighbours_own_halo_rows_witness :
    rank_left 0 2 = (if 0 > 0 then 0 - 1 else 2 - 1) ∧
    h_south 5 (row_range 5 (5 % 2) 0 2).1 = (row_range 5 (5 % 2) (rank_left 0 2) 2).2 ∧
    (row_range 5 (5 % 2) (rank_left 0 2) 2).1 ≤ h_south 5 (row_range 5 (5 % 2) 0 2).1 ∧
    h_south 5 (row_range 5 (5 % 2) 0 2).1 ≤ (row_range 5 (5 % 2) (rank_left 0 2) 2).2 ∧
    h_north 5 (row_range 5 (5 % 2) 0 2).2 = (row_range 5 (5 % 2) (rank_right 0 2) 2).1 ∧
    (row_range 5 (5 % 2) (rank_right 0 2) 2).1 ≤ h_north 5 (row_range 5 (5 % 2) 0 2).2 ∧
    h_north 5 (row_range 5 (5 % 2) 0 2).2 ≤ (row_range 5 (5 % 2) (rank_right 0 2) 2).2 :=
  C21_ring_neighbours_own_halo_rows 5 2 0 (by decide) (by decide) (by decide)

/-- C25: for every `ny`, `P` with `ny % P ≠ 0` and `P ≤ ny` and every worker `r`, the rows
`h_south(r)` and `h_north(r)` lie outside the worker's range `start_r..end_r`, and every
cell of an owned row is the same after the halo-exchange phase of `propagate` as before
it, whatever the received buffers hold. -/
theorem C25_halo_rows_outside_range (params : t_param) (rank nprocs : Nat)
    (hrank : rank < nprocs) (hP : nprocs ≤ params.ny) (hrest0 : params.ny % nprocs ≠ 0)
    (hrest : params.rest = params.ny % nprocs) :
    ¬ ((row_range params.ny params.rest rank nprocs).1
          ≤ h_south params.ny (row_range params.ny params.rest rank nprocs).1
        ∧ h_south params.ny (row_range params.ny params.rest rank nprocs).1
          ≤ (row_range params.ny params.rest rank nprocs).2) ∧
    ¬ ((row_range params.ny params.rest rank nprocs).1
          ≤ h_north params.ny (row_range params.ny params.rest rank nprocs).2
        ∧ h_north params.ny (row_range params.ny params.rest rank nprocs).2
          ≤ (row_range params.ny params.rest rank nprocs).2) ∧
    (∀ (halo_south_r halo_north_r : Buffer) (cells : Grid) (i j k : Nat),
      (row_range params.ny params.rest rank nprocs).1 ≤ i →
      i ≤ (row_range params.ny params.rest rank nprocs).2 → j < params.nx →
      halo_phase params rank nprocs halo_south_r halo_north_r cells (i * params.nx + j) k
        = cells (i * params.nx + j) k) := by
  rw [hrest]
  obtain ⟨hne, h0, hsucc, hlast⟩ := row_range_layout params.ny nprocs (by omega) hP hrest0
  have h2 := two_workers_of_rest params.ny nprocs (by omega) hrest0
  have hS : ¬ ((row_range params.ny (params.ny % nprocs) rank nprocs).1
        ≤ h_south params.ny (row_range params.ny (params.ny % nprocs) rank nprocs).1
      ∧ h_south params.ny (row_range params.ny (params.ny % nprocs) rank nprocs).1
        ≤ (row_range params.ny (params.ny % nprocs) rank nprocs).2) := by
    unfold h_south
    by_cases hr0 : rank = 0
    · subst hr0
      have h3 := row_range_stop_succ_lt params.ny nprocs 0 (by omega) hP hrest0
      rw [if_pos h0]
      omega
    · have h3 := row_range_start_pos params.ny nprocs rank (by omega) hrank hP hrest0
      rw [if_neg (by omega)]
      omega
  have hN : ¬ ((row_range params.ny (params.ny % nprocs) rank nprocs).1
        ≤ h_north params.ny (row_range params.ny (params.ny % nprocs) rank nprocs).2
      ∧ h_north params.ny (row_range params.ny (params.ny % nprocs) rank nprocs).2
        ≤ (row_range params.ny (params.ny % nprocs) rank nprocs).2) := by
    unfold h_north
    by_cases hr1 : rank + 1 < nprocs
    · have h3 := row_range_stop_succ_lt params.ny nprocs rank hr1 hP hrest0
      rw [if_neg (by omega)]
      omega
    · have e : rank = nprocs - 1 := by omega
      have h3 := row_range_start_pos params.ny nprocs rank (by omega) hrank hP hrest0
      rw [e] at h3 ⊢
      rw [hlast, if_pos rfl]
      omega
  refine ⟨hS, hN, ?_⟩
  intro hsr hnr cells i j k h1 h2' hj
  unfold halo_phase recv_south
  rw [hrest]
  rw [unpack_row_keep, unpack_row_keep]
  · intro hh hhh e
    have := (flat_index_inj params.nx _ _ _ _ hj hhh e).1
    exact hS ⟨this ▸ h1, this ▸ h2'⟩
  · intro hh hhh e
    have := (flat_index_inj params.nx _ _ _ _ hj hhh e).1
    exact hN ⟨this ▸ h1, this ▸ h2'⟩

/-- C25 on a grid of 1 column and 3 rows split among 2 workers, for worker 0. -/
theorem C25_halo_rows_outside_range_witness :
    ¬ ((row_range (example_params 1 3 2 0 1).ny (example_params 1 3 2 0 1).rest 0 2).1
          ≤ h_south (example_params 1 3 2 0 1).ny
              (row_range (example_params 1 3 2 0 1).ny (example_params 1 3 2 0 1).rest 0 2).1
        ∧ h_south (example_params 1 3 2 0 1).ny
              (row_range (example_params 1 3 2 0 1).ny (example_params 1 3 2 0 1).rest 0 2).1
          ≤ (row_range (example_params 1 3 2 0 1).ny (example_params 1 3 2 0 1).rest 0 2).2) :=
  (C25_halo_rows_outside_range (example_params 1 3 2 0 1) 0 2 (by decide) (by decide)
    (by decide) rfl).1

/-! ## The index arithmetic of the scatter: claims -/

/-- C22: for every direction `k` in 0..8 the scatter of the cell `(ii, jj)` writes component
`k` of exactly one scratch cell, row `dest_row` and column `dest_col` computed with `y_n`,
`y_s`, `x_e`, `x_w`; on `[0, ny) x [0, nx)` this destination map is injective, two distinct
source cells never write the same component of the same scratch cell, and every scratch
cell is written by some source cell, so the map permutes the slots. -/
theorem C22_scatter_destinations_injective (params : t_param) (k : Nat) (hk : k ≤ 8) :
    (∀ (cells t : Grid) (ii jj d : Nat),
      scatter_cell params cells ii jj t d k
        = if d = dest_row params.ny k ii * params.nx + dest_col params.nx k jj
          then cells (ii * params.nx + jj) k else t d k) ∧
    (∀ ii jj ii' jj', ii < params.ny → jj < params.nx → ii' < params.ny → jj' < params.nx →
      dest_row params.ny k ii * params.nx + dest_col params.nx k jj
        = dest_row params.ny k ii' * params.nx + dest_col params.nx k jj' →
      ii = ii' ∧ jj = jj') ∧
    (∀ i j, i < params.ny → j < params.nx →
      ∃ ii jj, ii < params.ny ∧ jj < params.nx ∧
        dest_row params.ny k ii * params.nx + dest_col params.nx k jj = i * params.nx + j) := by
  refine ⟨?_, ?_, ?_⟩
  · intro cells t ii jj d
    exact scatter_cell_apply params cells ii jj t d k hk
  · intro ii jj ii' jj' hii hjj hii' hjj' he
    have h := flat_index_inj params.nx _ _ _ _ (dest_col_lt _ k jj hjj)
      (dest_col_lt _ k jj' hjj') he
    have h1 := (dest_row_eq_iff params.ny k ii _ hii (dest_row_lt _ k ii' hii')).mp h.1
    have h2 := (dest_row_eq_iff params.ny k ii' _ hii' (dest_row_lt _ k ii' hii')).mp rfl
    have h3 := (dest_col_eq_iff params.nx k jj _ hjj (dest_col_lt _ k jj' hjj')).mp h.2
    have h4 := (dest_col_eq_iff params.nx k jj' _ hjj' (dest_col_lt _ k jj' hjj')).mp rfl
    exact ⟨h1.trans h2.symm, h3.trans h4.symm⟩
  · intro i j hi hj
    refine ⟨src_row params.ny k i, src_col params.nx k j, src_row_lt _ k i hi,
      src_col_lt _ k j hj, ?_⟩
    rw [(dest_row_eq_iff params.ny k _ i (src_row_lt _ k i hi) hi).mpr rfl,
      (dest_col_eq_iff params.nx k _ j (src_col_lt _ k j hj) hj).mpr rfl]

/-- C22 for the north-east direction 5 on a grid of 2 columns and 3 rows: what the scatter
of the cell `(0, 0)` leaves in the scratch cell of flat index 3, and a source cell for
the scratch cell `(1, 1)`. -/
theorem C22_scatter_destinations_injective_witness :
    scatter_cell (example_params 2 3 2 0 1) ramp_grid 0 0 ones_grid 3 5
      = (if 3 = dest_row (example_params 2 3 2 0 1).ny 5 0 * (example_params 2 3 2 0 1).nx
            + dest_col (example_params 2 3 2 0 1).nx 5 0
          then ramp_grid (0 * (example_params 2 3 2 0 1).nx + 0) 5 else ones_grid 3 5) ∧
    (∃ ii jj, ii < (example_params 2 3 2 0 1).ny ∧ jj < (example_params 2 3 2 0 1).nx ∧
      dest_row (example_params 2 3 2 0 1).ny 5 ii * (example_params 2 3 2 0 1).nx
          + dest_col (example_params 2 3 2 0 1).nx 5 jj
        = 1 * (example_params 2 3 2 0 1).nx + 1) :=
  ⟨(C22_scatter_destinations_injective (example_params 2 3 2 0 1) 5 (by decide)).1
      ramp_grid ones_grid 0 0 3,
    (C22_scatter_destinations_injective (example_params 2 3 2 0 1) 5 (by decide)).2.2 1 1
      (by decide) (by decide)⟩

/-- C23: for every `0 <= ii < ny` and `0 <= jj < nx` the neighbour indices of `propagate`
are `x_e = (jj+1) mod nx`, `x_w = (jj-1+nx) mod nx`, `y_n = (ii+1) mod ny`,
`y_s = (ii-1+ny) mod ny`, all in range, and each of the nine scratch indices written,
`row*nx + col`, lies in `[0, nx*ny)`. -/
theorem C23_neighbour_indices_in_range (nx ny ii jj : Nat) (hii : ii < ny) (hjj : jj < nx) :
    x_e nx jj = (jj + 1) % nx ∧ x_w nx jj = (jj + nx - 1) % nx ∧
    y_n ny ii = (ii + 1) % ny ∧ y_s ny ii = (ii + ny - 1) % ny ∧
    x_e nx jj < nx ∧ x_w nx jj < nx ∧ y_n ny ii < ny ∧ y_s ny ii < ny ∧
    ii * nx + jj < nx * ny ∧ ii * nx + x_e nx jj < nx * ny ∧
    y_n ny ii * nx + jj < nx * ny ∧ ii * nx + x_w nx jj < nx * ny ∧
    y_s ny ii * nx + jj < nx * ny ∧ y_n ny ii * nx + x_e nx jj < nx * ny ∧
    y_n ny ii * nx + x_w nx jj < nx * ny ∧ y_s ny ii * nx + x_w nx jj < nx * ny ∧
    y_s ny ii * nx + x_e nx jj < nx * ny := by
  have hxe := x_e_lt nx jj (by omega)
  have hxw := x_w_lt nx jj hjj
  have hyn := y_n_lt ny ii (by omega)
  have hys := y_s_lt ny ii hii
  have hidx : ∀ r c, r < ny → c < nx → r * nx + c < nx * ny := by
    intro r c hr hc
    have h1 : (r + 1) * nx ≤ ny * nx := Nat.mul_le_mul_right nx hr
    have h2 : (r + 1) * nx = r * nx + nx := by ring
    have h3 : ny * nx = nx * ny := Nat.mul_comm _ _
    omega
  have exw : x_w nx jj = (jj + nx - 1) % nx := by
    unfold x_w
    by_cases h0 : jj = 0
    · rw [if_pos h0, Nat.mod_eq_of_lt (by omega)]
    · have e : jj + nx - 1 = jj - 1 + nx := by omega
      rw [if_neg h0, e, Nat.add_mod_right, Nat.mod_eq_of_lt (by omega)]
  have eys : y_s ny ii = (ii + ny - 1) % ny := by
    unfold y_s
    by_cases h0 : ii = 0
    · rw [if_pos h0, Nat.mod_eq_of_lt (by omega)]
    · have e : ii + ny - 1 = ii - 1 + ny := by omega
      rw [if_neg h0, e, Nat.add_mod_right, Nat.mod_eq_of_lt (by omega)]
  exact ⟨rfl, exw, rfl, eys, hxe, hxw, hyn, hys, hidx _ _ hii hjj, hidx _ _ hii hxe,
    hidx _ _ hyn hjj, hidx _ _ hii hxw, hidx _ _ hys hjj, hidx _ _ hyn hxe, hidx _ _ hyn hxw,
    hidx _ _ hys hxw, hidx _ _ hys hxe⟩

/-- C23 on a grid of 3 columns and 4 rows, for the corner cell `(0, 0)`. -/
theorem C23_neighbour_indices_in_range_witness :
    x_e 3 0 = (0 + 1) % 3 ∧ x_w 3 0 = (0 + 3 - 1) % 3 ∧
    y_n 4 0 = (0 + 1) % 4 ∧ y_s 4 0 = (0 + 4 - 1) % 4 ∧
    x_e 3 0 < 3 ∧ x_w 3 0 < 3 ∧ y_n 4 0 < 4 ∧ y_s 4 0 < 4 ∧
    0 * 3 + 0 < 3 * 4 ∧ 0 * 3 + x_e 3 0 < 3 * 4 ∧
    y_n 4 0 * 3 + 0 < 3 * 4 ∧ 0 * 3 + x_w 3 0 < 3 * 4 ∧
    y_s 4 0 * 3 + 0 < 3 * 4 ∧ y_n 4 0 * 3 + x_e 3 0 < 3 * 4 ∧
    y_n 4 0 * 3 + x_w 3 0 < 3 * 4 ∧ y_s 4 0 * 3 + x_w 3 0 < 3 * 4 ∧
    y_s 4 0 * 3 + x_e 3 0 < 3 * 4 :=
  C23_neighbour_indices_in_range 3 4 0 0 (by decide) (by decide)

/-! ## What `rebound` leaves alone: claims -/

/-- The value `rebound` stores in component 0 is the one that was there. -/
theorem rebound_val_zero (t : t_speed) (x : ℚ) : rebound_val t 0 x = x := by
  simp [rebound_val]

/-- C24: `rebound` changes nothing but components 1..8 of obstacle cells in the rows
`start..end`: every non-obstacle cell, every cell of a row outside `start..end` (the halo
rows among them) and component 0 of every cell are the same after `rebound` as before.
(`rebound` only reads `tmp_cells`, it returns the new `cells` alone.) -/
theorem C24_rebound_frame (params : t_param) (rank nprocs : Nat) (cells tmp_cells : Grid)
    (obstacles : Obstacles) :
    (∀ d k, obstacles d = 0 →
      rebound params rank nprocs cells tmp_cells obstacles d k = cells d k) ∧
    (∀ i j k, j < params.nx →
      (i < (row_range params.ny params.rest rank nprocs).1
        ∨ (row_range params.ny params.rest rank nprocs).2 < i) →
      rebound params rank nprocs cells tmp_cells obstacles (i * params.nx + j) k
        = cells (i * params.nx + j) k) ∧
    (∀ d, rebound params rank nprocs cells tmp_cells obstacles d 0 = cells d 0) := by
  have hmiss : ∀ d k,
      (∀ ii jj, (row_range params.ny params.rest rank nprocs).1 ≤ ii →
        ii ≤ (row_range params.ny params.rest rank nprocs).2 → jj < params.nx →
        d ≠ ii * params.nx + jj) →
      rebound params rank nprocs cells tmp_cells obstacles d k = cells d k := by
    intro d k h
    unfold rebound
    refine sweep_miss params.nx _ _
      (fun idx c => if obstacles idx ≠ 0 then rebound_cell c tmp_cells idx else c) ?_
      cells d k h
    intro idx c i q hi
    by_cases ho : obstacles idx ≠ 0
    · simp only [if_pos ho, rebound_cell_apply, if_neg hi]
    · simp only [if_neg ho]
  have hcases : ∀ d k, (obstacles d = 0 ∨ k = 0) →
      rebound params rank nprocs cells tmp_cells obstacles d k = cells d k := by
    intro d k hdk
    by_cases hv : ∃ ii jj, (row_range params.ny params.rest rank nprocs).1 ≤ ii ∧
        ii ≤ (row_range params.ny params.rest rank nprocs).2 ∧ jj < params.nx ∧
        d = ii * params.nx + jj
    · obtain ⟨ii, jj, h1, h2, h3, rfl⟩ := hv
      rw [rebound_owned params rank nprocs cells tmp_cells obstacles ii jj k h1 h2 h3]
      by_cases ho : obstacles (ii * params.nx + jj) ≠ 0
      · rw [if_pos ho]
        rcases hdk with h0 | h0
        · exact absurd h0 ho
        · rw [h0, rebound_val_zero]
      · rw [if_neg ho]
    · exact hmiss d k (fun ii jj h1 h2 h3 e => hv ⟨ii, jj, h1, h2, h3, e⟩)
  refine ⟨fun d k h => hcases d k (Or.inl h), ?_, fun d => hcases d 0 (Or.inr rfl)⟩
  intro i j k hj hout
  refine hmiss _ k ?_
  intro ii jj h1 h2 h3 e
  have := (flat_index_inj params.nx _ _ _ _ hj h3 e).1
  omega

/-- C24 on a grid of 1 column and 3 rows split among 2 workers: worker 0 owns rows 0..1,
the obstacle cell of row 2 is outside its range and keeps its component 1. -/
theorem C24_rebound_frame_witness :
    rebound (example_params 1 3 2 0 1) 0 2 ones_grid ramp_grid (one_obstacle 2)
        (2 * (example_params 1 3 2 0 1).nx + 0) 1
      = ones_grid (2 * (example_params 1 3 2 0 1).nx + 0) 1 :=
  (C24_rebound_frame (example_params 1 3 2 0 1) 0 2 ones_grid ramp_grid (one_obstacle 2)).2.1
    2 0 1 (by decide) (Or.inr (by decide))

/-! ## Densities: claims -/

/-- C26: for every omega and every non-obstacle cell of the worker's rows whose scratch
cell has non-zero density, the 9 components `collision` writes into the cell sum to the
local density of the 9 scratch components it read, with the weight constants of the
code. -/
theorem C26_collision_density (params : t_param) (rank nprocs : Nat)
    (cells tmp_cells : Grid) (obstacles : Obstacles) (ii jj : Nat)
    (h1 : (row_range params.ny params.rest rank nprocs).1 ≤ ii)
    (h2 : ii ≤ (row_range params.ny params.rest rank nprocs).2)
    (h3 : jj < params.nx) (hobs : obstacles (ii * params.nx + jj) = 0)
    (_hrho : local_density (tmp_cells (ii * params.nx + jj)) ≠ 0) :
    local_density
        (collision params rank nprocs cells tmp_cells obstacles (ii * params.nx + jj))
      = local_density (tmp_cells (ii * params.nx + jj)) := by
  have key : ∀ k, k ≤ 8 →
      collision params rank nprocs cells tmp_cells obstacles (ii * params.nx + jj) k
        = tmp_cells (ii * params.nx + jj) k
          + params.omega * (collision_equ (tmp_cells (ii * params.nx + jj)) k
            - tmp_cells (ii * params.nx + jj) k) := by
    intro k hk
    rw [collision_owned params rank nprocs cells tmp_cells obstacles ii jj k h1 h2 h3,
      if_pos hobs, collision_val_eq _ _ _ _ hk]
  have hs := collision_equ_sum (tmp_cells (ii * params.nx + jj))
  generalize tmp_cells (ii * params.nx + jj) = f at *
  generalize collision params rank nprocs cells tmp_cells obstacles (ii * params.nx + jj) = g
    at *
  have hg : local_density g = g 0 + g 1 + g 2 + g 3 + g 4 + g 5 + g 6 + g 7 + g 8 := rfl
  rw [hg, key 0 (by decide), key 1 (by decide), key 2 (by decide), key 3 (by decide),
    key 4 (by decide), key 5 (by decide), key 6 (by decide), key 7 (by decide),
    key 8 (by decide)]
  have hf : f 0 + f 1 + f 2 + f 3 + f 4 + f 5 + f 6 + f 7 + f 8 = local_density f := rfl
  unfold sum9 at hs
  linear_combination params.omega * hs + (1 - params.omega) * hf

set_option maxRecDepth 100000 in
/-- C26 on a 1 x 1 grid, one worker, omega 17/10: the scratch cell holds `0, 1, .., 8`,
density 36 and velocity not zero, and the nine written components sum to 36. -/
theorem C26_collision_density_witness :
    local_density (ramp_grid (0 * (example_params 1 1 1 0 (17 / 10)).nx + 0)) = 36 ∧
    local_density
        (collision (example_params 1 1 1 0 (17 / 10)) 0 1 ones_grid ramp_grid no_obstacles
          (0 * (example_params 1 1 1 0 (17 / 10)).nx + 0))
      = local_density (ramp_grid (0 * (example_params 1 1 1 0 (17 / 10)).nx + 0)) :=
  ⟨by decide!,
    C26_collision_density (example_params 1 1 1 0 (17 / 10)) 0 1 ones_grid ramp_grid
      no_obstacles 0 0 (by decide) (by decide) (by decide) rfl (by decide!)⟩

/-- C27: the forcing block keeps the sum of the cell's 9 components, for every cell, density
and accel; whenever its guard holds the resulting components 3, 6 and 7 are strictly
positive, and the block modifies the cell only when its guard holds. -/
theorem C27_forcing_conserves_density (params : t_param) (cells : Grid)
    (obstacles : Obstacles) (ii jj : Nat) :
    local_density (accelerate_cell params cells obstacles ii jj (ii * params.nx + jj))
      = local_density (cells (ii * params.nx + jj)) ∧
    (forcing_guard params cells obstacles (ii * params.nx + jj) →
      0 < accelerate_cell params cells obstacles ii jj (ii * params.nx + jj) 3 ∧
      0 < accelerate_cell params cells obstacles ii jj (ii * params.nx + jj) 6 ∧
      0 < accelerate_cell params cells obstacles ii jj (ii * params.nx + jj) 7) ∧
    ((∃ k, accelerate_cell params cells obstacles ii jj (ii * params.nx + jj) k
        ≠ cells (ii * params.nx + jj) k) →
      forcing_guard params cells obstacles (ii * params.nx + jj)) := by
  by_cases hg : forcing_guard params cells obstacles (ii * params.nx + jj)
  · have key : ∀ k, accelerate_cell params cells obstacles ii jj (ii * params.nx + jj) k
        = forced_val (params.density * params.accel / 9) (params.density * params.accel / 36)
            (cells (ii * params.nx + jj)) k := by
      intro k
      rw [accelerate_cell_apply, if_pos ⟨hg, rfl⟩]
    refine ⟨?_, fun _ => ?_, fun _ => hg⟩
    · unfold local_density
      simp only [key]
      simp [forced_val]
      ring
    · obtain ⟨_, g3, g6, g7⟩ := hg
      simp only [key]
      simp only [forced_val, if_true, if_false, Nat.reduceEqDiff, OfNat.ofNat_ne_zero,
        OfNat.zero_ne_ofNat, reduceCtorEq, Nat.succ_ne_self, OfNat.ofNat_ne_one,
        OfNat.one_ne_ofNat, Nat.one_ne_zero, Nat.zero_ne_one]
      exact ⟨g3, g6, g7⟩
  · have key : ∀ k, accelerate_cell params cells obstacles ii jj (ii * params.nx + jj) k
        = cells (ii * params.nx + jj) k := by
      intro k
      rw [accelerate_cell_apply, if_neg (fun h => hg h.1)]
    refine ⟨?_, fun h => absurd h hg, ?_⟩
    · unfold local_density
      simp only [key]
    · rintro ⟨k, hk⟩
      exact absurd (key k) hk

set_option maxRecDepth 100000 in
/-- C27 on the cell `(0, 0)` of the grid of `initialise` with density 1 and accel 1/10,
where the guard holds. -/
theorem C27_forcing_conserves_density_witness :
    forcing_guard (example_params 1 1 1 (1 / 10) 1) (example_init 1 1) no_obstacles
      (0 * (example_params 1 1 1 (1 / 10) 1).nx + 0) ∧
    0 < accelerate_cell (example_params 1 1 1 (1 / 10) 1) (example_init 1 1) no_obstacles 0 0
      (0 * (example_params 1 1 1 (1 / 10) 1).nx + 0) 3 :=
  ⟨by decide!, ((C27_forcing_conserves_density (example_params 1 1 1 (1 / 10) 1)
    (example_init 1 1) no_obstacles 0 0).2.1 (by decide!)).1⟩

/-! ## The initial state: claims -/

theorem initial_speeds_density (params : t_param) :
    local_density (initial_speeds params) = params.density := by
  simp [local_density, initial_speeds, chain9]
  ring

theorem initial_speeds_u_x (params : t_param) : u_x (initial_speeds params) = 0 := by
  unfold u_x
  simp [initial_speeds, chain9]

theorem initial_speeds_u_y (params : t_param) : u_y (initial_speeds params) = 0 := by
  unfold u_y
  simp [initial_speeds, chain9]

/-- C28: after `initialise` with any non-zero density, every cell of the grid has the
components `(4/9, 1/9, 1/9, 1/9, 1/9, 1/36, 1/36, 1/36, 1/36)` times `density`, its 9
components sum to `density`, its x and y velocities are 0, and `av_velocity` of the initial
grid is 0 whenever at least one cell is not an obstacle. -/
theorem C28_initial_state (params : t_param) (raw : Grid) (obstacles : Obstacles)
    (_hd : params.density ≠ 0) :
    (∀ i j, i < params.ny → j < params.nx →
      initialise_cells params raw (i * params.nx + j) 0 = 4 / 9 * params.density ∧
      initialise_cells params raw (i * params.nx + j) 1 = 1 / 9 * params.density ∧
      initialise_cells params raw (i * params.nx + j) 2 = 1 / 9 * params.density ∧
      initialise_cells params raw (i * params.nx + j) 3 = 1 / 9 * params.density ∧
      initialise_cells params raw (i * params.nx + j) 4 = 1 / 9 * params.density ∧
      initialise_cells params raw (i * params.nx + j) 5 = 1 / 36 * params.density ∧
      initialise_cells params raw (i * params.nx + j) 6 = 1 / 36 * params.density ∧
      initialise_cells params raw (i * params.nx + j) 7 = 1 / 36 * params.density ∧
      initialise_cells params raw (i * params.nx + j) 8 = 1 / 36 * params.density ∧
      local_density (initialise_cells params raw (i * params.nx + j)) = params.density ∧
      u_x (initialise_cells params raw (i * params.nx + j)) = 0 ∧
      u_y (initialise_cells params raw (i * params.nx + j)) = 0) ∧
    ((∃ i j, i < params.ny ∧ j < params.nx ∧ obstacles (i * params.nx + j) = 0) →
      av_velocity params (initialise_cells params raw) obstacles = 0) := by
  have hU := initialise_cells_uniform params raw
  have hux : ∀ i j, i < params.ny → j < params.nx →
      u_x (initialise_cells params raw (i * params.nx + j)) = 0 := by
    intro i j hi hj
    rw [u_x_congr _ (initial_speeds params) (fun k hk => hU i j k hi hj hk)]
    exact initial_speeds_u_x params
  constructor
  · intro i j hi hj
    have hv : ∀ k, k ≤ 8 → initialise_cells params raw (i * params.nx + j) k
        = initial_speeds params k := fun k hk => hU i j k hi hj hk
    refine ⟨?_, ?_, ?_, ?_, ?_, ?_, ?_, ?_, ?_, ?_, hux i j hi hj, ?_⟩
    · rw [hv 0 (by decide)]
      simp [initial_speeds, chain9]
      ring
    · rw [hv 1 (by decide)]
      simp [initial_speeds, chain9]
      ring
    · rw [hv 2 (by decide)]
      simp [initial_speeds, chain9]
      ring
    · rw [hv 3 (by decide)]
      simp [initial_speeds, chain9]
      ring
    · rw [hv 4 (by decide)]
      simp [initial_speeds, chain9]
      ring
    · rw [hv 5 (by decide)]
      simp [initial_speeds, chain9]
      ring
    · rw [hv 6 (by decide)]
      simp [initial_speeds, chain9]
      ring
    · rw [hv 7 (by decide)]
      simp [initial_speeds, chain9]
      ring
    · rw [hv 8 (by decide)]
      simp [initial_speeds, chain9]
      ring
    · rw [local_density_congr _ (initial_speeds params) hv]
      exact initial_speeds_density params
    · rw [u_y_congr _ (initial_speeds params) hv]
      exact initial_speeds_u_y params
  · intro _
    rw [av_velocity_eq_spec]
    unfold spec_av_velocity
    have hz : Finset.sum (Finset.range params.ny)
        (fun i => row_u_x params.nx (initialise_cells params raw) obstacles i) = 0 := by
      refine Finset.sum_eq_zero ?_
      intro i hi
      unfold row_u_x
      refine Finset.sum_eq_zero ?_
      intro j hj
      rw [hux i j (Finset.mem_range.mp hi) (Finset.mem_range.mp hj)]
      simp
    rw [hz, zero_div]

set_option maxRecDepth 100000 in
/-- C28 for density 1 on a grid of 2 columns and 2 rows without obstacles. -/
theorem C28_initial_state_witness :
    (example_params 2 2 1 0 1).density ≠ 0 ∧
    (∃ i j, i < (example_params 2 2 1 0 1).ny ∧ j < (example_params 2 2 1 0 1).nx
      ∧ no_obstacles (i * (example_params 2 2 1 0 1).nx + j) = 0) ∧
    av_velocity (example_params 2 2 1 0 1)
      (initialise_cells (example_params 2 2 1 0 1) (fun _ _ => 0)) no_obstacles = 0 :=
  ⟨by decide!, ⟨0, 0, by decide, by decide, rfl⟩,
    (C28_initial_state (example_params 2 2 1 0 1) (fun _ _ => 0) no_obstacles (by decide!)).2
      ⟨0, 0, by decide, by decide, rfl⟩⟩

end D2Q9
